import Mathlib

/-!
Book tracker: catalog deduplication and reference-counted lifecycle.

A shallow embedding of `src/backend/server.js` (Express + Mongoose).

* The two Mongo collections that carry invariants (`Book`, `ReadingProgress`) are lists of
  documents in insertion order; `findOne` is `List.find?`, `save` of a new document appends.
* `ObjectId`s and dates are natural numbers.  The id that Mongoose generates for a new
  document and the value of `Date.now` are inputs of each handler (`Env`).
* JSON request bodies are typed records with optional fields (`none` = field absent);
  numbers are integers; the quotients behind the derived percentages are evaluated in
  double precision (section `Derived percentage`).
* The storage layer enforces exactly what the schemas declare: uniqueness of `_id` in each
  collection and the unique index `{ userId: 1, bookId: 1 }` on `ReadingProgress`.
  `BookSchema` declares no unique index.
* A handler is a function `Store → ... → Response × Store`; the `try/catch` of the source is
  made explicit, so that writes performed before an exception are kept.
-/

namespace BookTracker

abbrev ObjectId := Nat

abbrev Date := Nat

/-! ## Documents (lines 53-90) -/

/-- A persisted `Book` document (`BookSchema`, lines 53-68). -/
structure Book where
  _id : ObjectId
  title : String
  author : String
  description : Option String
  genre : Option String
  totalPages : Int
  coverImage : Option String
  thumbnail : Option String
  isbn : Option String
  publishedDate : Option String
  publisher : Option String
  googleId : Option String
  previewLink : Option String
  rating : Option Int
  createdAt : Date
  deriving DecidableEq, Repr

/-- A persisted `ReadingProgress` document (`ReadingProgressSchema`, lines 70-84). -/
structure ReadingProgress where
  _id : ObjectId
  userId : ObjectId
  bookId : ObjectId
  currentPage : Int
  status : String
  startedAt : Date
  completedAt : Option Date
  notes : Option String
  rating : Option Int
  updatedAt : Date
  deriving DecidableEq, Repr

/-- The database: the `books` and `readingprogresses` collections in insertion order. -/
structure Store where
  books : List Book
  progress : List ReadingProgress
  deriving DecidableEq, Repr

/-- Values supplied by the runtime to one request: the `ObjectId` generated for a new Book,
the `ObjectId` generated for a new ReadingProgress, and the clock. -/
structure Env where
  bookId : ObjectId
  progressId : ObjectId
  now : Date
  deriving DecidableEq, Repr

/-! ## Responses -/

/-- JSON payload of a response. -/
inductive Body where
  | error (msg : String)
  | errorWithBook (msg : String) (book : Book)
  | book (b : Book)
  | books (bs : List Book) (total : Nat)
  | progress (p : ReadingProgress) (populated : Book) (percentage : Int)
  | progressList (rows : List (ReadingProgress × Book × Int))
  | deletedBook (deletedBookId : ObjectId)
  | deletedProgress (deletedProgressId : ObjectId)
  | stats (totalBooks completedBooks : Nat) (statusBreakdown : List (String × Nat))
      (completionRate : Int)
  deriving DecidableEq, Repr

/-- An HTTP response: status code and JSON payload. -/
structure Response where
  status : Nat
  body : Body
  deriving DecidableEq, Repr

/-- The Book carried by a response, if any. -/
def Response.book? (r : Response) : Option Book :=
  match r.body with
  | .book b => some b
  | .errorWithBook _ b => some b
  | _ => none

/-- Errors thrown inside a handler's `try` block. -/
inductive DbError where
  | validation
  | duplicateKey
  | cast
  | typeError
  deriving DecidableEq, Repr

/-! ## JavaScript value helpers -/

/-- Truthiness of an optional string: present and non-empty. -/
def truthy (x : Option String) : Bool :=
  match x with
  | some v => v != ""
  | none => false

/-- The JavaScript expression `x || d` for an optional string `x`. -/
def strOr (x : Option String) (d : String) : String :=
  match x with
  | some v => if v = "" then d else v
  | none => d

/-- The JavaScript expression `x || d` for an optional number `x`. -/
def numOr (x : Option Int) (d : Int) : Int :=
  match x with
  | some v => if v = 0 then d else v
  | none => d

/-! ## Mongoose documents before validation -/

/-- The argument of `new Book(...)`: every schema path is optional, and the caller may supply
`_id` and `createdAt`. -/
structure BookDoc where
  _id : Option ObjectId := none
  title : Option String := none
  author : Option String := none
  description : Option String := none
  genre : Option String := none
  totalPages : Option Int := none
  coverImage : Option String := none
  thumbnail : Option String := none
  isbn : Option String := none
  publishedDate : Option String := none
  publisher : Option String := none
  googleId : Option String := none
  previewLink : Option String := none
  rating : Option Int := none
  createdAt : Option Date := none
  deriving DecidableEq, Repr

/-- Schema validator `{ min: 0, max: 5 }` of the `rating` paths: an absent value passes. -/
def ratingOk (r : Option Int) : Bool :=
  match r with
  | some v => decide (0 ≤ v) && decide (v ≤ 5)
  | none => true

/-- Validation run by `book.save()`: `title` and `author` are required strings (Mongoose
rejects the empty string for a required string), `totalPages` is a required number, and
`rating` lies in `[0, 5]`.  Defaults: generated `_id`, `createdAt = Date.now`. -/
def BookDoc.validate (d : BookDoc) (env : Env) : Except DbError Book :=
  match d.title, d.author, d.totalPages with
  | some t, some a, some n =>
    if t = "" ∨ a = "" ∨ ratingOk d.rating = false then .error .validation
    else .ok
      { _id := d._id.getD env.bookId, title := t, author := a, description := d.description,
        genre := d.genre, totalPages := n, coverImage := d.coverImage,
        thumbnail := d.thumbnail, isbn := d.isbn, publishedDate := d.publishedDate,
        publisher := d.publisher, googleId := d.googleId, previewLink := d.previewLink,
        rating := d.rating, createdAt := d.createdAt.getD env.now }
  | _, _, _ => .error .validation

/-- Does the collection hold a Book with this `_id`? -/
def Store.hasBookId (s : Store) (id : ObjectId) : Bool :=
  s.books.any (fun b => b._id == id)

/-- Does the collection hold a ReadingProgress with this `_id`? -/
def Store.hasProgressId (s : Store) (id : ObjectId) : Bool :=
  s.progress.any (fun p => p._id == id)

/-- Query `ReadingProgress.findOne({ userId, bookId })`. -/
def Store.findProgress (s : Store) (userId bookId : ObjectId) : Option ReadingProgress :=
  s.progress.find? (fun p => p.userId == userId && p.bookId == bookId)

/-- Query `Book.findOne({ isbn })`. -/
def Store.findBookByIsbn (s : Store) (isbn : String) : Option Book :=
  s.books.find? (fun b => b.isbn == some isbn)

/-- Query `Book.findOne({ googleId })`. -/
def Store.findBookByGoogleId (s : Store) (googleId : String) : Option Book :=
  s.books.find? (fun b => b.googleId == some googleId)

/-- Query `Book.findById(id)`, also used by `populate('bookId')`. -/
def Store.findBookById (s : Store) (id : ObjectId) : Option Book :=
  s.books.find? (fun b => b._id == id)

/-- The call `book.save()` on a new document: validate, then insert; the insert fails with
`E11000` when the `_id` is already present. -/
def Store.saveNewBook (s : Store) (d : BookDoc) (env : Env) : Except DbError (Book × Store) :=
  match d.validate env with
  | .error e => .error e
  | .ok b =>
    if s.hasBookId b._id then .error .duplicateKey
    else .ok (b, { s with books := s.books ++ [b] })

/-- The argument of `new ReadingProgress(...)`. -/
structure ProgressDoc where
  userId : ObjectId
  bookId : ObjectId
  currentPage : Int := 0
  status : Option String := none
  notes : Option String := none
  rating : Option Int := none
  deriving DecidableEq, Repr

/-- The `enum` of the `status` path (line 76). -/
def statusEnum : List String := ["reading", "completed", "paused", "wishlist"]

/-- The call `progress.save()` on a new document: defaults (`status = reading`,
`startedAt = updatedAt = Date.now`), validation (`status` in the enum, `rating` in
`[0, 5]`), then insert; the insert fails with `E11000` when the `_id` is already present or
the unique index `{ userId, bookId }` is violated. -/
def Store.saveNewProgress (s : Store) (d : ProgressDoc) (env : Env) :
    Except DbError (ReadingProgress × Store) :=
  let p : ReadingProgress :=
    { _id := env.progressId, userId := d.userId, bookId := d.bookId,
      currentPage := d.currentPage, status := d.status.getD "reading",
      startedAt := env.now, completedAt := none, notes := d.notes, rating := d.rating,
      updatedAt := env.now }
  if p.status ∉ statusEnum ∨ ratingOk p.rating = false then .error .validation
  else if s.hasProgressId p._id ∨ (s.findProgress p.userId p.bookId).isSome then
    .error .duplicateKey
  else .ok (p, { s with progress := s.progress ++ [p] })

/-! ## POST /api/books/add-from-google (lines 280-367) -/

/-- The `googleBookData` object of the request body. -/
structure GoogleBookData where
  title : Option String := none
  author : Option String := none
  totalPages : Option Int := none
  genre : Option String := none
  isbn : Option String := none
  description : Option String := none
  thumbnail : Option String := none
  googleId : Option String := none
  publishedDate : Option String := none
  publisher : Option String := none
  previewLink : Option String := none
  deriving DecidableEq, Repr

/-- Lines 288-295: look the candidate up by isbn, then by googleId. -/
def findExistingBook (s : Store) (g : GoogleBookData) : Option Book :=
  let existingBook : Option Book :=
    if truthy g.isbn then s.findBookByIsbn (g.isbn.getD "") else none
  if existingBook.isNone && truthy g.googleId then s.findBookByGoogleId (g.googleId.getD "")
  else existingBook

/-- Lines 304-316: the `bookToSave` object. -/
def bookToSave (g : GoogleBookData) : BookDoc :=
  { title := some (strOr g.title "Título no disponible"),
    author := some (strOr g.author "Autor desconocido"),
    totalPages := some (numOr g.totalPages 0),
    genre := some (strOr g.genre ""),
    isbn := some (strOr g.isbn ""),
    description := some (strOr g.description ""),
    thumbnail := some (strOr g.thumbnail ""),
    googleId := some (strOr g.googleId ""),
    publishedDate := some (strOr g.publishedDate ""),
    publisher := some (strOr g.publisher ""),
    previewLink := some (strOr g.previewLink "") }

/-- Lines 288-321, the resolve part: the Book to use and the store after it. -/
def resolveBook (s : Store) (g : GoogleBookData) (env : Env) : Except DbError (Book × Store) :=
  match findExistingBook s g with
  | some existingBook => .ok (existingBook, s)
  | none => s.saveNewBook (bookToSave g) env

/-- The `catch` block of add-from-google (lines 355-366). -/
def addFromGoogleCatch (e : DbError) : Response :=
  if e = .duplicateKey then ⟨400, .error "El libro ya existe en la base de datos"⟩
  else ⟨500, .error "Error al agregar el libro a tu biblioteca"⟩

/-- Lines 323-353, the attach part, for the resolved `book`. -/
def attachProgress (s : Store) (user : ObjectId) (book : Book) (env : Env) : Response × Store :=
  match s.findProgress user book._id with
  | some _ => (⟨400, .errorWithBook "Este libro ya está en tu biblioteca" book⟩, s)
  | none =>
    match s.saveNewProgress
        { userId := user, bookId := book._id, currentPage := 0, status := some "reading" }
        env with
    | .error e => (addFromGoogleCatch e, s)
    | .ok (_, s') => (⟨201, .book book⟩, s')

/-- Handler of `POST /api/books/add-from-google` for the authenticated `user`. -/
def addFromGoogle (s : Store) (user : ObjectId) (googleBookData : Option GoogleBookData)
    (env : Env) : Response × Store :=
  match googleBookData with
  | none => (⟨400, .error "Datos del libro requeridos"⟩, s)
  | some g =>
    match resolveBook s g env with
    | .error e => (addFromGoogleCatch e, s)
    | .ok (book, s1) => attachProgress s1 user book env

/-! ## POST /api/books (lines 391-413) -/

/-- The `catch` block of the manual add (lines 407-412). -/
def postBooksCatch (e : DbError) : Response :=
  if e = .duplicateKey then ⟨400, .error "El libro ya existe (ISBN duplicado)"⟩
  else ⟨400, .error "error.message"⟩

/-- Handler of `POST /api/books`: `new Book(req.body)`, save it, then create the caller's
ReadingProgress on it. -/
def postBooks (s : Store) (user : ObjectId) (body : BookDoc) (env : Env) : Response × Store :=
  match s.saveNewBook body env with
  | .error e => (postBooksCatch e, s)
  | .ok (book, s1) =>
    match s1.saveNewProgress
        { userId := user, bookId := book._id, currentPage := 0, status := some "reading" }
        env with
    | .error e => (postBooksCatch e, s1)
    | .ok (_, s2) => (⟨201, .book book⟩, s2)

/-! ## PUT /api/books/:id (lines 415-473) -/

/-- The `updateData` object (`req.body`) of an edit: the schema paths other than `_id`. -/
structure BookUpdate where
  title : Option String := none
  author : Option String := none
  description : Option String := none
  genre : Option String := none
  totalPages : Option Int := none
  coverImage : Option String := none
  thumbnail : Option String := none
  isbn : Option String := none
  publishedDate : Option String := none
  publisher : Option String := none
  googleId : Option String := none
  previewLink : Option String := none
  rating : Option Int := none
  createdAt : Option Date := none
  deriving DecidableEq, Repr

/-- The statement `if (x) x = x.trim()` on an optional string (lines 442-445). -/
def trimIfTruthy (x : Option String) : Option String :=
  match x with
  | some v => if v = "" then some v else some v.trim
  | none => none

/-- Lines 425-439: the basic checks; `true` when the request is answered with 400. -/
def BookUpdate.rejected (u : BookUpdate) : Bool :=
  (truthy u.title && decide ((u.title.getD "").trim.length < 2)) ||
  (truthy u.author && decide ((u.author.getD "").trim.length < 2)) ||
  (match u.totalPages with
   | some pages => decide (pages ≠ 0) && (decide (pages < 1) || decide (pages > 10000))
   | none => false)

/-- Lines 442-445: the sanitised `updateData`. -/
def BookUpdate.sanitize (u : BookUpdate) : BookUpdate :=
  { u with title := trimIfTruthy u.title, author := trimIfTruthy u.author,
           genre := trimIfTruthy u.genre, description := trimIfTruthy u.description }

/-- Update validators (`runValidators: true`) on the paths present in the update: a required
string may not be set to the empty string, `rating` lies in `[0, 5]`. -/
def BookUpdate.valid (u : BookUpdate) : Bool :=
  u.title != some "" && u.author != some "" && ratingOk u.rating

/-- The `$set` of the paths present in the update, applied to one Book. -/
def BookUpdate.apply (u : BookUpdate) (b : Book) : Book :=
  { b with
    title := u.title.getD b.title,
    author := u.author.getD b.author,
    description := u.description.orElse (fun _ => b.description),
    genre := u.genre.orElse (fun _ => b.genre),
    totalPages := u.totalPages.getD b.totalPages,
    coverImage := u.coverImage.orElse (fun _ => b.coverImage),
    thumbnail := u.thumbnail.orElse (fun _ => b.thumbnail),
    isbn := u.isbn.orElse (fun _ => b.isbn),
    publishedDate := u.publishedDate.orElse (fun _ => b.publishedDate),
    publisher := u.publisher.orElse (fun _ => b.publisher),
    googleId := u.googleId.orElse (fun _ => b.googleId),
    previewLink := u.previewLink.orElse (fun _ => b.previewLink),
    rating := u.rating.orElse (fun _ => b.rating),
    createdAt := u.createdAt.getD b.createdAt }

/-- Replace the first Book with the given `_id` by `f` of it (`updateOne`). -/
def updateFirstBook (id : ObjectId) (f : Book → Book) : List Book → List Book
  | [] => []
  | b :: bs => if b._id = id then f b :: bs else b :: updateFirstBook id f bs

/-- Handler of `PUT /api/books/:id`; `id = none` is a parameter that is not a valid
ObjectId. -/
def putBook (s : Store) (id : Option ObjectId) (updateData : BookUpdate) : Response × Store :=
  match id with
  | none => (⟨400, .error "ID de libro inválido"⟩, s)
  | some bookId =>
    if updateData.rejected then (⟨400, .error "validación básica"⟩, s)
    else
      let u := updateData.sanitize
      if u.valid = false then (⟨400, .error "ValidationError"⟩, s)
      else
        match s.findBookById bookId with
        | none => (⟨404, .error "Libro no encontrado"⟩, s)
        | some b =>
          (⟨200, .book (u.apply b)⟩, { s with books := updateFirstBook bookId u.apply s.books })

/-! ## DELETE /api/books/:id (lines 475-514) -/

/-- Remove the first element satisfying `p` (`deleteOne`, `findOneAndDelete`). -/
def deleteFirst {α : Type} (p : α → Bool) : List α → List α
  | [] => []
  | a :: as => if p a then as else a :: deleteFirst p as

/-- Handler of `DELETE /api/books/:id` for the authenticated `user`. -/
def deleteBook (s : Store) (user : ObjectId) (id : Option ObjectId) : Response × Store :=
  match id with
  | none => (⟨400, .error "ID de libro inválido"⟩, s)
  | some bookId =>
    match s.findProgress user bookId with
    | none => (⟨403, .error "No tienes permisos para eliminar este libro"⟩, s)
    | some userProgress =>
      let s1 : Store :=
        { s with progress := deleteFirst (fun p => p._id == userProgress._id) s.progress }
      let otherProgress := s1.progress.filter (fun p => p.bookId == bookId)
      let s2 : Store :=
        if otherProgress.length = 0 then
          { s1 with books := deleteFirst (fun b => b._id == bookId) s1.books }
        else s1
      (⟨200, .deletedBook bookId⟩, s2)

/-! ## DELETE /api/progress/:id (lines 516-542) -/

/-- Handler of `DELETE /api/progress/:id` for the authenticated `user`. -/
def deleteProgress (s : Store) (user : ObjectId) (id : Option ObjectId) : Response × Store :=
  match id with
  | none => (⟨400, .error "ID de progreso inválido"⟩, s)
  | some progressId =>
    match s.progress.find? (fun p => p._id == progressId && p.userId == user) with
    | none => (⟨404, .error "Progreso no encontrado o no tienes permisos para eliminarlo"⟩, s)
    | some _ =>
      (⟨200, .deletedProgress progressId⟩,
        { s with progress :=
            deleteFirst (fun p => p._id == progressId && p.userId == user) s.progress })

/-! ## Derived percentage -/

/-! JavaScript numbers are IEEE-754 doubles.  For integers of magnitude below `2 ^ 53` the
quotient `a / b` and the product by `100` are the exact values rounded to 53 significant
bits, ties to even; no exponent of this computation leaves the normal range.  A positive
double is a pair `(m, e)` standing for `m * 2 ^ e`. -/

/-- Round `n / d` to the nearest integer, ties to the even one. -/
def rneDiv (n d : Nat) : Nat :=
  let q := n / d
  let r := n % d
  if 2 * r < d then q else if d < 2 * r then q + 1 else if q % 2 = 0 then q else q + 1

/-- Binary logarithm by repeated halving, at most `fuel` times. -/
def log2Fuel : Nat → Nat → Nat
  | 0, _ => 0
  | fuel + 1, n => if n < 2 then 0 else log2Fuel fuel (n / 2) + 1

/-- The position of the leading bit of `n`: `2 ^ floorLog2 n ≤ n < 2 ^ (floorLog2 n + 1)`. -/
def floorLog2 (n : Nat) : Nat := log2Fuel n n

/-- The exponent of the leading bit of the positive rational `n / d`: `⌊log₂ (n / d)⌋`. -/
def ratioLog2 (n d : Nat) : Int :=
  if d * 2 ^ floorLog2 n ≤ n * 2 ^ floorLog2 d then (floorLog2 n : Int) - floorLog2 d
  else (floorLog2 n : Int) - floorLog2 d - 1

/-- The double nearest to the positive rational `n / d`, as mantissa and exponent: with
`e = ⌊log₂ (n / d)⌋` the quotient is scaled by `2 ^ (52 - e)` and rounded ties-to-even. -/
def flPos (n d : Nat) : Nat × Int :=
  let sh : Int := 52 - ratioLog2 n d
  (if 0 ≤ sh then rneDiv (n * 2 ^ sh.toNat) d else rneDiv n (d * 2 ^ (-sh).toNat), -sh)

/-- The function `Math.round` on the double `± m * 2 ^ e`: `⌊x + 1/2⌋`. -/
def mathRound (neg : Bool) (m : Nat) (e : Int) : Int :=
  let v : Int := if neg then -(m : Int) else m
  if 0 ≤ e then v * 2 ^ e.toNat else (2 * v + 2 ^ (-e).toNat) / (2 * 2 ^ (-e).toNat)

/-- The expression `Math.round((a / b) * 100)` for integers `a` and `b ≠ 0`: the quotient is
rounded to a double, its product by `100` is rounded to a double, then `Math.round`. -/
def jsPercentExpr (a b : Int) : Int :=
  if a = 0 then 0 else
    let y1 := flPos a.natAbs b.natAbs
    let y2 := flPos (100 * y1.1 * 2 ^ y1.2.toNat) (2 ^ (-y1.2).toNat)
    mathRound (decide (a < 0) != decide (b < 0)) y2.1 y2.2

/-- The expression `b > 0 ? Math.round((a / b) * 100) : 0` of the server (lines 553-554,
598-599 and 631). -/
def roundPercent (a b : Int) : Int :=
  if b > 0 then jsPercentExpr a b else 0

/-- The client helper `formatters.percentage(current, total)` (utils/api.js, lines 166-169):
`if (!total || total === 0) return 0; return Math.round((current / total) * 100)`. -/
def formattersPercentage (current total : Int) : Int :=
  if total = 0 then 0 else jsPercentExpr current total

/-- The spec's `round(currentPage / totalPages * 100)` on exact rationals, halves rounded
up as `Math.round` does: `⌊100 a / b + 1/2⌋`. -/
def specPercentage (a b : Int) : Int :=
  (200 * a + b) / (2 * b)

/-! ## POST /api/progress (lines 563-606) -/

/-- The request body of `POST /api/progress`; `bookId = none` is an absent value or one that
does not cast to an ObjectId. -/
structure ProgressBody where
  bookId : Option ObjectId
  currentPage : Int
  status : Option String := none
  notes : Option String := none
  rating : Option Int := none
  deriving DecidableEq, Repr

/-- The JavaScript expression `x || old` for an optional string against a stored one. -/
def optStrOr (x old : Option String) : Option String :=
  if truthy x then x else old

/-- The JavaScript expression `x || old` for an optional number against a stored one. -/
def optNumOr (x old : Option Int) : Option Int :=
  match x with
  | some v => if v = 0 then old else some v
  | none => old

/-- Lines 573-581: the in-place mutation of an existing row. -/
def mutateProgress (progress : ReadingProgress) (body : ProgressBody) (now : Date) :
    ReadingProgress :=
  { progress with
    currentPage := body.currentPage,
    status := strOr body.status progress.status,
    notes := optStrOr body.notes progress.notes,
    rating := optNumOr body.rating progress.rating,
    updatedAt := now,
    completedAt := if body.status = some "completed" then some now else progress.completedAt }

/-- Replace the first row with the `_id` of `p` by `p` (`save` of an existing document). -/
def updateFirstProgress (p : ReadingProgress) : List ReadingProgress → List ReadingProgress
  | [] => []
  | q :: qs => if q._id = p._id then p :: qs else q :: updateFirstProgress p qs

/-- The call `progress.save()` on an existing document: validation, then update in place. -/
def Store.saveProgress (s : Store) (p : ReadingProgress) : Except DbError Store :=
  if p.status ∉ statusEnum ∨ ratingOk p.rating = false then .error .validation
  else .ok { s with progress := updateFirstProgress p s.progress }

/-- Lines 594-602: populate the Book and derive the percentage; a missing Book makes
`progress.bookId.totalPages` throw, which the `catch` answers with 400. -/
def progressResponse (s : Store) (p : ReadingProgress) : Response :=
  match s.findBookById p.bookId with
  | none => ⟨400, .error "error.message"⟩
  | some b => ⟨200, .progress p b (roundPercent p.currentPage b.totalPages)⟩

/-- Handler of `POST /api/progress` for the authenticated `user`. -/
def postProgress (s : Store) (user : ObjectId) (body : ProgressBody) (env : Env) :
    Response × Store :=
  match body.bookId with
  | none => (⟨400, .error "error.message"⟩, s)
  | some bookId =>
    match s.findProgress user bookId with
    | some progress =>
      let p := mutateProgress progress body env.now
      match s.saveProgress p with
      | .error _ => (⟨400, .error "error.message"⟩, s)
      | .ok s1 => (progressResponse s1 p, s1)
    | none =>
      match s.saveNewProgress
          { userId := user, bookId := bookId, currentPage := body.currentPage,
            status := some (strOr body.status "reading"), notes := body.notes,
            rating := body.rating }
          env with
      | .error _ => (⟨400, .error "error.message"⟩, s)
      | .ok (p, s1) => (progressResponse s1 p, s1)

/-! ## Read-only routes: GET /api/books, GET /api/progress, GET /api/stats -/

/-- The query `ReadingProgress.find({ userId }).sort({ updatedAt: -1 })`. -/
def Store.userProgress (s : Store) (user : ObjectId) : List ReadingProgress :=
  (s.progress.filter (fun p => p.userId == user)).insertionSort
    (fun a b => a.updatedAt ≥ b.updatedAt)

/-- Handler of `GET /api/books` (lines 370-388). -/
def getBooks (s : Store) (user : ObjectId) : Response × Store :=
  let books := (s.userProgress user).filterMap (fun p => s.findBookById p.bookId)
  (⟨200, .books books books.length⟩, s)

/-- Handler of `GET /api/progress` (lines 545-561): a row whose Book is missing makes
`p.bookId.totalPages` throw, which the `catch` answers with 500. -/
def getProgress (s : Store) (user : ObjectId) : Response × Store :=
  let rows := s.userProgress user
  if rows.all (fun p => (s.findBookById p.bookId).isSome) then
    (⟨200, .progressList (rows.filterMap (fun p =>
        (s.findBookById p.bookId).map
          (fun b => (p, b, roundPercent p.currentPage b.totalPages))))⟩, s)
  else (⟨500, .error "error.message"⟩, s)

/-- The `$group` stage of the aggregation: every status occurring among the rows, with the
number of rows that carry it. -/
def statusBreakdown (rows : List ReadingProgress) : List (String × Nat) :=
  (rows.map (fun p => p.status)).dedup.map
    (fun st => (st, rows.countP (fun p => p.status == st)))

/-- Handler of `GET /api/stats` (lines 609-636). -/
def getStats (s : Store) (user : ObjectId) : Response × Store :=
  let rows := s.progress.filter (fun p => p.userId == user)
  let totalBooks := rows.length
  let completedBooks := rows.countP (fun p => p.status == "completed")
  (⟨200, .stats totalBooks completedBooks (statusBreakdown rows)
      (roundPercent completedBooks totalBooks)⟩, s)

/-! ## The API as a transition system -/

/-- One authenticated request to a route that reads or writes the catalog or the ledger. -/
inductive Request where
  | addFromGoogle (googleBookData : Option GoogleBookData)
  | postBooks (body : BookDoc)
  | putBook (id : Option ObjectId) (updateData : BookUpdate)
  | deleteBook (id : Option ObjectId)
  | deleteProgress (id : Option ObjectId)
  | postProgress (body : ProgressBody)
  | getBooks
  | getProgress
  | getStats
  deriving DecidableEq, Repr

/-- Dispatch of a request of `user` to its handler. -/
def handle (s : Store) (user : ObjectId) (env : Env) : Request → Response × Store
  | .addFromGoogle g => addFromGoogle s user g env
  | .postBooks body => postBooks s user body env
  | .putBook id u => putBook s id u
  | .deleteBook id => deleteBook s user id
  | .deleteProgress id => deleteProgress s user id
  | .postProgress body => postProgress s user body env
  | .getBooks => getBooks s user
  | .getProgress => getProgress s user
  | .getStats => getStats s user

/-! ## Invariants -/

/-- The non-empty identity keys among a list of optional keys. -/
def nonEmptyKeys (keys : List (Option String)) : List String :=
  keys.filterMap (fun k => k.filter (fun x => x != ""))

/-- Invariant I4: no two Books share a non-empty isbn, no two share a non-empty googleId. -/
def I4 (s : Store) : Prop :=
  (nonEmptyKeys (s.books.map (fun b => b.isbn))).Nodup ∧
  (nonEmptyKeys (s.books.map (fun b => b.googleId))).Nodup

instance (s : Store) : Decidable (I4 s) := by
  unfold I4
  infer_instance

/-- Invariant I2: no two ReadingProgress rows share the same `(userId, bookId)`. -/
def I2 (s : Store) : Prop :=
  (s.progress.map (fun p => (p.userId, p.bookId))).Nodup

instance (s : Store) : Decidable (I2 s) := by
  unfold I2
  infer_instance

/-- The `_id` index of each collection: no two documents of a collection share an `_id`. -/
def UniqueIds (s : Store) : Prop :=
  (s.books.map (fun b => b._id)).Nodup ∧ (s.progress.map (fun p => p._id)).Nodup

instance (s : Store) : Decidable (UniqueIds s) := by
  unfold UniqueIds
  infer_instance

/-- Number of Books carrying the isbn `x`. -/
def Store.countIsbn (s : Store) (x : String) : Nat :=
  (s.books.filter (fun b => b.isbn == some x)).length

/-- Number of Books carrying the googleId `y`. -/
def Store.countGoogleId (s : Store) (y : String) : Nat :=
  (s.books.filter (fun b => b.googleId == some y)).length

/-- The ReadingProgress rows that reference the Book id `bookId`. -/
def Store.referencing (s : Store) (bookId : ObjectId) : List ReadingProgress :=
  s.progress.filter (fun p => p.bookId == bookId)

/-- The ReadingProgress rows of `user` on the Book id `bookId`. -/
def Store.rowsOf (s : Store) (user bookId : ObjectId) : List ReadingProgress :=
  s.progress.filter (fun p => p.userId == user && p.bookId == bookId)

/-! ## Sample data -/

/-- A catalog entry with the given id, identity keys and page count. -/
def sampleBook (id : ObjectId) (isbn googleId : Option String) (totalPages : Int) : Book :=
  { _id := id, title := "Dune", author := "Herbert", description := none, genre := none,
    totalPages := totalPages, coverImage := none, thumbnail := none, isbn := isbn,
    publishedDate := none, publisher := none, googleId := googleId, previewLink := none,
    rating := none, createdAt := 0 }

/-- A fresh ledger row of `user` on `bookId`. -/
def sampleRow (id user bookId : ObjectId) : ReadingProgress :=
  { _id := id, userId := user, bookId := bookId, currentPage := 0, status := "reading",
    startedAt := 0, completedAt := none, notes := none, rating := none, updatedAt := 0 }

/-- The row that `attach` creates (lines 337-342 and the schema defaults). -/
def attachedRow (env : Env) (user bookId : ObjectId) : ReadingProgress :=
  { _id := env.progressId, userId := user, bookId := bookId, currentPage := 0,
    status := "reading", startedAt := env.now, completedAt := none, notes := none,
    rating := none, updatedAt := env.now }

/-- The empty database. -/
def emptyStore : Store := ⟨[], []⟩

/-- A ledger row of `user` on `bookId` that carries a rating and notes. -/
def sampleRatedRow (id user bookId : ObjectId) : ReadingProgress :=
  { _id := id, userId := user, bookId := bookId, currentPage := 5, status := "reading",
    startedAt := 0, completedAt := none, notes := some "good", rating := some 4,
    updatedAt := 0 }

/-- The request body of a valid manual add of a book of `totalPages` pages. -/
def sampleBody (totalPages : Int) : BookDoc :=
  { title := some "Dune", author := some "Herbert", totalPages := some totalPages }

/-- Forty ledger rows of `user`, the first twenty-three of them completed. -/
def statsStore (user : ObjectId) : Store :=
  ⟨[], (List.range 40).map (fun i =>
    { sampleRow i user i with status := if i < 23 then "completed" else "reading" })⟩

/-! ## Identity Key Extractor (lines 138-149) -/

/-- One record of `industryIdentifiers`; `none` is a field the record lacks. -/
structure Identifier where
  type : Option String := none
  identifier : Option String := none
  deriving DecidableEq, Repr

/-- The function `extractISBN`; the argument `none` is an absent list, the result `none` is
the value `undefined`. -/
def extractISBN (identifiers : Option (List Identifier)) : Option String :=
  match identifiers with
  | none => some ""
  | some [] => some ""
  | some (first :: rest) =>
    match (first :: rest).find? (fun id => id.type == some "ISBN_13") with
    | some isbn13 => isbn13.identifier
    | none =>
      match (first :: rest).find? (fun id => id.type == some "ISBN_10") with
      | some isbn10 => isbn10.identifier
      | none => some (strOr first.identifier "")

/-! ## Traces of requests and further invariants -/

/-- One request of a trace: the caller, the runtime values and the request. -/
structure Call where
  user : ObjectId
  env : Env
  request : Request
  deriving DecidableEq, Repr

/-- The store after a sequence of requests. -/
def run (s : Store) : List Call → Store
  | [] => s
  | c :: cs => run (handle s c.user c.env c.request).2 cs

/-- A store reachable from the empty store through the API. -/
def Reachable (s : Store) : Prop := ∃ calls, run emptyStore calls = s

/-- The ids generated for a request occur in no document of the store it meets. -/
def Env.fresh (env : Env) (s : Store) : Prop :=
  s.hasBookId env.bookId = false ∧ s.hasProgressId env.progressId = false

instance (env : Env) (s : Store) : Decidable (env.fresh s) := by
  unfold Env.fresh
  infer_instance

/-- Every request of the trace is served with freshly generated ids. -/
def freshRun (s : Store) : List Call → Prop
  | [] => True
  | c :: cs => c.env.fresh s ∧ freshRun (handle s c.user c.env c.request).2 cs

/-- Freshness of a trace can be checked by running it. -/
def freshRunDecidable : (s : Store) → (calls : List Call) → Decidable (freshRun s calls)
  | _, [] => isTrue trivial
  | s, c :: cs =>
    match (inferInstance : Decidable (c.env.fresh s)),
      freshRunDecidable (handle s c.user c.env c.request).2 cs with
    | isTrue h1, isTrue h2 => isTrue ⟨h1, h2⟩
    | isFalse h1, _ => isFalse (fun h => h1 h.1)
    | _, isFalse h2 => isFalse (fun h => h2 h.2)

instance (s : Store) (calls : List Call) : Decidable (freshRun s calls) :=
  freshRunDecidable s calls

/-- Is the request a `DELETE /api/progress/:id`? -/
def Request.isDeleteProgress : Request → Bool
  | .deleteProgress _ => true
  | _ => false

/-- The page of the row lies in `[0, totalPages]` of its Book, when that Book exists. -/
def pageInRange (s : Store) (p : ReadingProgress) : Bool :=
  match s.findBookById p.bookId with
  | none => true
  | some b => decide (0 ≤ p.currentPage) && decide (p.currentPage ≤ b.totalPages)

/-- Invariant I3: every row whose Book exists has `0 ≤ currentPage ≤ totalPages`. -/
def I3 (s : Store) : Prop := ∀ p ∈ s.progress, pageInRange s p = true

instance (s : Store) : Decidable (I3 s) := by
  unfold I3
  infer_instance

/-- Every Book of the catalog is referenced by at least one ReadingProgress row. -/
def NoOrphan (s : Store) : Prop :=
  ∀ b ∈ s.books, s.progress.any (fun p => p.bookId == b._id) = true

instance (s : Store) : Decidable (NoOrphan s) := by
  unfold NoOrphan
  infer_instance

/-! ## add-from-google as a sequence of awaited database calls (lines 288-353) -/

/-- Where one add-from-google request stands between two awaited database calls. -/
inductive AddPhase where
  | start
  | afterIsbnLookup (existingBook : Option Book)
  | afterLookups (existingBook : Option Book)
  | resolved (book : Book)
  | afterProgressLookup (book : Book) (existingProgress : Option ReadingProgress)
  | finished (response : Response)
  deriving DecidableEq, Repr

/-- The next awaited database call of the request of `user` for the candidate `g`, run on
the store it meets: `Book.findOne({ isbn })` (line 291), `Book.findOne({ googleId })`
(line 294), `book.save()` (line 319), `ReadingProgress.findOne` (line 324),
`progress.save()` (line 344). -/
def addFromGoogleStep (user : ObjectId) (g : GoogleBookData) (env : Env) (s : Store) :
    AddPhase → AddPhase × Store
  | .start =>
    (.afterIsbnLookup (if truthy g.isbn then s.findBookByIsbn (g.isbn.getD "") else none), s)
  | .afterIsbnLookup existingBook =>
    (.afterLookups
      (if existingBook.isNone && truthy g.googleId then s.findBookByGoogleId (g.googleId.getD "")
       else existingBook), s)
  | .afterLookups (some existingBook) => (.resolved existingBook, s)
  | .afterLookups none =>
    match s.saveNewBook (bookToSave g) env with
    | .error e => (.finished (addFromGoogleCatch e), s)
    | .ok (book, s1) => (.resolved book, s1)
  | .resolved book => (.afterProgressLookup book (s.findProgress user book._id), s)
  | .afterProgressLookup book (some _) =>
    (.finished ⟨400, .errorWithBook "Este libro ya está en tu biblioteca" book⟩, s)
  | .afterProgressLookup book none =>
    match s.saveNewProgress
        { userId := user, bookId := book._id, currentPage := 0, status := some "reading" }
        env with
    | .error e => (.finished (addFromGoogleCatch e), s)
    | .ok (_, s1) => (.finished ⟨201, .book book⟩, s1)
  | .finished response => (.finished response, s)

/-- One add-from-google request in flight: the caller, the candidate and the runtime
values. -/
structure AddCall where
  user : ObjectId
  g : GoogleBookData
  env : Env
  deriving DecidableEq, Repr

/-- Two requests in flight on one store; each entry of the schedule tells whether the first
(`true`) or the second (`false`) request performs its next database call. -/
def interleave (c1 c2 : AddCall) :
    List Bool → AddPhase × AddPhase × Store → AddPhase × AddPhase × Store
  | [], st => st
  | true :: schedule, (p1, p2, s) =>
    interleave c1 c2 schedule
      ((addFromGoogleStep c1.user c1.g c1.env s p1).1, p2,
       (addFromGoogleStep c1.user c1.g c1.env s p1).2)
  | false :: schedule, (p1, p2, s) =>
    interleave c1 c2 schedule
      (p1, (addFromGoogleStep c2.user c2.g c2.env s p2).1,
       (addFromGoogleStep c2.user c2.g c2.env s p2).2)

/-- The five database calls of one request, run without interruption. -/
def runAlone (c : AddCall) (s : Store) : AddPhase × Store :=
  let st1 := addFromGoogleStep c.user c.g c.env s .start
  let st2 := addFromGoogleStep c.user c.g c.env st1.2 st1.1
  let st3 := addFromGoogleStep c.user c.g c.env st2.2 st2.1
  let st4 := addFromGoogleStep c.user c.g c.env st3.2 st3.1
  addFromGoogleStep c.user c.g c.env st4.2 st4.1

/-! ## Referential integrity and the rows of other users -/

/-- Every ReadingProgress row references a Book of the catalog. -/
def RefIntegrity (s : Store) : Prop :=
  ∀ p ∈ s.progress, s.hasBookId p.bookId = true

instance (s : Store) : Decidable (RefIntegrity s) := by
  unfold RefIntegrity
  infer_instance

/-- The ReadingProgress rows that do not belong to `user`, in collection order. -/
def Store.rowsOfOthers (s : Store) (user : ObjectId) : List ReadingProgress :=
  s.progress.filter (fun p => p.userId != user)

/-! ## Basic facts about the storage primitives -/

theorem findBookByIsbn_some_iff (s : Store) (x : String) :
    (∃ b, s.findBookByIsbn x = some b) ↔ ∃ b ∈ s.books, b.isbn = some x := by
  unfold Store.findBookByIsbn
  constructor
  · rintro ⟨b, hb⟩
    exact ⟨b, List.mem_of_find?_eq_some hb, by simpa using List.find?_some hb⟩
  · rintro ⟨b, hb, hx⟩
    have h : (s.books.find? (fun b => b.isbn == some x)).isSome := by
      rw [List.find?_isSome]
      exact ⟨b, hb, by simpa using hx⟩
    exact Option.isSome_iff_exists.mp h

theorem findBookByGoogleId_some_iff (s : Store) (y : String) :
    (∃ b, s.findBookByGoogleId y = some b) ↔ ∃ b ∈ s.books, b.googleId = some y := by
  unfold Store.findBookByGoogleId
  constructor
  · rintro ⟨b, hb⟩
    exact ⟨b, List.mem_of_find?_eq_some hb, by simpa using List.find?_some hb⟩
  · rintro ⟨b, hb, hy⟩
    have h : (s.books.find? (fun b => b.googleId == some y)).isSome := by
      rw [List.find?_isSome]
      exact ⟨b, hb, by simpa using hy⟩
    exact Option.isSome_iff_exists.mp h

theorem findBookByIsbn_spec {s : Store} {x : String} {b : Book}
    (h : s.findBookByIsbn x = some b) : b ∈ s.books ∧ b.isbn = some x :=
  ⟨List.mem_of_find?_eq_some h, by simpa using List.find?_some h⟩

theorem findBookByGoogleId_spec {s : Store} {y : String} {b : Book}
    (h : s.findBookByGoogleId y = some b) : b ∈ s.books ∧ b.googleId = some y :=
  ⟨List.mem_of_find?_eq_some h, by simpa using List.find?_some h⟩

theorem truthy_some (x : String) : truthy (some x) = true ↔ x ≠ "" := by
  simp [truthy]

theorem saveNewProgress_books {s s1 : Store} {d : ProgressDoc} {env : Env}
    {p : ReadingProgress} (h : s.saveNewProgress d env = .ok (p, s1)) :
    s1.books = s.books := by
  unfold Store.saveNewProgress at h
  simp only at h
  split_ifs at h
  injection h with h
  injection h with _ h
  rw [← h]

theorem attachProgress_books (s : Store) (user : ObjectId) (b : Book) (env : Env) :
    (attachProgress s user b env).2.books = s.books := by
  unfold attachProgress
  split
  · rfl
  · split
    · rfl
    · next h => exact saveNewProgress_books h

theorem saveNewProgress_reading_ok (s : Store) (user bookId : ObjectId) (env : Env)
    (hfresh : s.hasProgressId env.progressId = false)
    (hnone : s.findProgress user bookId = none) :
    s.saveNewProgress
        { userId := user, bookId := bookId, currentPage := 0, status := some "reading" } env =
      .ok ({ _id := env.progressId, userId := user, bookId := bookId, currentPage := 0,
             status := "reading", startedAt := env.now, completedAt := none, notes := none,
             rating := none, updatedAt := env.now },
           { s with progress := s.progress ++
              [{ _id := env.progressId, userId := user, bookId := bookId, currentPage := 0,
                 status := "reading", startedAt := env.now, completedAt := none,
                 notes := none, rating := none, updatedAt := env.now }] }) := by
  simp [Store.saveNewProgress, statusEnum, ratingOk, hfresh, hnone]

theorem attachProgress_book (s : Store) (user : ObjectId) (b : Book) (env : Env)
    (hfresh : s.hasProgressId env.progressId = false) :
    (attachProgress s user b env).1.book? = some b := by
  unfold attachProgress
  split
  · rfl
  · next h =>
    rw [saveNewProgress_reading_ok s user b._id env hfresh h]
    rfl

/-! ## Catalog Resolver: existing entries (C1) -/

theorem findExistingBook_isbn {s : Store} {g : GoogleBookData} {x : String}
    (hx : g.isbn = some x) (hne : x ≠ "") (h : ∃ b0 ∈ s.books, b0.isbn = some x) :
    ∃ b, s.findBookByIsbn x = some b ∧ findExistingBook s g = some b := by
  obtain ⟨b, hb⟩ := (findBookByIsbn_some_iff s x).mpr h
  refine ⟨b, hb, ?_⟩
  simp [findExistingBook, hx, truthy, hne, hb]

theorem findExistingBook_googleId {s : Store} {g : GoogleBookData} {y : String}
    (hno : ¬ ∃ x, g.isbn = some x ∧ x ≠ "" ∧ ∃ b0 ∈ s.books, b0.isbn = some x)
    (hy : g.googleId = some y) (hne : y ≠ "") :
    findExistingBook s g = s.findBookByGoogleId y := by
  have h1 : (if truthy g.isbn then s.findBookByIsbn (g.isbn.getD "") else none) = none := by
    split_ifs with ht
    · cases hi : g.isbn with
      | none => simp [hi, truthy] at ht
      | some x =>
        rw [hi, truthy_some] at ht
        cases hf : s.findBookByIsbn x with
        | none => simpa using hf
        | some b =>
          exact absurd ⟨x, hi, ht, (findBookByIsbn_some_iff s x).mp ⟨b, hf⟩⟩ hno
    · rfl
  simp only [findExistingBook, h1]
  simp [hy, truthy, hne]

/-- C1. Catalog Resolver of POST /api/books/add-from-google on an existing entry: if the
candidate's isbn is non-empty and some Book has it, a stored Book with that isbn is the one
used and the Book collection is unchanged; otherwise, if the candidate's googleId is
non-empty and some Book has it, a stored Book with that googleId is used and the Book
collection is unchanged.  The Book used is the stored document, whatever title, author or
pages the candidate carries, and it is the Book the response carries (201 or
already-in-library) whenever the generated progress id is fresh. -/
theorem addFromGoogle_uses_existing_book (s : Store) (user : ObjectId) (g : GoogleBookData)
    (env : Env) :
    (∀ x, g.isbn = some x → x ≠ "" → (∃ b0 ∈ s.books, b0.isbn = some x) →
      ∃ b ∈ s.books, b.isbn = some x ∧ resolveBook s g env = .ok (b, s) ∧
        (addFromGoogle s user (some g) env).2.books = s.books ∧
        (s.hasProgressId env.progressId = false →
          (addFromGoogle s user (some g) env).1.book? = some b)) ∧
    (∀ y, (¬ ∃ x, g.isbn = some x ∧ x ≠ "" ∧ ∃ b0 ∈ s.books, b0.isbn = some x) →
      g.googleId = some y → y ≠ "" → (∃ b0 ∈ s.books, b0.googleId = some y) →
      ∃ b ∈ s.books, b.googleId = some y ∧ resolveBook s g env = .ok (b, s) ∧
        (addFromGoogle s user (some g) env).2.books = s.books ∧
        (s.hasProgressId env.progressId = false →
          (addFromGoogle s user (some g) env).1.book? = some b)) := by
  have key : ∀ b, findExistingBook s g = some b →
      resolveBook s g env = .ok (b, s) ∧
        (addFromGoogle s user (some g) env).2.books = s.books ∧
        (s.hasProgressId env.progressId = false →
          (addFromGoogle s user (some g) env).1.book? = some b) := by
    intro b hb
    have hr : resolveBook s g env = .ok (b, s) := by simp [resolveBook, hb]
    refine ⟨hr, ?_, ?_⟩
    · simp only [addFromGoogle, hr]
      exact attachProgress_books s user b env
    · intro hfresh
      simp only [addFromGoogle, hr]
      exact attachProgress_book s user b env hfresh
  constructor
  · intro x hx hne h
    obtain ⟨b, hf, he⟩ := findExistingBook_isbn hx hne h
    obtain ⟨hmem, hisbn⟩ := findBookByIsbn_spec hf
    exact ⟨b, hmem, hisbn, key b he⟩
  · intro y hno hy hne h
    obtain ⟨b, hf⟩ := (findBookByGoogleId_some_iff s y).mpr h
    obtain ⟨hmem, hgid⟩ := findBookByGoogleId_spec hf
    have he : findExistingBook s g = some b := by
      rw [findExistingBook_googleId hno hy hne, hf]
    exact ⟨b, hmem, hgid, key b he⟩

theorem addFromGoogle_uses_existing_book_witness :
    (∃ b ∈ [sampleBook 0 (some "978") (some "G1") 412], b.isbn = some "978" ∧
      resolveBook ⟨[sampleBook 0 (some "978") (some "G1") 412], []⟩
        { title := some "Other", totalPages := some 5, isbn := some "978" } ⟨1, 1, 5⟩
        = .ok (b, ⟨[sampleBook 0 (some "978") (some "G1") 412], []⟩) ∧
      (addFromGoogle ⟨[sampleBook 0 (some "978") (some "G1") 412], []⟩ 7
        (some { title := some "Other", totalPages := some 5, isbn := some "978" })
        ⟨1, 1, 5⟩).2.books = [sampleBook 0 (some "978") (some "G1") 412] ∧
      (addFromGoogle ⟨[sampleBook 0 (some "978") (some "G1") 412], []⟩ 7
        (some { title := some "Other", totalPages := some 5, isbn := some "978" })
        ⟨1, 1, 5⟩).1.book? = some b) ∧
    (∃ b ∈ [sampleBook 0 (some "978") (some "G1") 412], b.googleId = some "G1" ∧
      resolveBook ⟨[sampleBook 0 (some "978") (some "G1") 412], []⟩
        { isbn := some "111", googleId := some "G1" } ⟨1, 1, 5⟩
        = .ok (b, ⟨[sampleBook 0 (some "978") (some "G1") 412], []⟩) ∧
      (addFromGoogle ⟨[sampleBook 0 (some "978") (some "G1") 412], []⟩ 7
        (some { isbn := some "111", googleId := some "G1" }) ⟨1, 1, 5⟩).2.books
        = [sampleBook 0 (some "978") (some "G1") 412] ∧
      (addFromGoogle ⟨[sampleBook 0 (some "978") (some "G1") 412], []⟩ 7
        (some { isbn := some "111", googleId := some "G1" }) ⟨1, 1, 5⟩).1.book? = some b) := by
  obtain ⟨b, hb, hi, hr, hbooks, hresp⟩ :=
    (addFromGoogle_uses_existing_book ⟨[sampleBook 0 (some "978") (some "G1") 412], []⟩ 7
      { title := some "Other", totalPages := some 5, isbn := some "978" } ⟨1, 1, 5⟩).1
      "978" rfl (by decide) ⟨_, List.mem_singleton.mpr rfl, rfl⟩
  obtain ⟨b', hb', hi', hr', hbooks', hresp'⟩ :=
    (addFromGoogle_uses_existing_book ⟨[sampleBook 0 (some "978") (some "G1") 412], []⟩ 7
      { isbn := some "111", googleId := some "G1" } ⟨1, 1, 5⟩).2
      "G1" (by simp [sampleBook]) rfl (by decide) ⟨_, List.mem_singleton.mpr rfl, rfl⟩
  exact ⟨⟨b, hb, hi, hr, hbooks, hresp (by decide)⟩,
    ⟨b', hb', hi', hr', hbooks', hresp' (by decide)⟩⟩

/-! ## Catalog Resolver: create path and idempotence on isbn (C2) -/

theorem strOr_ne_empty (x : Option String) {d : String} (hd : d ≠ "") : strOr x d ≠ "" := by
  unfold strOr
  split
  · split_ifs with h
    · exact hd
    · exact h
  · exact hd

theorem strOr_some_of_ne {x : String} (d : String) (h : x ≠ "") : strOr (some x) d = x := by
  simp [strOr, h]

theorem bookToSave_validate (g : GoogleBookData) (env : Env) :
    ∃ b, (bookToSave g).validate env = .ok b ∧ b._id = env.bookId ∧
      b.isbn = some (strOr g.isbn "") ∧ b.googleId = some (strOr g.googleId "") := by
  have ht : strOr g.title "Título no disponible" ≠ "" := strOr_ne_empty _ (by decide)
  have ha : strOr g.author "Autor desconocido" ≠ "" := strOr_ne_empty _ (by decide)
  simp only [bookToSave, BookDoc.validate, ratingOk]
  rw [if_neg (by simp [ht, ha])]
  exact ⟨_, rfl, rfl, rfl, rfl⟩

theorem resolveBook_create {s : Store} {g : GoogleBookData} (env : Env)
    (hnone : findExistingBook s g = none) (hfresh : s.hasBookId env.bookId = false) :
    ∃ b, resolveBook s g env = .ok (b, { s with books := s.books ++ [b] }) ∧
      b._id = env.bookId ∧ b.isbn = some (strOr g.isbn "") ∧
      b.googleId = some (strOr g.googleId "") := by
  obtain ⟨b, hv, hid, hi, hg⟩ := bookToSave_validate g env
  refine ⟨b, ?_, hid, hi, hg⟩
  simp [resolveBook, hnone, Store.saveNewBook, hv, hid, hfresh]

theorem saveNewProgress_spec {s s1 : Store} {d : ProgressDoc} {env : Env}
    {p : ReadingProgress} (h : s.saveNewProgress d env = .ok (p, s1)) :
    s1 = { s with progress := s.progress ++ [p] } ∧ p._id = env.progressId ∧
      p.userId = d.userId ∧ p.bookId = d.bookId ∧ p.currentPage = d.currentPage ∧
      p.status = d.status.getD "reading" ∧ p.notes = d.notes ∧ p.rating = d.rating ∧
      p.completedAt = none ∧ p.startedAt = env.now ∧ p.updatedAt = env.now ∧
      s.hasProgressId env.progressId = false ∧ s.findProgress d.userId d.bookId = none := by
  unfold Store.saveNewProgress at h
  simp only at h
  split_ifs at h with h1 h2
  injection h with h
  injection h with hp hs
  subst hp
  subst hs
  simp only [not_or] at h2
  refine ⟨rfl, rfl, rfl, rfl, rfl, rfl, rfl, rfl, rfl, rfl, rfl, ?_, ?_⟩
  · simpa using h2.1
  · simpa using h2.2

theorem attachProgress_progress (s : Store) (user : ObjectId) (b : Book) (env : Env) :
    (attachProgress s user b env).2 = s ∨
      ∃ p, (attachProgress s user b env).2 = { s with progress := s.progress ++ [p] } ∧
        p._id = env.progressId ∧ p.userId = user ∧ p.bookId = b._id := by
  unfold attachProgress
  split
  · exact Or.inl rfl
  · split
    · exact Or.inl rfl
    · next p s1 h =>
      obtain ⟨hs, hid, hu, hb, _⟩ := saveNewProgress_spec h
      exact Or.inr ⟨p, hs, hid, hu, hb⟩

theorem attachProgress_hasProgressId (s : Store) (user : ObjectId) (b : Book) (env : Env)
    {id : ObjectId} (hid : s.hasProgressId id = false) (hne : id ≠ env.progressId) :
    (attachProgress s user b env).2.hasProgressId id = false := by
  rcases attachProgress_progress s user b env with h | ⟨p, h, hp, _, _⟩
  · rw [h]; exact hid
  · rw [h]
    simp only [Store.hasProgressId, List.any_append, List.any_cons, List.any_nil,
      Bool.or_false, Bool.or_eq_false_iff]
    refine ⟨hid, ?_⟩
    simp only [beq_eq_false_iff_ne, ne_eq]
    rw [hp]
    exact fun h => hne h.symm

theorem findExistingBook_congr {s s1 : Store} (h : s1.books = s.books) (g : GoogleBookData) :
    findExistingBook s1 g = findExistingBook s g := by
  simp [findExistingBook, Store.findBookByIsbn, Store.findBookByGoogleId, h]

theorem addFromGoogle_of_resolve {s s1 : Store} {g : GoogleBookData} {env : Env} {b : Book}
    (user : ObjectId) (h : resolveBook s g env = .ok (b, s1)) :
    addFromGoogle s user (some g) env = attachProgress s1 user b env := by
  simp [addFromGoogle, h]

theorem addFromGoogle_found_isbn {t : Store} {g : GoogleBookData} {x : String} {b : Book}
    (user : ObjectId) (env : Env) (hx : g.isbn = some x) (hne : x ≠ "")
    (hf : t.findBookByIsbn x = some b) (hp : t.hasProgressId env.progressId = false) :
    (addFromGoogle t user (some g) env).1.book? = some b ∧
      (addFromGoogle t user (some g) env).2.books = t.books := by
  have he : findExistingBook t g = some b := by
    simp [findExistingBook, hx, truthy, hne, hf]
  have hr : resolveBook t g env = .ok (b, t) := by simp [resolveBook, he]
  rw [addFromGoogle_of_resolve user hr]
  exact ⟨attachProgress_book t user b env hp, attachProgress_books t user b env⟩

theorem findExistingBook_none {s : Store} {g : GoogleBookData}
    (hi : ¬ ∃ x, g.isbn = some x ∧ x ≠ "" ∧ ∃ b0 ∈ s.books, b0.isbn = some x)
    (hg : ¬ ∃ y, g.googleId = some y ∧ y ≠ "" ∧ ∃ b0 ∈ s.books, b0.googleId = some y) :
    findExistingBook s g = none := by
  cases hy : g.googleId with
  | none =>
    have h1 : (if truthy g.isbn then s.findBookByIsbn (g.isbn.getD "") else none) = none := by
      split_ifs with ht
      · cases hx : g.isbn with
        | none => simp [hx, truthy] at ht
        | some x =>
          rw [hx, truthy_some] at ht
          cases hf : s.findBookByIsbn x with
          | none => simpa using hf
          | some b => exact absurd ⟨x, hx, ht, (findBookByIsbn_some_iff s x).mp ⟨b, hf⟩⟩ hi
      · rfl
    simp only [findExistingBook, h1, hy]
    simp [truthy]
  | some y =>
    by_cases hne : y = ""
    · have h1 : (if truthy g.isbn then s.findBookByIsbn (g.isbn.getD "") else none) = none := by
        split_ifs with ht
        · cases hx : g.isbn with
          | none => simp [hx, truthy] at ht
          | some x =>
            rw [hx, truthy_some] at ht
            cases hf : s.findBookByIsbn x with
            | none => simpa using hf
            | some b => exact absurd ⟨x, hx, ht, (findBookByIsbn_some_iff s x).mp ⟨b, hf⟩⟩ hi
        · rfl
      simp only [findExistingBook, h1, hy]
      simp [truthy, hne]
    · rw [findExistingBook_googleId hi hy hne]
      cases hf : s.findBookByGoogleId y with
      | none => rfl
      | some b =>
        exact absurd ⟨y, hy, hne, (findBookByGoogleId_some_iff s y).mp ⟨b, hf⟩⟩ hg

theorem countIsbn_pos {s : Store} {x : String} (h : ∃ b0 ∈ s.books, b0.isbn = some x) :
    1 ≤ s.countIsbn x := by
  obtain ⟨b0, hb, hx⟩ := h
  unfold Store.countIsbn
  apply List.length_pos_of_mem (a := b0)
  simp [List.mem_filter, hb, hx]

theorem filter_isbn_eq_nil {l : List Book} {x : String}
    (h : ¬ ∃ b0 ∈ l, b0.isbn = some x) : l.filter (fun b => b.isbn == some x) = [] := by
  rw [List.filter_eq_nil_iff]
  intro b hb hx
  exact h ⟨b, hb, by simpa using hx⟩

theorem find_isbn_eq_none {l : List Book} {x : String}
    (h : ¬ ∃ b0 ∈ l, b0.isbn = some x) : l.find? (fun b => b.isbn == some x) = none := by
  rw [List.find?_eq_none]
  intro b hb hx
  exact h ⟨b, hb, by simpa using hx⟩

/-- C2 (amended). Resolve is idempotent on isbn when the store holds at most one Book with
that isbn and, if it holds none, no Book carries the first candidate's non-empty googleId:
for candidates `c1`, `c2` with the same non-empty isbn `x` (other fields arbitrary) and
freshly generated ids, two sequential add-from-google calls answer with the same Book, and
exactly one Book with isbn `x` exists afterward. -/
theorem addFromGoogle_idempotent_on_isbn (s : Store) (u1 u2 : ObjectId)
    (c1 c2 : GoogleBookData) (e1 e2 : Env) (x : String)
    (h1 : c1.isbn = some x) (h2 : c2.isbn = some x) (hne : x ≠ "")
    (hcount : s.countIsbn x ≤ 1)
    (hgid : (∃ b0 ∈ s.books, b0.isbn = some x) ∨
      ¬ ∃ y, c1.googleId = some y ∧ y ≠ "" ∧ ∃ b0 ∈ s.books, b0.googleId = some y)
    (hb1 : s.hasBookId e1.bookId = false)
    (hp1 : s.hasProgressId e1.progressId = false)
    (hp2 : s.hasProgressId e2.progressId = false)
    (hp12 : e2.progressId ≠ e1.progressId) :
    ∃ b, (addFromGoogle s u1 (some c1) e1).1.book? = some b ∧
      (addFromGoogle (addFromGoogle s u1 (some c1) e1).2 u2 (some c2) e2).1.book? = some b ∧
      (addFromGoogle (addFromGoogle s u1 (some c1) e1).2 u2 (some c2) e2).2.countIsbn x
        = 1 := by
  by_cases hA : ∃ b0 ∈ s.books, b0.isbn = some x
  · obtain ⟨b, hf⟩ := (findBookByIsbn_some_iff s x).mpr hA
    obtain ⟨hr1, hbooks1⟩ := addFromGoogle_found_isbn u1 e1 h1 hne hf hp1
    have he : findExistingBook s c1 = some b := by
      simp [findExistingBook, h1, truthy, hne, hf]
    have hr : resolveBook s c1 e1 = .ok (b, s) := by simp [resolveBook, he]
    have hfresh2 : (addFromGoogle s u1 (some c1) e1).2.hasProgressId e2.progressId = false := by
      rw [addFromGoogle_of_resolve u1 hr]
      exact attachProgress_hasProgressId s u1 b e1 hp2 hp12
    have hf2 : (addFromGoogle s u1 (some c1) e1).2.findBookByIsbn x = some b := by
      simp only [Store.findBookByIsbn, hbooks1]
      exact hf
    obtain ⟨hr2, hbooks2⟩ := addFromGoogle_found_isbn u2 e2 h2 hne hf2 hfresh2
    refine ⟨b, hr1, hr2, ?_⟩
    have hc : (addFromGoogle (addFromGoogle s u1 (some c1) e1).2 u2 (some c2) e2).2.countIsbn x
        = s.countIsbn x := by
      simp only [Store.countIsbn, hbooks2, hbooks1]
    rw [hc]
    exact le_antisymm hcount (countIsbn_pos hA)
  · have hG : ¬ ∃ y, c1.googleId = some y ∧ y ≠ "" ∧ ∃ b0 ∈ s.books, b0.googleId = some y :=
      hgid.resolve_left hA
    have hI : ¬ ∃ x', c1.isbn = some x' ∧ x' ≠ "" ∧ ∃ b0 ∈ s.books, b0.isbn = some x' := by
      rintro ⟨x', hx', _, hb⟩
      rw [h1] at hx'
      injection hx' with hx'
      subst hx'
      exact hA hb
    obtain ⟨nb, hr, _, hisbn, _⟩ := resolveBook_create e1 (findExistingBook_none hI hG) hb1
    rw [h1, strOr_some_of_ne "" hne] at hisbn
    have hr1 : (addFromGoogle s u1 (some c1) e1).1.book? = some nb := by
      rw [addFromGoogle_of_resolve u1 hr]
      exact attachProgress_book _ u1 nb e1 hp1
    have hbooks1 : (addFromGoogle s u1 (some c1) e1).2.books = s.books ++ [nb] := by
      rw [addFromGoogle_of_resolve u1 hr]
      exact attachProgress_books _ u1 nb e1
    have hfresh2 : (addFromGoogle s u1 (some c1) e1).2.hasProgressId e2.progressId = false := by
      rw [addFromGoogle_of_resolve u1 hr]
      exact attachProgress_hasProgressId _ u1 nb e1 hp2 hp12
    have hf2 : (addFromGoogle s u1 (some c1) e1).2.findBookByIsbn x = some nb := by
      simp only [Store.findBookByIsbn, hbooks1, List.find?_append, find_isbn_eq_none hA]
      simp [List.find?, hisbn]
    obtain ⟨hr2, hbooks2⟩ := addFromGoogle_found_isbn u2 e2 h2 hne hf2 hfresh2
    refine ⟨nb, hr1, hr2, ?_⟩
    simp only [Store.countIsbn, hbooks2, hbooks1, List.filter_append, filter_isbn_eq_nil hA]
    simp [List.filter, hisbn]

/-- C2 as stated fails: in a store that satisfies I4 and holds a Book with googleId `G1` and
no isbn, a candidate with isbn `X` and googleId `G1` resolves to that Book (id 0), and a
second candidate with the same isbn `X` and googleId `G2` creates a new Book (id 2). -/
theorem addFromGoogle_same_isbn_different_books :
    I4 ⟨[sampleBook 0 (some "") (some "G1") 100], []⟩ ∧
    UniqueIds ⟨[sampleBook 0 (some "") (some "G1") 100], []⟩ ∧
    ((addFromGoogle ⟨[sampleBook 0 (some "") (some "G1") 100], []⟩ 7
        (some { isbn := some "X", googleId := some "G1" }) ⟨1, 1, 5⟩).1.book?.map
          (fun b => b._id) = some 0) ∧
    ((addFromGoogle
        (addFromGoogle ⟨[sampleBook 0 (some "") (some "G1") 100], []⟩ 7
          (some { isbn := some "X", googleId := some "G1" }) ⟨1, 1, 5⟩).2 8
        (some { isbn := some "X", googleId := some "G2" }) ⟨2, 2, 6⟩).1.book?.map
          (fun b => b._id) = some 2) := by
  decide

theorem addFromGoogle_idempotent_on_isbn_witness :
    ∃ b, (addFromGoogle emptyStore 7 (some { isbn := some "X", googleId := some "G1" })
        ⟨1, 1, 5⟩).1.book? = some b ∧
      (addFromGoogle
        (addFromGoogle emptyStore 7 (some { isbn := some "X", googleId := some "G1" })
          ⟨1, 1, 5⟩).2 8
        (some { isbn := some "X", googleId := some "G2" }) ⟨2, 2, 6⟩).1.book? = some b ∧
      (addFromGoogle
        (addFromGoogle emptyStore 7 (some { isbn := some "X", googleId := some "G1" })
          ⟨1, 1, 5⟩).2 8
        (some { isbn := some "X", googleId := some "G2" }) ⟨2, 2, 6⟩).2.countIsbn "X" = 1 :=
  addFromGoogle_idempotent_on_isbn emptyStore 7 8
    { isbn := some "X", googleId := some "G1" } { isbn := some "X", googleId := some "G2" }
    ⟨1, 1, 5⟩ ⟨2, 2, 6⟩ "X" rfl rfl (by decide) (by decide)
    (Or.inr (by simp [emptyStore])) (by decide) (by decide) (by decide) (by decide)

/-! ## Invariant I4 and the manual add (C3) -/

/-- C3. The manual add and the edit break invariant I4: from a store that satisfies I4 and
holds one Book with isbn `978`, POST /api/books with a body carrying isbn `978` answers 201
and leaves two Books with that isbn; PUT /api/books/:id that sets the isbn of a second Book
to `978` answers 200 and leaves two Books with that isbn. -/
theorem postBooks_and_putBook_break_I4 :
    I4 ⟨[sampleBook 0 (some "978") none 412], []⟩ ∧
    UniqueIds ⟨[sampleBook 0 (some "978") none 412], []⟩ ∧
    (postBooks ⟨[sampleBook 0 (some "978") none 412], []⟩ 7
      { title := some "Dune", author := some "Herbert", totalPages := some 412,
        isbn := some "978" } ⟨1, 1, 5⟩).1.status = 201 ∧
    (postBooks ⟨[sampleBook 0 (some "978") none 412], []⟩ 7
      { title := some "Dune", author := some "Herbert", totalPages := some 412,
        isbn := some "978" } ⟨1, 1, 5⟩).2.countIsbn "978" = 2 ∧
    ¬ I4 (postBooks ⟨[sampleBook 0 (some "978") none 412], []⟩ 7
      { title := some "Dune", author := some "Herbert", totalPages := some 412,
        isbn := some "978" } ⟨1, 1, 5⟩).2 ∧
    I4 ⟨[sampleBook 0 (some "978") none 412, sampleBook 1 (some "111") none 300], []⟩ ∧
    (putBook ⟨[sampleBook 0 (some "978") none 412, sampleBook 1 (some "111") none 300], []⟩
      (some 1) { isbn := some "978" }).1.status = 200 ∧
    ¬ I4 (putBook
      ⟨[sampleBook 0 (some "978") none 412, sampleBook 1 (some "111") none 300], []⟩
      (some 1) { isbn := some "978" }).2 := by
  decide

/-! ## Progress Ledger: attach (C4) -/

theorem findProgress_eq_none_iff (s : Store) (user bookId : ObjectId) :
    s.findProgress user bookId = none ↔
      ∀ p ∈ s.progress, ¬ (p.userId = user ∧ p.bookId = bookId) := by
  simp [Store.findProgress, List.find?_eq_none]

theorem rowsOf_eq_nil_iff (s : Store) (user bookId : ObjectId) :
    s.rowsOf user bookId = [] ↔
      ∀ p ∈ s.progress, ¬ (p.userId = user ∧ p.bookId = bookId) := by
  simp [Store.rowsOf, List.filter_eq_nil_iff]

theorem attachProgress_first (s : Store) (user : ObjectId) (b : Book) (env : Env)
    (hnone : s.findProgress user b._id = none)
    (hfresh : s.hasProgressId env.progressId = false) :
    attachProgress s user b env =
      (⟨201, .book b⟩,
       { s with progress := s.progress ++
          [{ _id := env.progressId, userId := user, bookId := b._id, currentPage := 0,
             status := "reading", startedAt := env.now, completedAt := none,
             notes := none, rating := none, updatedAt := env.now }] }) := by
  unfold attachProgress
  rw [hnone]
  simp only
  rw [saveNewProgress_reading_ok s user b._id env hfresh hnone]

theorem attachProgress_second (s : Store) (user : ObjectId) (b : Book) (env : Env)
    {p : ReadingProgress} (h : s.findProgress user b._id = some p) :
    attachProgress s user b env =
      (⟨400, .errorWithBook "Este libro ya está en tu biblioteca" b⟩, s) := by
  unfold attachProgress
  rw [h]

/-- C4. Attach as performed by add-from-google on a candidate that resolves to the existing
Book `book`, for a user with no row on it: the first call answers 201 and appends exactly
one row with `userId = user`, `bookId = book._id`, `currentPage = 0`, `status = reading`;
a second call answers 400 (already in library) and leaves the store as it was, with exactly
one row for `(user, book._id)`. -/
theorem addFromGoogle_attach_twice (s : Store) (user : ObjectId) (g : GoogleBookData)
    (book : Book) (e1 e2 : Env)
    (hres : findExistingBook s g = some book)
    (hnone : ∀ p ∈ s.progress, ¬ (p.userId = user ∧ p.bookId = book._id))
    (hfresh : s.hasProgressId e1.progressId = false) :
    (addFromGoogle s user (some g) e1).1 = ⟨201, .book book⟩ ∧
    (addFromGoogle s user (some g) e1).2 =
      { s with progress := s.progress ++
          [{ _id := e1.progressId, userId := user, bookId := book._id, currentPage := 0,
             status := "reading", startedAt := e1.now, completedAt := none,
             notes := none, rating := none, updatedAt := e1.now }] } ∧
    (addFromGoogle s user (some g) e1).2.rowsOf user book._id =
      [{ _id := e1.progressId, userId := user, bookId := book._id, currentPage := 0,
         status := "reading", startedAt := e1.now, completedAt := none,
         notes := none, rating := none, updatedAt := e1.now }] ∧
    (addFromGoogle (addFromGoogle s user (some g) e1).2 user (some g) e2).1 =
      ⟨400, .errorWithBook "Este libro ya está en tu biblioteca" book⟩ ∧
    (addFromGoogle (addFromGoogle s user (some g) e1).2 user (some g) e2).2 =
      (addFromGoogle s user (some g) e1).2 := by
  have hr : resolveBook s g e1 = .ok (book, s) := by simp [resolveBook, hres]
  have hn : s.findProgress user book._id = none :=
    (findProgress_eq_none_iff s user book._id).mpr hnone
  have h1 := attachProgress_first s user book e1 hn hfresh
  rw [← addFromGoogle_of_resolve user hr] at h1
  have hrows : (addFromGoogle s user (some g) e1).2.rowsOf user book._id =
      [{ _id := e1.progressId, userId := user, bookId := book._id, currentPage := 0,
         status := "reading", startedAt := e1.now, completedAt := none,
         notes := none, rating := none, updatedAt := e1.now }] := by
    rw [h1]
    simp only [Store.rowsOf, List.filter_append]
    rw [show s.progress.filter (fun p => p.userId == user && p.bookId == book._id) = [] from
      (rowsOf_eq_nil_iff s user book._id).mpr hnone]
    simp
  have hfind : (addFromGoogle s user (some g) e1).2.findProgress user book._id =
      some { _id := e1.progressId, userId := user, bookId := book._id, currentPage := 0,
             status := "reading", startedAt := e1.now, completedAt := none,
             notes := none, rating := none, updatedAt := e1.now } := by
    rw [h1]
    simp only [Store.findProgress, List.find?_append]
    rw [show s.progress.find? (fun p => p.userId == user && p.bookId == book._id) = none from hn]
    simp
  have hres2 : findExistingBook (addFromGoogle s user (some g) e1).2 g = some book := by
    have hb : (addFromGoogle s user (some g) e1).2.books = s.books := by rw [h1]
    rw [findExistingBook_congr hb g, hres]
  have hr2 : resolveBook (addFromGoogle s user (some g) e1).2 g e2 =
      .ok (book, (addFromGoogle s user (some g) e1).2) := by
    simp [resolveBook, hres2]
  have h2 := attachProgress_second (addFromGoogle s user (some g) e1).2 user book e2 hfind
  rw [← addFromGoogle_of_resolve user hr2] at h2
  refine ⟨by rw [h1], by rw [h1], hrows, by rw [h2], by rw [h2]⟩

theorem addFromGoogle_attach_twice_witness :
    (addFromGoogle ⟨[sampleBook 0 (some "978") (some "G1") 412], []⟩ 7
      (some { isbn := some "978" }) ⟨1, 1, 5⟩).1
      = ⟨201, .book (sampleBook 0 (some "978") (some "G1") 412)⟩ ∧
    (addFromGoogle ⟨[sampleBook 0 (some "978") (some "G1") 412], []⟩ 7
      (some { isbn := some "978" }) ⟨1, 1, 5⟩).2 =
      { (⟨[sampleBook 0 (some "978") (some "G1") 412], []⟩ : Store) with
        progress := [] ++
          [{ _id := 1, userId := 7, bookId := 0, currentPage := 0,
             status := "reading", startedAt := 5, completedAt := none,
             notes := none, rating := none, updatedAt := 5 }] } ∧
    (addFromGoogle ⟨[sampleBook 0 (some "978") (some "G1") 412], []⟩ 7
      (some { isbn := some "978" }) ⟨1, 1, 5⟩).2.rowsOf 7 0 =
      [{ _id := 1, userId := 7, bookId := 0, currentPage := 0,
         status := "reading", startedAt := 5, completedAt := none,
         notes := none, rating := none, updatedAt := 5 }] ∧
    (addFromGoogle (addFromGoogle ⟨[sampleBook 0 (some "978") (some "G1") 412], []⟩ 7
      (some { isbn := some "978" }) ⟨1, 1, 5⟩).2 7 (some { isbn := some "978" }) ⟨2, 2, 6⟩).1 =
      ⟨400, .errorWithBook "Este libro ya está en tu biblioteca"
        (sampleBook 0 (some "978") (some "G1") 412)⟩ ∧
    (addFromGoogle (addFromGoogle ⟨[sampleBook 0 (some "978") (some "G1") 412], []⟩ 7
      (some { isbn := some "978" }) ⟨1, 1, 5⟩).2 7 (some { isbn := some "978" }) ⟨2, 2, 6⟩).2 =
      (addFromGoogle ⟨[sampleBook 0 (some "978") (some "G1") 412], []⟩ 7
      (some { isbn := some "978" }) ⟨1, 1, 5⟩).2 :=
  addFromGoogle_attach_twice ⟨[sampleBook 0 (some "978") (some "G1") 412], []⟩ 7
    { isbn := some "978" } (sampleBook 0 (some "978") (some "G1") 412) ⟨1, 1, 5⟩ ⟨2, 2, 6⟩
    (by decide) (by simp) (by decide)

/-! ## Invariant I2 and the `_id` indexes are preserved by every request (C5) -/

theorem deleteFirst_sublist {α : Type} (p : α → Bool) (l : List α) :
    (deleteFirst p l).Sublist l := by
  induction l with
  | nil => exact List.Sublist.slnil
  | cons a as ih =>
    unfold deleteFirst
    split_ifs
    · exact List.sublist_cons_self a as
    · exact ih.cons₂ a

theorem nodup_map_deleteFirst {α β : Type} (f : α → β) (p : α → Bool) {l : List α}
    (h : (l.map f).Nodup) : ((deleteFirst p l).map f).Nodup :=
  h.sublist ((deleteFirst_sublist p l).map f)

theorem map_updateFirstProgress {β : Type} (f : ReadingProgress → β) (p : ReadingProgress)
    (l : List ReadingProgress) (h : ∀ q ∈ l, q._id = p._id → f q = f p) :
    (updateFirstProgress p l).map f = l.map f := by
  induction l with
  | nil => rfl
  | cons a as ih =>
    unfold updateFirstProgress
    split_ifs with ha
    · simp [h a (List.mem_cons_self a as) ha]
    · simp only [List.map_cons]
      rw [ih (fun q hq => h q (List.mem_cons_of_mem a hq))]

theorem map_id_updateFirstBook (id : ObjectId) (f : Book → Book)
    (hf : ∀ b, (f b)._id = b._id) (l : List Book) :
    (updateFirstBook id f l).map (fun b => b._id) = l.map (fun b => b._id) := by
  induction l with
  | nil => rfl
  | cons a as ih =>
    unfold updateFirstBook
    split_ifs
    · simp [hf a]
    · simp only [List.map_cons]
      rw [ih]

theorem findProgress_spec {s : Store} {user bookId : ObjectId} {p : ReadingProgress}
    (h : s.findProgress user bookId = some p) :
    p ∈ s.progress ∧ p.userId = user ∧ p.bookId = bookId := by
  refine ⟨List.mem_of_find?_eq_some h, ?_⟩
  simpa using List.find?_some h

theorem saveNewProgress_I2 {s s1 : Store} {d : ProgressDoc} {env : Env} {p : ReadingProgress}
    (h : s.saveNewProgress d env = .ok (p, s1)) (h2 : I2 s) : I2 s1 := by
  obtain ⟨hs, _, hu, hb, _, _, _, _, _, _, _, _, hnone⟩ := saveNewProgress_spec h
  rw [hs]
  unfold I2 at *
  simp only [List.map_append, List.map_cons, List.map_nil]
  rw [List.nodup_append]
  refine ⟨h2, List.nodup_singleton _, ?_⟩
  rw [List.disjoint_singleton]
  intro hmem
  obtain ⟨q, hq, hk⟩ := List.mem_map.mp hmem
  rw [hu, hb] at hk
  injection hk with hk1 hk2
  exact (findProgress_eq_none_iff s d.userId d.bookId).mp hnone q hq ⟨hk1, hk2⟩

theorem saveNewProgress_progressIds {s s1 : Store} {d : ProgressDoc} {env : Env}
    {p : ReadingProgress} (h : s.saveNewProgress d env = .ok (p, s1))
    (hid : (s.progress.map (fun p => p._id)).Nodup) :
    (s1.progress.map (fun p => p._id)).Nodup := by
  obtain ⟨hs, hp, _, _, _, _, _, _, _, _, _, hfresh, _⟩ := saveNewProgress_spec h
  rw [hs]
  simp only [List.map_append, List.map_cons, List.map_nil]
  rw [List.nodup_append]
  refine ⟨hid, List.nodup_singleton _, ?_⟩
  rw [List.disjoint_singleton]
  intro hmem
  obtain ⟨q, hq, hk⟩ := List.mem_map.mp hmem
  rw [hp] at hk
  have : s.hasProgressId env.progressId = true := by
    simp only [Store.hasProgressId, List.any_eq_true]
    exact ⟨q, hq, by simpa using hk⟩
  rw [hfresh] at this
  exact Bool.false_ne_true this

theorem saveNewBook_spec {s s1 : Store} {d : BookDoc} {env : Env} {b : Book}
    (h : s.saveNewBook d env = .ok (b, s1)) :
    s1 = { s with books := s.books ++ [b] } ∧ d.validate env = .ok b ∧
      s.hasBookId b._id = false := by
  unfold Store.saveNewBook at h
  split at h
  · exact absurd h (by simp)
  · next b' hv =>
    split_ifs at h with hdup
    injection h with h
    injection h with hb hs
    subst hb
    exact ⟨hs.symm, hv, by simpa using hdup⟩

theorem saveNewBook_bookIds {s s1 : Store} {d : BookDoc} {env : Env} {b : Book}
    (h : s.saveNewBook d env = .ok (b, s1))
    (hid : (s.books.map (fun b => b._id)).Nodup) :
    (s1.books.map (fun b => b._id)).Nodup := by
  obtain ⟨hs, _, hfresh⟩ := saveNewBook_spec h
  rw [hs]
  simp only [List.map_append, List.map_cons, List.map_nil]
  rw [List.nodup_append]
  refine ⟨hid, List.nodup_singleton _, ?_⟩
  rw [List.disjoint_singleton]
  intro hmem
  obtain ⟨q, hq, hk⟩ := List.mem_map.mp hmem
  have : s.hasBookId b._id = true := by
    simp only [Store.hasBookId, List.any_eq_true]
    exact ⟨q, hq, by simpa using hk⟩
  rw [hfresh] at this
  exact Bool.false_ne_true this

theorem attachProgress_I2 (s : Store) (user : ObjectId) (b : Book) (env : Env) (h2 : I2 s) :
    I2 (attachProgress s user b env).2 := by
  unfold attachProgress
  split
  · exact h2
  · split
    · exact h2
    · next h => exact saveNewProgress_I2 h h2

theorem attachProgress_uniqueIds (s : Store) (user : ObjectId) (b : Book) (env : Env)
    (hid : UniqueIds s) : UniqueIds (attachProgress s user b env).2 := by
  unfold attachProgress
  split
  · exact hid
  · split
    · exact hid
    · next h => exact ⟨by rw [saveNewProgress_books h]; exact hid.1,
        saveNewProgress_progressIds h hid.2⟩

theorem resolveBook_spec {s s1 : Store} {g : GoogleBookData} {env : Env} {b : Book}
    (h : resolveBook s g env = .ok (b, s1)) :
    (s1 = s ∧ findExistingBook s g = some b) ∨
      (findExistingBook s g = none ∧ s.saveNewBook (bookToSave g) env = .ok (b, s1)) := by
  unfold resolveBook at h
  split at h
  · next e he =>
    injection h with h
    injection h with hb hs
    subst hb
    exact Or.inl ⟨hs.symm, he⟩
  · next he => exact Or.inr ⟨he, h⟩

theorem resolveBook_I2 {s s1 : Store} {g : GoogleBookData} {env : Env} {b : Book}
    (h : resolveBook s g env = .ok (b, s1)) (h2 : I2 s) : I2 s1 := by
  rcases resolveBook_spec h with ⟨hs, _⟩ | ⟨_, hsave⟩
  · rw [hs]; exact h2
  · rw [(saveNewBook_spec hsave).1]; exact h2

theorem resolveBook_uniqueIds {s s1 : Store} {g : GoogleBookData} {env : Env} {b : Book}
    (h : resolveBook s g env = .ok (b, s1)) (hid : UniqueIds s) : UniqueIds s1 := by
  rcases resolveBook_spec h with ⟨hs, _⟩ | ⟨_, hsave⟩
  · rw [hs]; exact hid
  · exact ⟨saveNewBook_bookIds hsave hid.1, by rw [(saveNewBook_spec hsave).1]; exact hid.2⟩

theorem addFromGoogle_inv (s : Store) (user : ObjectId) (g : Option GoogleBookData)
    (env : Env) (h2 : I2 s) (hid : UniqueIds s) :
    I2 (addFromGoogle s user g env).2 ∧ UniqueIds (addFromGoogle s user g env).2 := by
  unfold addFromGoogle
  split
  · exact ⟨h2, hid⟩
  · split
    · exact ⟨h2, hid⟩
    · next h =>
      exact ⟨attachProgress_I2 _ user _ env (resolveBook_I2 h h2),
        attachProgress_uniqueIds _ user _ env (resolveBook_uniqueIds h hid)⟩

theorem postBooks_inv (s : Store) (user : ObjectId) (body : BookDoc) (env : Env)
    (h2 : I2 s) (hid : UniqueIds s) :
    I2 (postBooks s user body env).2 ∧ UniqueIds (postBooks s user body env).2 := by
  unfold postBooks
  split
  · exact ⟨h2, hid⟩
  · next b s1 hsave =>
    have h21 : I2 s1 := by rw [(saveNewBook_spec hsave).1]; exact h2
    have hid1 : UniqueIds s1 :=
      ⟨saveNewBook_bookIds hsave hid.1, by rw [(saveNewBook_spec hsave).1]; exact hid.2⟩
    split
    · exact ⟨h21, hid1⟩
    · next h =>
      exact ⟨saveNewProgress_I2 h h21,
        by rw [saveNewProgress_books h]; exact hid1.1, saveNewProgress_progressIds h hid1.2⟩

theorem apply_id (u : BookUpdate) (b : Book) : (u.apply b)._id = b._id := rfl

theorem putBook_inv (s : Store) (id : Option ObjectId) (u : BookUpdate)
    (h2 : I2 s) (hid : UniqueIds s) :
    I2 (putBook s id u).2 ∧ UniqueIds (putBook s id u).2 := by
  unfold putBook
  split
  · exact ⟨h2, hid⟩
  · split_ifs
    · exact ⟨h2, hid⟩
    · simp only
      split_ifs
      · exact ⟨h2, hid⟩
      · split
        · exact ⟨h2, hid⟩
        · refine ⟨h2, ?_, hid.2⟩
          simp only
          rw [map_id_updateFirstBook _ _ (apply_id _)]
          exact hid.1

theorem deleteBook_inv (s : Store) (user : ObjectId) (id : Option ObjectId)
    (h2 : I2 s) (hid : UniqueIds s) :
    I2 (deleteBook s user id).2 ∧ UniqueIds (deleteBook s user id).2 := by
  unfold deleteBook
  split
  · exact ⟨h2, hid⟩
  · split
    · exact ⟨h2, hid⟩
    · simp only
      split_ifs
      · exact ⟨nodup_map_deleteFirst _ _ h2, nodup_map_deleteFirst _ _ hid.1,
          nodup_map_deleteFirst _ _ hid.2⟩
      · exact ⟨nodup_map_deleteFirst _ _ h2, hid.1, nodup_map_deleteFirst _ _ hid.2⟩

theorem deleteProgress_inv (s : Store) (user : ObjectId) (id : Option ObjectId)
    (h2 : I2 s) (hid : UniqueIds s) :
    I2 (deleteProgress s user id).2 ∧ UniqueIds (deleteProgress s user id).2 := by
  unfold deleteProgress
  split
  · exact ⟨h2, hid⟩
  · split
    · exact ⟨h2, hid⟩
    · exact ⟨nodup_map_deleteFirst _ _ h2, hid.1, nodup_map_deleteFirst _ _ hid.2⟩

theorem saveProgress_spec {s s1 : Store} {p : ReadingProgress}
    (h : s.saveProgress p = .ok s1) :
    s1 = { s with progress := updateFirstProgress p s.progress } ∧
      p.status ∈ statusEnum ∧ ratingOk p.rating = true := by
  unfold Store.saveProgress at h
  split_ifs at h with hv
  injection h with h
  simp only [not_or, not_not, Bool.not_eq_false] at hv
  exact ⟨h.symm, hv.1, hv.2⟩

theorem eq_of_mem_of_id_eq {l : List ReadingProgress}
    (hid : (l.map (fun p => p._id)).Nodup) {p q : ReadingProgress}
    (hp : p ∈ l) (hq : q ∈ l) (h : q._id = p._id) : q = p :=
  List.inj_on_of_nodup_map hid hq hp h

theorem postProgress_inv (s : Store) (user : ObjectId) (body : ProgressBody) (env : Env)
    (h2 : I2 s) (hid : UniqueIds s) :
    I2 (postProgress s user body env).2 ∧ UniqueIds (postProgress s user body env).2 := by
  unfold postProgress
  split
  · exact ⟨h2, hid⟩
  · split
    · next progress hfind =>
      simp only
      split
      · exact ⟨h2, hid⟩
      · next s1 hsave =>
        obtain ⟨hs, _, _⟩ := saveProgress_spec hsave
        obtain ⟨hmem, _, _⟩ := findProgress_spec hfind
        simp only
        rw [hs]
        refine ⟨?_, hid.1, ?_⟩
        · unfold I2
          simp only
          rw [map_updateFirstProgress]
          · exact h2
          · intro q hq hqid
            rw [eq_of_mem_of_id_eq hid.2 hmem hq hqid]
            rfl
        · simp only
          rw [map_updateFirstProgress]
          · exact hid.2
          · intro q _ hqid
            exact hqid
    · split
      · exact ⟨h2, hid⟩
      · next h =>
        exact ⟨saveNewProgress_I2 h h2,
          by rw [saveNewProgress_books h]; exact hid.1, saveNewProgress_progressIds h hid.2⟩

theorem handle_inv (s : Store) (user : ObjectId) (env : Env) (req : Request)
    (h2 : I2 s) (hid : UniqueIds s) :
    I2 (handle s user env req).2 ∧ UniqueIds (handle s user env req).2 := by
  cases req with
  | addFromGoogle g => exact addFromGoogle_inv s user g env h2 hid
  | postBooks body => exact postBooks_inv s user body env h2 hid
  | putBook id u => exact putBook_inv s id u h2 hid
  | deleteBook id => exact deleteBook_inv s user id h2 hid
  | deleteProgress id => exact deleteProgress_inv s user id h2 hid
  | postProgress body => exact postProgress_inv s user body env h2 hid
  | getBooks => exact ⟨h2, hid⟩
  | getProgress =>
    unfold handle getProgress
    simp only
    split_ifs
    · exact ⟨h2, hid⟩
    · exact ⟨h2, hid⟩
  | getStats => exact ⟨h2, hid⟩

/-- C5. Invariant I2 is preserved by every request (manual add, add-from-google, edit,
progress upsert, delete book, delete progress, and the read-only routes): in a database
whose `_id` indexes hold, if no two ReadingProgress rows share `(userId, bookId)` before the
request, none do after it, and the `_id` indexes still hold. -/
theorem handle_preserves_I2 (s : Store) (user : ObjectId) (env : Env) (req : Request)
    (h2 : I2 s) (hid : UniqueIds s) :
    I2 (handle s user env req).2 ∧ UniqueIds (handle s user env req).2 := by
  cases req with
  | addFromGoogle g => exact addFromGoogle_inv s user g env h2 hid
  | postBooks body => exact postBooks_inv s user body env h2 hid
  | putBook id u => exact putBook_inv s id u h2 hid
  | deleteBook id => exact deleteBook_inv s user id h2 hid
  | deleteProgress id => exact deleteProgress_inv s user id h2 hid
  | postProgress body => exact postProgress_inv s user body env h2 hid
  | getBooks => exact ⟨h2, hid⟩
  | getProgress =>
    unfold handle getProgress
    simp only
    split_ifs
    · exact ⟨h2, hid⟩
    · exact ⟨h2, hid⟩
  | getStats => exact ⟨h2, hid⟩

theorem handle_preserves_I2_witness :
    I2 (handle ⟨[sampleBook 0 none none 412], [sampleRow 0 7 0]⟩ 8 ⟨1, 1, 5⟩
      (.postProgress { bookId := some 0, currentPage := 10 })).2 ∧
    UniqueIds (handle ⟨[sampleBook 0 none none 412], [sampleRow 0 7 0]⟩ 8 ⟨1, 1, 5⟩
      (.postProgress { bookId := some 0, currentPage := 10 })).2 :=
  handle_preserves_I2 ⟨[sampleBook 0 none none 412], [sampleRow 0 7 0]⟩ 8 ⟨1, 1, 5⟩
    (.postProgress { bookId := some 0, currentPage := 10 }) (by decide) (by decide)

/-! ## detachBook and the Reclamation Policy (C6, C7) -/

theorem deleteFirst_eq_erase {α : Type} [DecidableEq α] (p : α → Bool) {r : α} :
    ∀ {l : List α}, r ∈ l → p r = true → (∀ q ∈ l, p q = true → q = r) →
      deleteFirst p l = l.erase r
  | [], hr, _, _ => absurd hr (List.not_mem_nil r)
  | a :: as, hr, hp, huniq => by
    unfold deleteFirst
    by_cases ha : p a = true
    · have har : a = r := huniq a (List.mem_cons_self a as) ha
      subst har
      simp [ha]
    · have har : a ≠ r := fun h => ha (h ▸ hp)
      have hr2 : r ∈ as := (List.mem_cons.mp hr).resolve_left (fun h => har h.symm)
      rw [if_neg ha, deleteFirst_eq_erase p hr2 hp
        (fun q hq => huniq q (List.mem_cons_of_mem a hq))]
      rw [List.erase_cons_tail (by simpa using har)]

theorem filter_erase_of_pos {α : Type} [DecidableEq α] (f : α → Bool) {r : α}
    (hf : f r = true) : ∀ l : List α, (l.erase r).filter f = (l.filter f).erase r
  | [] => rfl
  | a :: as => by
    by_cases har : a = r
    · subst har
      simp [hf]
    · rw [List.erase_cons_tail (by simpa using har)]
      by_cases hfa : f a = true
      · rw [List.filter_cons_of_pos hfa, List.filter_cons_of_pos hfa,
          List.erase_cons_tail (by simpa using har), filter_erase_of_pos f hf as]
      · rw [List.filter_cons_of_neg hfa, List.filter_cons_of_neg hfa,
          filter_erase_of_pos f hf as]

theorem hasBookId_deleteFirst {l : List Book} (id : ObjectId)
    (h : (l.map (fun b => b._id)).Nodup) :
    (deleteFirst (fun b => b._id == id) l).any (fun b => b._id == id) = false := by
  induction l with
  | nil => rfl
  | cons a as ih =>
    rw [List.map_cons, List.nodup_cons] at h
    unfold deleteFirst
    by_cases ha : a._id = id
    · simp only [ha, beq_self_eq_true, if_true]
      rw [List.any_eq_false]
      intro q hq hqid
      exact h.1 (List.mem_map.mpr ⟨q, hq, by rw [ha]; simpa using hqid⟩)
    · have : (a._id == id) = false := by simpa using ha
      simp only [this, Bool.false_eq_true, if_false, List.any_cons, Bool.false_or]
      exact ih h.2

theorem nodup_of_nodup_map {α β : Type} (f : α → β) {l : List α} (h : (l.map f).Nodup) :
    l.Nodup :=
  List.Nodup.of_map f h

theorem findProgress_of_mem {s : Store} {r : ReadingProgress} (h2 : I2 s)
    (hmem : r ∈ s.progress) : s.findProgress r.userId r.bookId = some r := by
  have hsome : (s.findProgress r.userId r.bookId).isSome := by
    unfold Store.findProgress
    rw [List.find?_isSome]
    exact ⟨r, hmem, by simp⟩
  obtain ⟨q, hq⟩ := Option.isSome_iff_exists.mp hsome
  obtain ⟨hqmem, hqu, hqb⟩ := findProgress_spec hq
  have : q = r := by
    apply List.inj_on_of_nodup_map h2 hqmem hmem
    simp only [hqu, hqb]
  rw [hq, this]

theorem deleteBook_eq (s : Store) (user bookId : ObjectId) (r : ReadingProgress)
    (hid : UniqueIds s) (hfind : s.findProgress user bookId = some r) :
    deleteBook s user (some bookId) =
      (⟨200, .deletedBook bookId⟩,
        if ((s.referencing bookId).erase r).length = 0 then
          { books := deleteFirst (fun b => b._id == bookId) s.books,
            progress := s.progress.erase r }
        else { s with progress := s.progress.erase r }) := by
  obtain ⟨hmem, _, hb⟩ := findProgress_spec hfind
  have hdel : deleteFirst (fun p => p._id == r._id) s.progress = s.progress.erase r :=
    deleteFirst_eq_erase _ hmem (by simp)
      (fun q hq hqid => eq_of_mem_of_id_eq hid.2 hmem hq (by simpa using hqid))
  have hfilter : (s.progress.erase r).filter (fun p => p.bookId == bookId) =
      (s.referencing bookId).erase r :=
    filter_erase_of_pos _ (by simpa using hb) s.progress
  simp only [deleteBook, hfind, hdel, hfilter]

/-- C6. DELETE /api/books/:id by a user who owns the row `r` on Book id `bookId`, in a
database whose `_id` indexes and invariant I2 hold: the caller's row is removed and every
other row is kept; if `r` was the only row referencing the Book, then afterwards no row
references it and no Book with that id exists; if `N > 1` rows referenced it, the Book
collection is unchanged and exactly the `N - 1` former rows other than `r` reference it,
none of them the caller's. -/
theorem deleteBook_detaches_and_reclaims (s : Store) (user bookId : ObjectId)
    (r : ReadingProgress) (hid : UniqueIds s) (h2 : I2 s)
    (hmem : r ∈ s.progress) (hu : r.userId = user) (hb : r.bookId = bookId) :
    (deleteBook s user (some bookId)).1 = ⟨200, .deletedBook bookId⟩ ∧
    (deleteBook s user (some bookId)).2.progress = s.progress.erase r ∧
    r ∉ (deleteBook s user (some bookId)).2.progress ∧
    ((s.referencing bookId).length = 1 →
      (deleteBook s user (some bookId)).2.referencing bookId = [] ∧
      (deleteBook s user (some bookId)).2.hasBookId bookId = false) ∧
    (1 < (s.referencing bookId).length →
      (deleteBook s user (some bookId)).2.books = s.books ∧
      (deleteBook s user (some bookId)).2.referencing bookId
        = (s.referencing bookId).erase r ∧
      ((deleteBook s user (some bookId)).2.referencing bookId).length
        = (s.referencing bookId).length - 1 ∧
      ∀ q ∈ (deleteBook s user (some bookId)).2.referencing bookId,
        q ∈ s.referencing bookId ∧ q.userId ≠ user) := by
  have hfind : s.findProgress user bookId = some r := by
    rw [← hu, ← hb]
    exact findProgress_of_mem h2 hmem
  have hnodup : s.progress.Nodup := nodup_of_nodup_map _ hid.2
  have hrref : r ∈ s.referencing bookId := by
    simp [Store.referencing, List.mem_filter, hmem, hb]
  have hlen : ((s.referencing bookId).erase r).length = (s.referencing bookId).length - 1 :=
    List.length_erase_of_mem hrref
  have hprog : (deleteBook s user (some bookId)).2.progress = s.progress.erase r := by
    rw [deleteBook_eq s user bookId r hid hfind]
    simp only
    split_ifs <;> rfl
  have href : (deleteBook s user (some bookId)).2.referencing bookId
      = (s.referencing bookId).erase r := by
    unfold Store.referencing
    rw [hprog]
    exact filter_erase_of_pos _ (by simpa using hb) s.progress
  refine ⟨by rw [deleteBook_eq s user bookId r hid hfind], hprog, ?_, ?_, ?_⟩
  · rw [hprog]
    exact hnodup.not_mem_erase
  · intro h1
    have h0 : ((s.referencing bookId).erase r).length = 0 := by rw [hlen, h1]
    refine ⟨by rw [href]; exact List.length_eq_zero.mp h0, ?_⟩
    rw [deleteBook_eq s user bookId r hid hfind]
    simp only [h0, if_true]
    exact hasBookId_deleteFirst bookId hid.1
  · intro hN
    have hne : ¬ ((s.referencing bookId).erase r).length = 0 := by rw [hlen]; omega
    refine ⟨?_, href, by rw [href, hlen], ?_⟩
    · rw [deleteBook_eq s user bookId r hid hfind]
      simp only [hne, if_false]
    · intro q hq
      rw [href] at hq
      have hrefnodup : (s.referencing bookId).Nodup := hnodup.filter _
      obtain ⟨hqne, hqref⟩ := (hrefnodup.mem_erase_iff).mp hq
      refine ⟨hqref, ?_⟩
      intro hqu
      have hqmem : q ∈ s.progress := (List.mem_filter.mp hqref).1
      have hqb : q.bookId = bookId := by simpa using (List.mem_filter.mp hqref).2
      apply hqne
      apply List.inj_on_of_nodup_map h2 hqmem hmem
      simp only [hqu, hqb, hu, hb]

theorem deleteBook_detaches_and_reclaims_witness :
    ((deleteBook ⟨[sampleBook 0 none none 412], [sampleRow 0 7 0]⟩ 7
        (some 0)).2.referencing 0 = [] ∧
      (deleteBook ⟨[sampleBook 0 none none 412], [sampleRow 0 7 0]⟩ 7
        (some 0)).2.hasBookId 0 = false) ∧
    ((deleteBook ⟨[sampleBook 0 none none 412], [sampleRow 0 7 0, sampleRow 1 8 0]⟩ 7
        (some 0)).2.books = [sampleBook 0 none none 412] ∧
      (deleteBook ⟨[sampleBook 0 none none 412], [sampleRow 0 7 0, sampleRow 1 8 0]⟩ 7
        (some 0)).2.referencing 0
        = (Store.referencing ⟨[sampleBook 0 none none 412],
            [sampleRow 0 7 0, sampleRow 1 8 0]⟩ 0).erase (sampleRow 0 7 0) ∧
      ((deleteBook ⟨[sampleBook 0 none none 412], [sampleRow 0 7 0, sampleRow 1 8 0]⟩ 7
        (some 0)).2.referencing 0).length
        = (Store.referencing ⟨[sampleBook 0 none none 412],
            [sampleRow 0 7 0, sampleRow 1 8 0]⟩ 0).length - 1 ∧
      ∀ q ∈ (deleteBook ⟨[sampleBook 0 none none 412],
          [sampleRow 0 7 0, sampleRow 1 8 0]⟩ 7 (some 0)).2.referencing 0,
        q ∈ Store.referencing ⟨[sampleBook 0 none none 412],
            [sampleRow 0 7 0, sampleRow 1 8 0]⟩ 0 ∧ q.userId ≠ 7) :=
  ⟨(deleteBook_detaches_and_reclaims
      ⟨[sampleBook 0 none none 412], [sampleRow 0 7 0]⟩ 7 0 (sampleRow 0 7 0)
      (by decide) (by decide) (by decide) rfl rfl).2.2.2.1 (by decide),
   (deleteBook_detaches_and_reclaims
      ⟨[sampleBook 0 none none 412], [sampleRow 0 7 0, sampleRow 1 8 0]⟩ 7 0
      (sampleRow 0 7 0) (by decide) (by decide) (by decide) rfl rfl).2.2.2.2 (by decide)⟩

/-- C7. Ownership gate of DELETE /api/books/:id: when the caller has no row on the Book id,
the request is answered 403 and the database is unchanged, whether or not any row or Book
with that id exists. -/
theorem deleteBook_forbidden_without_row (s : Store) (user bookId : ObjectId)
    (h : ∀ p ∈ s.progress, ¬ (p.userId = user ∧ p.bookId = bookId)) :
    (deleteBook s user (some bookId)).1.status = 403 ∧
    (deleteBook s user (some bookId)).2 = s := by
  have hn : s.findProgress user bookId = none :=
    (findProgress_eq_none_iff s user bookId).mpr h
  simp [deleteBook, hn]

theorem deleteBook_forbidden_without_row_witness :
    (deleteBook ⟨[sampleBook 0 none none 412], [sampleRow 0 7 0]⟩ 8 (some 0)).1.status = 403 ∧
    (deleteBook ⟨[sampleBook 0 none none 412], [sampleRow 0 7 0]⟩ 8 (some 0)).2
      = ⟨[sampleBook 0 none none 412], [sampleRow 0 7 0]⟩ :=
  deleteBook_forbidden_without_row ⟨[sampleBook 0 none none 412], [sampleRow 0 7 0]⟩ 8 0
    (by decide)

/-! ## Reclamation is the only path that destroys a Book (C8) -/

theorem addFromGoogle_books (s : Store) (user : ObjectId) (g : Option GoogleBookData)
    (env : Env) :
    (addFromGoogle s user g env).2.books = s.books ∨
      ∃ b, (addFromGoogle s user g env).2.books = s.books ++ [b] := by
  unfold addFromGoogle
  split
  · exact Or.inl rfl
  · split
    · exact Or.inl rfl
    · next h =>
      rw [attachProgress_books]
      rcases resolveBook_spec h with ⟨hs, _⟩ | ⟨_, hsave⟩
      · exact Or.inl (by rw [hs])
      · exact Or.inr ⟨_, by rw [(saveNewBook_spec hsave).1]⟩

theorem postBooks_books (s : Store) (user : ObjectId) (body : BookDoc) (env : Env) :
    (postBooks s user body env).2.books = s.books ∨
      ∃ b, (postBooks s user body env).2.books = s.books ++ [b] := by
  unfold postBooks
  split
  · exact Or.inl rfl
  · next b s1 hsave =>
    split
    · exact Or.inr ⟨b, by rw [(saveNewBook_spec hsave).1]⟩
    · next h =>
      exact Or.inr ⟨b, by rw [saveNewProgress_books h, (saveNewBook_spec hsave).1]⟩

theorem putBook_bookIds (s : Store) (id : Option ObjectId) (u : BookUpdate) :
    (putBook s id u).2.books.map (fun b => b._id) = s.books.map (fun b => b._id) := by
  unfold putBook
  split
  · rfl
  · split_ifs
    · rfl
    · simp only
      split_ifs
      · rfl
      · split
        · rfl
        · exact map_id_updateFirstBook _ _ (apply_id _) s.books

theorem postProgress_books (s : Store) (user : ObjectId) (body : ProgressBody) (env : Env) :
    (postProgress s user body env).2.books = s.books := by
  unfold postProgress
  split
  · rfl
  · split
    · simp only
      split
      · rfl
      · next h => rw [(saveProgress_spec h).1]
    · split
      · rfl
      · next h => exact saveNewProgress_books h

theorem deleteProgress_books (s : Store) (user : ObjectId) (id : Option ObjectId) :
    (deleteProgress s user id).2.books = s.books := by
  unfold deleteProgress
  split
  · rfl
  · split <;> rfl

theorem getProgress_store (s : Store) (user : ObjectId) : (getProgress s user).2 = s := by
  unfold getProgress
  simp only
  split_ifs <;> rfl

theorem hasBookId_iff (s : Store) (id : ObjectId) :
    s.hasBookId id = true ↔ id ∈ s.books.map (fun b => b._id) := by
  simp [Store.hasBookId, List.any_eq_true, List.mem_map]

theorem deleteFirst_eq_self_or_erase {α : Type} [DecidableEq α] (p : α → Bool) :
    ∀ l : List α, deleteFirst p l = l ∨ ∃ a ∈ l, p a = true ∧ deleteFirst p l = l.erase a
  | [] => Or.inl rfl
  | a :: as => by
    unfold deleteFirst
    by_cases ha : p a = true
    · exact Or.inr ⟨a, List.mem_cons_self a as, ha, by simp [ha]⟩
    · rw [if_neg ha]
      rcases deleteFirst_eq_self_or_erase p as with h | ⟨b, hb, hpb, h⟩
      · exact Or.inl (by rw [h])
      · refine Or.inr ⟨b, List.mem_cons_of_mem a hb, hpb, ?_⟩
        have hab : a ≠ b := fun hab => ha (hab ▸ hpb)
        rw [h, List.erase_cons_tail (by simpa using hab)]

/-- C8. Reclamation is the only path by which a Book is destroyed: after any request other
than DELETE /api/books/:id (manual add, add-from-google, edit, progress upsert, delete
progress, list, stats) every Book id of the catalog is still in the catalog; and
DELETE /api/books/:id either leaves the Book collection unchanged or erases exactly one
Book, whose id is the one named, and then no row references that id in the resulting
store. -/
theorem books_destroyed_only_by_reclamation (s : Store) (user : ObjectId) (env : Env) :
    (∀ req : Request, (∀ id, req ≠ .deleteBook id) →
      ∀ b ∈ s.books, (handle s user env req).2.hasBookId b._id = true) ∧
    (∀ id : Option ObjectId,
      (deleteBook s user id).2.books = s.books ∨
      ∃ bookId b, id = some bookId ∧ b ∈ s.books ∧ b._id = bookId ∧
        (deleteBook s user id).2.books = s.books.erase b ∧
        (deleteBook s user id).2.referencing bookId = []) := by
  constructor
  · intro req hreq b hb
    rw [hasBookId_iff]
    have hmem : b._id ∈ s.books.map (fun b => b._id) := List.mem_map.mpr ⟨b, hb, rfl⟩
    cases req with
    | addFromGoogle g =>
      rcases addFromGoogle_books s user g env with h | ⟨nb, h⟩
      · simp only [handle, h]; exact hmem
      · simp only [handle, h, List.map_append]; exact List.mem_append_left _ hmem
    | postBooks body =>
      rcases postBooks_books s user body env with h | ⟨nb, h⟩
      · simp only [handle, h]; exact hmem
      · simp only [handle, h, List.map_append]; exact List.mem_append_left _ hmem
    | putBook id u => simp only [handle, putBook_bookIds]; exact hmem
    | deleteBook id => exact absurd rfl (hreq id)
    | deleteProgress id => simp only [handle, deleteProgress_books]; exact hmem
    | postProgress body => simp only [handle, postProgress_books]; exact hmem
    | getBooks => exact hmem
    | getProgress => simp only [handle, getProgress_store]; exact hmem
    | getStats => exact hmem
  · intro id
    unfold deleteBook
    split
    · exact Or.inl rfl
    · next bookId =>
      split
      · exact Or.inl rfl
      · next userProgress hfind =>
        simp only
        split_ifs with h0
        · rcases deleteFirst_eq_self_or_erase (fun b : Book => b._id == bookId) s.books with
            h | ⟨b, hb, hpb, h⟩
          · exact Or.inl h
          · refine Or.inr ⟨bookId, b, rfl, hb, by simpa using hpb, h, ?_⟩
            exact List.length_eq_zero.mp h0
        · exact Or.inl rfl

theorem books_destroyed_only_by_reclamation_witness :
    ∀ b ∈ [sampleBook 0 none none 412],
      (handle ⟨[sampleBook 0 none none 412], [sampleRow 0 7 0]⟩ 7 ⟨1, 1, 5⟩
        (.deleteProgress (some 0))).2.hasBookId b._id = true :=
  (books_destroyed_only_by_reclamation ⟨[sampleBook 0 none none 412], [sampleRow 0 7 0]⟩ 7
    ⟨1, 1, 5⟩).1 (.deleteProgress (some 0)) (fun _ h => Request.noConfusion h)

/-! ## Two users sharing one catalog entry (C9) -/

theorem deleteFirst_append_of_forall_false {α : Type} (p : α → Bool) (l2 : List α) :
    ∀ l1 : List α, (∀ a ∈ l1, p a = false) → deleteFirst p (l1 ++ l2) = l1 ++ deleteFirst p l2
  | [], _ => rfl
  | a :: as, h => by
    have ha : p a = false := h a (List.mem_cons_self a as)
    have ih := deleteFirst_append_of_forall_false p l2 as
      (fun b hb => h b (List.mem_cons_of_mem a hb))
    show deleteFirst p (a :: (as ++ l2)) = a :: (as ++ deleteFirst p l2)
    rw [deleteFirst, if_neg (by simp [ha]), ih]

theorem find_googleId_eq_none {l : List Book} {y : String}
    (h : ∀ b ∈ l, b.googleId ≠ some y) : l.find? (fun b => b.googleId == some y) = none := by
  rw [List.find?_eq_none]
  intro b hb hy
  exact h b hb (by simpa using hy)

theorem filter_googleId_eq_nil {l : List Book} {y : String}
    (h : ∀ b ∈ l, b.googleId ≠ some y) : l.filter (fun b => b.googleId == some y) = [] := by
  rw [List.filter_eq_nil_iff]
  intro b hb hy
  exact h b hb (by simpa using hy)

theorem findExistingBook_append_new {books : List Book} {rows : List ReadingProgress}
    {c : GoogleBookData} {nb : Book} {g : String} (hg : g ≠ "")
    (hc : c.googleId = some g) (hnb : nb.googleId = some g)
    (hnog : ∀ b ∈ books, b.googleId ≠ some g)
    (hi : ∀ x, c.isbn = some x → x ≠ "" → ∀ b ∈ books, b.isbn ≠ some x) :
    findExistingBook ⟨books ++ [nb], rows⟩ c = some nb := by
  have hgid : (books ++ [nb]).find? (fun b => b.googleId == some g) = some nb := by
    rw [List.find?_append, find_googleId_eq_none hnog]
    simp [List.find?, hnb]
  unfold findExistingBook
  simp only [Store.findBookByIsbn, Store.findBookByGoogleId, hc, Option.getD_some]
  by_cases ht : truthy c.isbn = true
  · cases hx : c.isbn with
    | none => simp [hx, truthy] at ht
    | some x =>
      rw [hx, truthy_some] at ht
      have hleft : books.find? (fun b => b.isbn == some x) = none :=
        find_isbn_eq_none (fun ⟨b, hb, hbx⟩ => hi x hx ht b hb hbx)
      by_cases hnx : nb.isbn = some x
      · simp [truthy, ht, List.find?_append, hleft, List.find?, hnx]
      · have hbeq : (nb.isbn == some x) = false := by simpa using hnx
        simp [truthy, ht, hg, List.find?_append, hleft, List.find?, hbeq, hgid]
  · simp only [ht]
    simp [truthy, hg, hgid]

theorem hasProgressId_eq_false_iff (s : Store) (id : ObjectId) :
    s.hasProgressId id = false ↔ ∀ p ∈ s.progress, (p._id == id) = false := by
  simp [Store.hasProgressId, List.any_eq_false]

theorem hasBookId_eq_false_iff (s : Store) (id : ObjectId) :
    s.hasBookId id = false ↔ ∀ b ∈ s.books, (b._id == id) = false := by
  simp [Store.hasBookId, List.any_eq_false]

/-- C9 (amended). Two-user shared-entry scenario: from a store with no Book having the
non-empty googleId `g`, users `u1 ≠ u2` each call add-from-google with a candidate whose
googleId is `g` and whose isbn is empty or carried by no Book of the store (ids freshly
generated and referenced nowhere).  The first call creates one Book `nb` with googleId `g`
and a row of `u1` on it, the second resolves to `nb` and adds a row of `u2`; exactly one
Book has googleId `g`.  When `u1` deletes the book, the Book collection is unchanged and
the row of `u2` is kept as it was; when `u2` then deletes it, the store is the initial one
again and holds no Book with that id or googleId. -/
theorem shared_entry_scenario (s : Store) (u1 u2 : ObjectId) (c1 c2 : GoogleBookData)
    (g : String) (e1 e2 : Env)
    (hg : g ≠ "") (hc1 : c1.googleId = some g) (hc2 : c2.googleId = some g)
    (hnog : ∀ b ∈ s.books, b.googleId ≠ some g)
    (hi1 : ∀ x, c1.isbn = some x → x ≠ "" → ∀ b ∈ s.books, b.isbn ≠ some x)
    (hi2 : ∀ x, c2.isbn = some x → x ≠ "" → ∀ b ∈ s.books, b.isbn ≠ some x)
    (hu : u1 ≠ u2)
    (hb1 : s.hasBookId e1.bookId = false)
    (href : ∀ p ∈ s.progress, p.bookId ≠ e1.bookId)
    (hp1 : s.hasProgressId e1.progressId = false)
    (hp2 : s.hasProgressId e2.progressId = false)
    (hp12 : e2.progressId ≠ e1.progressId) :
    ∃ nb : Book, nb._id = e1.bookId ∧ nb.googleId = some g ∧
      addFromGoogle s u1 (some c1) e1 =
        (⟨201, .book nb⟩, ⟨s.books ++ [nb], s.progress ++ [attachedRow e1 u1 nb._id]⟩) ∧
      addFromGoogle ⟨s.books ++ [nb], s.progress ++ [attachedRow e1 u1 nb._id]⟩ u2
          (some c2) e2 =
        (⟨201, .book nb⟩,
          ⟨s.books ++ [nb],
            s.progress ++ [attachedRow e1 u1 nb._id] ++ [attachedRow e2 u2 nb._id]⟩) ∧
      Store.countGoogleId ⟨s.books ++ [nb],
          s.progress ++ [attachedRow e1 u1 nb._id] ++ [attachedRow e2 u2 nb._id]⟩ g = 1 ∧
      deleteBook ⟨s.books ++ [nb],
          s.progress ++ [attachedRow e1 u1 nb._id] ++ [attachedRow e2 u2 nb._id]⟩ u1
          (some nb._id) =
        (⟨200, .deletedBook nb._id⟩,
          ⟨s.books ++ [nb], s.progress ++ [attachedRow e2 u2 nb._id]⟩) ∧
      deleteBook ⟨s.books ++ [nb], s.progress ++ [attachedRow e2 u2 nb._id]⟩ u2
          (some nb._id) =
        (⟨200, .deletedBook nb._id⟩, ⟨s.books, s.progress⟩) ∧
      s.hasBookId nb._id = false ∧ s.countGoogleId g = 0 := by
  have hI : ¬ ∃ x, c1.isbn = some x ∧ x ≠ "" ∧ ∃ b0 ∈ s.books, b0.isbn = some x := by
    rintro ⟨x, hx, hne, b0, hb0, hbx⟩
    exact hi1 x hx hne b0 hb0 hbx
  have hG : ¬ ∃ y, c1.googleId = some y ∧ y ≠ "" ∧ ∃ b0 ∈ s.books, b0.googleId = some y := by
    rintro ⟨y, hy, _, b0, hb0, hby⟩
    rw [hc1] at hy
    injection hy with hy
    subst hy
    exact hnog b0 hb0 hby
  obtain ⟨nb, hr, hnbid, _, hnbg⟩ := resolveBook_create e1 (findExistingBook_none hI hG) hb1
  rw [hc1, strOr_some_of_ne "" hg] at hnbg
  have hbookF : ∀ b ∈ s.books, (b._id == e1.bookId) = false :=
    (hasBookId_eq_false_iff s e1.bookId).mp hb1
  have hid1 : ∀ p ∈ s.progress, (p._id == e1.progressId) = false :=
    (hasProgressId_eq_false_iff s e1.progressId).mp hp1
  have hid2 : ∀ p ∈ s.progress, (p._id == e2.progressId) = false :=
    (hasProgressId_eq_false_iff s e2.progressId).mp hp2
  have hfind0 : ∀ u, s.progress.find? (fun p => p.userId == u && p.bookId == e1.bookId)
      = none := by
    intro u
    rw [List.find?_eq_none]
    intro p hp hpk
    simp only [Bool.and_eq_true, beq_iff_eq] at hpk
    exact href p hp hpk.2
  have hfilter0 : s.progress.filter (fun p => p.bookId == e1.bookId) = [] := by
    rw [List.filter_eq_nil_iff]
    intro p hp hpk
    exact href p hp (by simpa using hpk)
  have hu21 : (u1 == u2) = false := by simpa using hu
  have hp21 : (e1.progressId == e2.progressId) = false := by
    simpa using (fun h : e1.progressId = e2.progressId => hp12 h.symm)
  refine ⟨nb, hnbid, hnbg, ?_, ?_, ?_, ?_, ?_, by rw [hnbid]; exact hb1, ?_⟩
  · rw [addFromGoogle_of_resolve u1 hr]
    exact attachProgress_first _ u1 nb e1 (by rw [hnbid]; exact hfind0 u1) hp1
  · have hres : findExistingBook ⟨s.books ++ [nb], s.progress ++ [attachedRow e1 u1 nb._id]⟩
        c2 = some nb := findExistingBook_append_new hg hc2 hnbg hnog hi2
    have hr2 : resolveBook ⟨s.books ++ [nb], s.progress ++ [attachedRow e1 u1 nb._id]⟩ c2 e2
        = .ok (nb, ⟨s.books ++ [nb], s.progress ++ [attachedRow e1 u1 nb._id]⟩) := by
      simp [resolveBook, hres]
    rw [addFromGoogle_of_resolve u2 hr2]
    refine attachProgress_first _ u2 nb e2 ?_ ?_
    · simp only [Store.findProgress, List.find?_append, hnbid, hfind0 u2]
      simp [attachedRow, List.find?, hu21]
    · simp only [Store.hasProgressId, List.any_append, List.any_cons, List.any_nil,
        Bool.or_false, Bool.or_eq_false_iff]
      exact ⟨hp2, by simpa [attachedRow] using hp21⟩
  · simp only [Store.countGoogleId, List.filter_append, filter_googleId_eq_nil hnog]
    simp [List.filter, hnbg]
  · have hfind : Store.findProgress ⟨s.books ++ [nb],
          s.progress ++ [attachedRow e1 u1 nb._id] ++ [attachedRow e2 u2 nb._id]⟩ u1 nb._id
        = some (attachedRow e1 u1 nb._id) := by
      simp only [Store.findProgress, List.find?_append, hnbid, hfind0 u1]
      simp [attachedRow, List.find?]
    have hdel : deleteFirst (fun p => p._id == (attachedRow e1 u1 nb._id)._id)
          (s.progress ++ [attachedRow e1 u1 nb._id] ++ [attachedRow e2 u2 nb._id])
        = s.progress ++ [attachedRow e2 u2 nb._id] := by
      rw [List.append_assoc, deleteFirst_append_of_forall_false
        (fun p : ReadingProgress => p._id == (attachedRow e1 u1 nb._id)._id) _ _ hid1]
      simp [deleteFirst, attachedRow]
    have hfil : (s.progress ++ [attachedRow e2 u2 nb._id]).filter
          (fun p => p.bookId == nb._id) = [attachedRow e2 u2 nb._id] := by
      rw [List.filter_append, hnbid, hfilter0]
      simp [List.filter, attachedRow]
    simp only [deleteBook, hfind, hdel, hfil]
    simp
  · have hfind : Store.findProgress ⟨s.books ++ [nb],
          s.progress ++ [attachedRow e2 u2 nb._id]⟩ u2 nb._id
        = some (attachedRow e2 u2 nb._id) := by
      simp only [Store.findProgress, List.find?_append, hnbid, hfind0 u2]
      simp [attachedRow, List.find?]
    have hdel : deleteFirst (fun p => p._id == (attachedRow e2 u2 nb._id)._id)
          (s.progress ++ [attachedRow e2 u2 nb._id]) = s.progress := by
      rw [deleteFirst_append_of_forall_false
        (fun p : ReadingProgress => p._id == (attachedRow e2 u2 nb._id)._id) _ _ hid2]
      simp [deleteFirst, attachedRow]
    have hbk : deleteFirst (fun b => b._id == nb._id) (s.books ++ [nb]) = s.books := by
      rw [deleteFirst_append_of_forall_false _ _ _ (by rw [hnbid]; exact hbookF)]
      simp [deleteFirst]
    simp only [deleteBook, hfind, hdel]
    rw [hnbid, hfilter0, ← hnbid]
    simp only [List.length_nil, if_true, hbk]
  · simp only [Store.countGoogleId, filter_googleId_eq_nil hnog, List.length_nil]

theorem shared_entry_scenario_witness :
    ∃ nb : Book, nb._id = 1 ∧ nb.googleId = some "G" ∧
      addFromGoogle emptyStore 7
          (some { isbn := some "X", googleId := some "G" }) ⟨1, 1, 5⟩ =
        (⟨201, .book nb⟩, ⟨emptyStore.books ++ [nb], emptyStore.progress ++ [attachedRow ⟨1, 1, 5⟩ 7 nb._id]⟩) ∧
      addFromGoogle ⟨emptyStore.books ++ [nb], emptyStore.progress ++ [attachedRow ⟨1, 1, 5⟩ 7 nb._id]⟩ 8
          (some { googleId := some "G" }) ⟨2, 2, 6⟩ =
        (⟨201, .book nb⟩,
          ⟨emptyStore.books ++ [nb],
            emptyStore.progress ++ [attachedRow ⟨1, 1, 5⟩ 7 nb._id] ++ [attachedRow ⟨2, 2, 6⟩ 8 nb._id]⟩) ∧
      Store.countGoogleId ⟨emptyStore.books ++ [nb],
          emptyStore.progress ++ [attachedRow ⟨1, 1, 5⟩ 7 nb._id] ++ [attachedRow ⟨2, 2, 6⟩ 8 nb._id]⟩ "G" = 1 ∧
      deleteBook ⟨emptyStore.books ++ [nb],
          emptyStore.progress ++ [attachedRow ⟨1, 1, 5⟩ 7 nb._id] ++ [attachedRow ⟨2, 2, 6⟩ 8 nb._id]⟩ 7
          (some nb._id) =
        (⟨200, .deletedBook nb._id⟩,
          ⟨emptyStore.books ++ [nb], emptyStore.progress ++ [attachedRow ⟨2, 2, 6⟩ 8 nb._id]⟩) ∧
      deleteBook ⟨emptyStore.books ++ [nb], emptyStore.progress ++ [attachedRow ⟨2, 2, 6⟩ 8 nb._id]⟩ 8
          (some nb._id) =
        (⟨200, .deletedBook nb._id⟩, ⟨emptyStore.books, emptyStore.progress⟩) ∧
      emptyStore.hasBookId nb._id = false ∧ emptyStore.countGoogleId "G" = 0 :=
  shared_entry_scenario emptyStore 7 8 { isbn := some "X", googleId := some "G" }
    { googleId := some "G" } "G" ⟨1, 1, 5⟩ ⟨2, 2, 6⟩ (by decide) rfl rfl
    (by simp [emptyStore]) (by simp [emptyStore]) (by simp [emptyStore]) (by decide)
    (by decide) (by simp [emptyStore]) (by decide) (by decide) (by decide)

/-- C9 as stated fails: the store holds no Book with googleId `G` but a Book with isbn `978`;
two users add a candidate with googleId `G` and isbn `978`; both calls answer 201 on the
existing Book (id 0) and no Book with googleId `G` exists afterward. -/
theorem shared_entry_resolved_by_isbn :
    Store.countGoogleId ⟨[sampleBook 0 (some "978") (some "H") 412], []⟩ "G" = 0 ∧
    (addFromGoogle ⟨[sampleBook 0 (some "978") (some "H") 412], []⟩ 7
      (some { isbn := some "978", googleId := some "G" }) ⟨1, 1, 5⟩).1
      = ⟨201, .book (sampleBook 0 (some "978") (some "H") 412)⟩ ∧
    (addFromGoogle
      (addFromGoogle ⟨[sampleBook 0 (some "978") (some "H") 412], []⟩ 7
        (some { isbn := some "978", googleId := some "G" }) ⟨1, 1, 5⟩).2 8
      (some { isbn := some "978", googleId := some "G" }) ⟨2, 2, 6⟩).1
      = ⟨201, .book (sampleBook 0 (some "978") (some "H") 412)⟩ ∧
    (addFromGoogle
      (addFromGoogle ⟨[sampleBook 0 (some "978") (some "H") 412], []⟩ 7
        (some { isbn := some "978", googleId := some "G" }) ⟨1, 1, 5⟩).2 8
      (some { isbn := some "978", googleId := some "G" }) ⟨2, 2, 6⟩).2.countGoogleId "G"
      = 0 := by
  decide

/-! ## Progress upsert and the page range (C10) -/

/-- C10. POST /api/progress does not check the page against the Book: for the Book of 412
pages, `currentPage = 450` on an existing row and `currentPage = -3` for a new row are both
answered 200 and stored as given. -/
theorem postProgress_accepts_out_of_range :
    (postProgress ⟨[sampleBook 0 none none 412], [sampleRow 0 7 0]⟩ 7
      { bookId := some 0, currentPage := 450 } ⟨1, 1, 5⟩).1.status = 200 ∧
    (postProgress ⟨[sampleBook 0 none none 412], [sampleRow 0 7 0]⟩ 7
      { bookId := some 0, currentPage := 450 } ⟨1, 1, 5⟩).2.progress.map
        (fun p => (p.userId, p.bookId, p.currentPage)) = [(7, 0, 450)] ∧
    (postProgress ⟨[sampleBook 0 none none 412], []⟩ 7
      { bookId := some 0, currentPage := -3 } ⟨1, 1, 5⟩).1.status = 200 ∧
    (postProgress ⟨[sampleBook 0 none none 412], []⟩ 7
      { bookId := some 0, currentPage := -3 } ⟨1, 1, 5⟩).2.progress.map
        (fun p => (p.userId, p.bookId, p.currentPage)) = [(7, 0, -3)] := by
  decide

/-! ## Identity Key Extractor (C19, C20) -/

theorem strOr_empty (x : Option String) : strOr x "" = x.getD "" := by
  cases x with
  | none => rfl
  | some v =>
    by_cases h : v = ""
    · simp [strOr, h]
    · simp [strOr, h]

/-- C19. Identity Key Extractor policy: `extractISBN` returns the identifier of the first
record of type ISBN_13 if there is one, wherever the ISBN_10 records stand; otherwise the
identifier of the first record of type ISBN_10 if there is one; otherwise the identifier of
the first record of the list (the empty string if that record has none); and the empty
string when the list is empty or absent. -/
theorem extractISBN_policy (l : List Identifier) :
    (∀ r, l.find? (fun id => id.type == some "ISBN_13") = some r →
      extractISBN (some l) = r.identifier) ∧
    (l.find? (fun id => id.type == some "ISBN_13") = none →
      ∀ r, l.find? (fun id => id.type == some "ISBN_10") = some r →
        extractISBN (some l) = r.identifier) ∧
    (l.find? (fun id => id.type == some "ISBN_13") = none →
      l.find? (fun id => id.type == some "ISBN_10") = none →
      ∀ first rest, l = first :: rest →
        extractISBN (some l) = some (first.identifier.getD "")) ∧
    extractISBN (some []) = some "" ∧ extractISBN none = some "" := by
  refine ⟨?_, ?_, ?_, rfl, rfl⟩
  · intro r hr
    cases l with
    | nil => simp at hr
    | cons first rest => simp only [extractISBN, hr]
  · intro h13 r hr
    cases l with
    | nil => simp at hr
    | cons first rest => simp only [extractISBN, h13, hr]
  · intro h13 h10 first rest hl
    subst hl
    simp only [extractISBN, h13, h10, strOr_empty]

theorem extractISBN_policy_witness :
    extractISBN (some [⟨some "ISBN_10", some "0441172717"⟩,
        ⟨some "ISBN_13", some "9780441172719"⟩, ⟨some "ISBN_13", some "9780340960196"⟩])
      = some "9780441172719" ∧
    extractISBN (some [⟨some "OTHER", some "OCLC:1"⟩, ⟨some "ISBN_10", some "0441172717"⟩])
      = some "0441172717" ∧
    extractISBN (some [⟨some "OTHER", some "OCLC:1"⟩, ⟨some "ISSN", some "1234"⟩])
      = some "OCLC:1" :=
  ⟨(extractISBN_policy [⟨some "ISBN_10", some "0441172717"⟩,
        ⟨some "ISBN_13", some "9780441172719"⟩, ⟨some "ISBN_13", some "9780340960196"⟩]).1
      ⟨some "ISBN_13", some "9780441172719"⟩ (by decide),
   (extractISBN_policy [⟨some "OTHER", some "OCLC:1"⟩,
        ⟨some "ISBN_10", some "0441172717"⟩]).2.1 (by decide)
      ⟨some "ISBN_10", some "0441172717"⟩ (by decide),
   (extractISBN_policy [⟨some "OTHER", some "OCLC:1"⟩, ⟨some "ISSN", some "1234"⟩]).2.2.1
      (by decide) (by decide) ⟨some "OTHER", some "OCLC:1"⟩ [⟨some "ISSN", some "1234"⟩] rfl⟩

/-- C20. `extractISBN` can return `undefined`: for a list whose ISBN_13 record (or, with no
ISBN_13 record, whose ISBN_10 record) lacks the `identifier` field the result is
`undefined`, not the empty string; only the last fallback applies `|| ''`. -/
theorem extractISBN_returns_undefined :
    extractISBN (some [⟨some "ISBN_13", none⟩]) = none ∧
    extractISBN (some [⟨some "ISBN_10", none⟩, ⟨some "OTHER", some "OCLC:1"⟩]) = none ∧
    extractISBN (some [⟨some "OTHER", none⟩]) = some "" := by
  decide

/-! ## detachProgress (C17) -/

theorem deleteFirst_of_find {α : Type} [DecidableEq α] (p : α → Bool) {a : α} :
    ∀ {l : List α}, l.find? p = some a → deleteFirst p l = l.erase a
  | [], h => by simp at h
  | x :: xs, h => by
    unfold deleteFirst
    by_cases hx : p x = true
    · rw [List.find?_cons_of_pos _ hx] at h
      injection h with h
      subst h
      simp [hx]
    · rw [List.find?_cons_of_neg _ hx] at h
      have hpa : p a = true := List.find?_some h
      have hxa : x ≠ a := fun hxa => hx (hxa ▸ hpa)
      rw [if_neg hx, deleteFirst_of_find p h, List.erase_cons_tail (by simpa using hxa)]

/-- C17. DELETE /api/progress/:id: if a row with the given id and the caller as `userId`
exists, the request answers 200, exactly one such row is erased (it is gone afterwards when
the `_id` index holds) and every other row and every Book is unchanged; otherwise (no row
with that id, or a row owned by another user) it answers 404 and the store is unchanged. -/
theorem deleteProgress_detaches_own_row (s : Store) (user pid : ObjectId) :
    ((∃ r0 ∈ s.progress, r0._id = pid ∧ r0.userId = user) →
      (deleteProgress s user (some pid)).1 = ⟨200, .deletedProgress pid⟩ ∧
      (deleteProgress s user (some pid)).2.books = s.books ∧
      ∃ r ∈ s.progress, r._id = pid ∧ r.userId = user ∧
        (deleteProgress s user (some pid)).2.progress = s.progress.erase r ∧
        (UniqueIds s → r ∉ (deleteProgress s user (some pid)).2.progress)) ∧
    ((¬ ∃ r0 ∈ s.progress, r0._id = pid ∧ r0.userId = user) →
      (deleteProgress s user (some pid)).1.status = 404 ∧
      (deleteProgress s user (some pid)).2 = s) := by
  constructor
  · rintro ⟨r0, hr0, hid0, hu0⟩
    have hsome : (s.progress.find? (fun p => p._id == pid && p.userId == user)).isSome := by
      rw [List.find?_isSome]
      exact ⟨r0, hr0, by simp [hid0, hu0]⟩
    obtain ⟨r, hr⟩ := Option.isSome_iff_exists.mp hsome
    have hmem : r ∈ s.progress := List.mem_of_find?_eq_some hr
    have hp : r._id = pid ∧ r.userId = user := by simpa using List.find?_some hr
    have hdel := deleteFirst_of_find (fun p : ReadingProgress => p._id == pid && p.userId == user)
      hr
    refine ⟨by simp [deleteProgress, hr], by simp [deleteProgress, hr], r, hmem, hp.1, hp.2,
      by simp only [deleteProgress, hr, hdel], ?_⟩
    intro hid
    simp only [deleteProgress, hr, hdel]
    exact (nodup_of_nodup_map _ hid.2).not_mem_erase
  · intro hno
    have hnone : s.progress.find? (fun p => p._id == pid && p.userId == user) = none := by
      rw [List.find?_eq_none]
      intro r hr hp
      exact hno ⟨r, hr, by simpa using hp⟩
    simp [deleteProgress, hnone]

theorem deleteProgress_detaches_own_row_witness :
    ((deleteProgress ⟨[sampleBook 0 none none 412], [sampleRow 0 7 0, sampleRow 1 8 0]⟩ 8
        (some 1)).1 = ⟨200, .deletedProgress 1⟩ ∧
      (deleteProgress ⟨[sampleBook 0 none none 412], [sampleRow 0 7 0, sampleRow 1 8 0]⟩ 8
        (some 1)).2.books = [sampleBook 0 none none 412] ∧
      ∃ r ∈ [sampleRow 0 7 0, sampleRow 1 8 0], r._id = 1 ∧ r.userId = 8 ∧
        (deleteProgress ⟨[sampleBook 0 none none 412], [sampleRow 0 7 0, sampleRow 1 8 0]⟩ 8
          (some 1)).2.progress = [sampleRow 0 7 0, sampleRow 1 8 0].erase r ∧
        (UniqueIds ⟨[sampleBook 0 none none 412], [sampleRow 0 7 0, sampleRow 1 8 0]⟩ →
          r ∉ (deleteProgress
            ⟨[sampleBook 0 none none 412], [sampleRow 0 7 0, sampleRow 1 8 0]⟩ 8
            (some 1)).2.progress)) ∧
    ((deleteProgress ⟨[sampleBook 0 none none 412], [sampleRow 0 7 0, sampleRow 1 8 0]⟩ 8
        (some 0)).1.status = 404 ∧
      (deleteProgress ⟨[sampleBook 0 none none 412], [sampleRow 0 7 0, sampleRow 1 8 0]⟩ 8
        (some 0)).2 = ⟨[sampleBook 0 none none 412], [sampleRow 0 7 0, sampleRow 1 8 0]⟩) :=
  ⟨(deleteProgress_detaches_own_row
      ⟨[sampleBook 0 none none 412], [sampleRow 0 7 0, sampleRow 1 8 0]⟩ 8 1).1
      ⟨sampleRow 1 8 0, by decide, rfl, rfl⟩,
   (deleteProgress_detaches_own_row
      ⟨[sampleBook 0 none none 412], [sampleRow 0 7 0, sampleRow 1 8 0]⟩ 8 0).2
      (by decide)⟩

/-! ## Invariant I3 (C11) -/

/-- C11. Invariant I3 does not hold in every reachable state: after a manual add of a book
of 412 pages, POST /api/progress with `currentPage = 450` is accepted and the reachable
store holds a row with `currentPage = 450` on that Book; likewise a valid progress of 400
pages followed by PUT /api/books/:id with `totalPages = 300` leaves the row above the total. -/
theorem reachable_store_violates_I3 :
    freshRun emptyStore
      [⟨7, ⟨1, 1, 5⟩, .postBooks (sampleBody 412)⟩,
       ⟨7, ⟨2, 2, 6⟩, .postProgress { bookId := some 1, currentPage := 450 }⟩] ∧
    Reachable (run emptyStore
      [⟨7, ⟨1, 1, 5⟩, .postBooks (sampleBody 412)⟩,
       ⟨7, ⟨2, 2, 6⟩, .postProgress { bookId := some 1, currentPage := 450 }⟩]) ∧
    ¬ I3 (run emptyStore
      [⟨7, ⟨1, 1, 5⟩, .postBooks (sampleBody 412)⟩,
       ⟨7, ⟨2, 2, 6⟩, .postProgress { bookId := some 1, currentPage := 450 }⟩]) ∧
    (run emptyStore
      [⟨7, ⟨1, 1, 5⟩, .postBooks (sampleBody 412)⟩,
       ⟨7, ⟨2, 2, 6⟩, .postProgress { bookId := some 1, currentPage := 450 }⟩]).progress.map
        (fun p => (p.bookId, p.currentPage)) = [(1, 450)] ∧
    ¬ I3 (run emptyStore
      [⟨7, ⟨1, 1, 5⟩, .postBooks (sampleBody 412)⟩,
       ⟨7, ⟨2, 2, 6⟩, .postProgress { bookId := some 1, currentPage := 400 }⟩,
       ⟨7, ⟨3, 3, 7⟩, .putBook (some 1) { totalPages := some 300 }⟩]) :=
  ⟨by decide, ⟨_, rfl⟩, by decide, by decide, by decide⟩

/-! ## upsertProgress field semantics (C13) -/

/-- C13. On an existing row, a provided rating of 0 and a provided empty notes string are
not written: the row with rating 4 and notes `good` keeps both after POST /api/progress
with `rating = 0` and `notes = ""` (answered 200), while a new row created with the same
body stores rating 0 and the empty notes. -/
theorem postProgress_drops_zero_rating_and_empty_notes :
    (postProgress ⟨[sampleBook 0 none none 412], [sampleRatedRow 0 7 0]⟩ 7
      { bookId := some 0, currentPage := 10, notes := some "", rating := some 0 }
      ⟨1, 1, 5⟩).1.status = 200 ∧
    (postProgress ⟨[sampleBook 0 none none 412], [sampleRatedRow 0 7 0]⟩ 7
      { bookId := some 0, currentPage := 10, notes := some "", rating := some 0 }
      ⟨1, 1, 5⟩).2.progress.map (fun p => (p.currentPage, p.notes, p.rating))
      = [(10, some "good", some 4)] ∧
    (postProgress ⟨[sampleBook 0 none none 412], []⟩ 7
      { bookId := some 0, currentPage := 10, notes := some "", rating := some 0 }
      ⟨1, 1, 5⟩).2.progress.map (fun p => (p.currentPage, p.notes, p.rating))
      = [(10, some "", some 0)] := by
  decide

/-! ## upsertProgress on an existing row: completedAt and idempotence (C12, C14) -/

theorem find_updateFirstProgress (P : ReadingProgress → Bool) {progress p : ReadingProgress}
    (hp : P p = true) (hpid : p._id = progress._id) :
    ∀ {l : List ReadingProgress}, (l.map (fun q => q._id)).Nodup →
      l.find? P = some progress → (updateFirstProgress p l).find? P = some p
  | [], _, h => by simp at h
  | x :: xs, hid, h => by
    rw [List.map_cons, List.nodup_cons] at hid
    by_cases hx : P x = true
    · rw [List.find?_cons_of_pos _ hx] at h
      injection h with h
      subst h
      simp [updateFirstProgress, hpid, hp]
    · rw [List.find?_cons_of_neg _ hx] at h
      have hmem : progress ∈ xs := List.mem_of_find?_eq_some h
      have hne : x._id ≠ p._id := by
        intro hxp
        exact hid.1 (List.mem_map.mpr ⟨progress, hmem, by rw [hxp, hpid]⟩)
      unfold updateFirstProgress
      rw [if_neg hne, List.find?_cons_of_neg _ hx]
      exact find_updateFirstProgress P hp hpid hid.2 h

theorem length_updateFirstProgress (p : ReadingProgress) (l : List ReadingProgress) :
    (updateFirstProgress p l).length = l.length := by
  induction l with
  | nil => rfl
  | cons x xs ih =>
    unfold updateFirstProgress
    split_ifs
    · rfl
    · simp [ih]

theorem saveProgress_ok {s : Store} {p : ReadingProgress}
    (h1 : p.status ∈ statusEnum) (h2 : ratingOk p.rating = true) :
    s.saveProgress p = .ok { s with progress := updateFirstProgress p s.progress } := by
  unfold Store.saveProgress
  rw [if_neg]
  simp [h1, h2]

theorem progressResponse_status_200 {s : Store} {p : ReadingProgress}
    (h : (progressResponse s p).status = 200) : ∃ b, s.findBookById p.bookId = some b := by
  unfold progressResponse at h
  split at h
  · simp at h
  · next b hb => exact ⟨b, hb⟩

theorem progressResponse_of_book {s : Store} {p : ReadingProgress} {b : Book}
    (h : s.findBookById p.bookId = some b) :
    progressResponse s p = ⟨200, .progress p b (roundPercent p.currentPage b.totalPages)⟩ := by
  simp [progressResponse, h]

theorem postProgress_existing {s : Store} {user b : ObjectId} {body : ProgressBody}
    {progress : ReadingProgress} (env : Env)
    (hb : body.bookId = some b) (hfind : s.findProgress user b = some progress)
    (h1 : (mutateProgress progress body env.now).status ∈ statusEnum)
    (h2 : ratingOk (mutateProgress progress body env.now).rating = true) :
    postProgress s user body env =
      (progressResponse
          { s with progress :=
              updateFirstProgress (mutateProgress progress body env.now) s.progress }
          (mutateProgress progress body env.now),
        { s with progress :=
            updateFirstProgress (mutateProgress progress body env.now) s.progress }) := by
  simp only [postProgress, hb, hfind, saveProgress_ok h1 h2]

theorem postProgress_existing_valid {s : Store} {user b : ObjectId} {body : ProgressBody}
    {progress : ReadingProgress} {env : Env}
    (hb : body.bookId = some b) (hfind : s.findProgress user b = some progress)
    (hok : (postProgress s user body env).1.status = 200) :
    (mutateProgress progress body env.now).status ∈ statusEnum ∧
      ratingOk (mutateProgress progress body env.now).rating = true := by
  simp only [postProgress, hb, hfind] at hok
  split at hok
  · simp at hok
  · next s1 hsave => exact (saveProgress_spec hsave).2

theorem findProgress_after_update {s : Store} {user b : ObjectId}
    {progress p : ReadingProgress} (hid : (s.progress.map (fun q => q._id)).Nodup)
    (hfind : s.findProgress user b = some progress)
    (hpid : p._id = progress._id) (hu : p.userId = progress.userId)
    (hbk : p.bookId = progress.bookId) :
    Store.findProgress { s with progress := updateFirstProgress p s.progress } user b
      = some p := by
  obtain ⟨_, hpu, hpb⟩ := findProgress_spec hfind
  exact find_updateFirstProgress (fun q => q.userId == user && q.bookId == b)
    (by simp [hu, hbk, hpu, hpb]) hpid hid hfind

/-- C12 (amended). On an existing row, a successful POST /api/progress sets `completedAt`
to the current time whenever the supplied status is `completed`, also when the row already
carried a completion time, and leaves `completedAt` as it was whenever the supplied status
is absent or different from `completed`. -/
theorem postProgress_completedAt (s : Store) (user b : ObjectId) (body : ProgressBody)
    (env : Env) (progress : ReadingProgress)
    (hid : UniqueIds s) (hb : body.bookId = some b)
    (hfind : s.findProgress user b = some progress)
    (hok : (postProgress s user body env).1.status = 200) :
    ∃ p, (postProgress s user body env).2.findProgress user b = some p ∧
      p._id = progress._id ∧
      (body.status = some "completed" → p.completedAt = some env.now) ∧
      (body.status ≠ some "completed" → p.completedAt = progress.completedAt) := by
  obtain ⟨h1, h2⟩ := postProgress_existing_valid hb hfind hok
  refine ⟨mutateProgress progress body env.now, ?_, rfl, ?_, ?_⟩
  · rw [postProgress_existing env hb hfind h1 h2]
    exact findProgress_after_update hid.2 hfind rfl rfl rfl
  · intro hs
    simp [mutateProgress, hs]
  · intro hs
    simp [mutateProgress, hs]

theorem postProgress_completedAt_witness :
    (∃ p, (postProgress ⟨[sampleBook 0 none none 412], [sampleRow 0 7 0]⟩ 7
        { bookId := some 0, currentPage := 412, status := some "completed" }
        ⟨1, 1, 5⟩).2.findProgress 7 0 = some p ∧ p.completedAt = some 5) ∧
    (∃ p, (postProgress ⟨[sampleBook 0 none none 412], [sampleRow 0 7 0]⟩ 7
        { bookId := some 0, currentPage := 100, status := some "paused" }
        ⟨1, 1, 5⟩).2.findProgress 7 0 = some p ∧
      p.completedAt = (sampleRow 0 7 0).completedAt) := by
  obtain ⟨p, hf, _, h1, _⟩ :=
    postProgress_completedAt ⟨[sampleBook 0 none none 412], [sampleRow 0 7 0]⟩ 7 0
      { bookId := some 0, currentPage := 412, status := some "completed" } ⟨1, 1, 5⟩
      (sampleRow 0 7 0) (by decide) rfl (by decide) (by decide)
  obtain ⟨q, hg, _, _, h2⟩ :=
    postProgress_completedAt ⟨[sampleBook 0 none none 412], [sampleRow 0 7 0]⟩ 7 0
      { bookId := some 0, currentPage := 100, status := some "paused" } ⟨1, 1, 5⟩
      (sampleRow 0 7 0) (by decide) rfl (by decide) (by decide)
  exact ⟨⟨p, hf, h1 rfl⟩, ⟨q, hg, h2 (by decide)⟩⟩

/-- C12 as stated fails: a row completed at time 5 and posted again with status `completed`
at time 9 carries `completedAt = 9`; and a row created with status `completed` carries no
`completedAt` at all. -/
theorem postProgress_overwrites_completedAt :
    (postProgress ⟨[sampleBook 0 none none 412], [sampleRow 0 7 0]⟩ 7
      { bookId := some 0, currentPage := 412, status := some "completed" }
      ⟨1, 1, 5⟩).2.progress.map (fun p => (p.status, p.completedAt))
      = [("completed", some 5)] ∧
    (postProgress
      (postProgress ⟨[sampleBook 0 none none 412], [sampleRow 0 7 0]⟩ 7
        { bookId := some 0, currentPage := 412, status := some "completed" } ⟨1, 1, 5⟩).2 7
      { bookId := some 0, currentPage := 412, status := some "completed" }
      ⟨2, 2, 9⟩).2.progress.map (fun p => (p.status, p.completedAt))
      = [("completed", some 9)] ∧
    (postProgress ⟨[sampleBook 0 none none 412], []⟩ 7
      { bookId := some 0, currentPage := 412, status := some "completed" }
      ⟨1, 1, 5⟩).2.progress.map (fun p => (p.status, p.completedAt))
      = [("completed", none)] := by
  decide

theorem strOr_idem (x : Option String) (d : String) : strOr x (strOr x d) = strOr x d := by
  cases x with
  | none => rfl
  | some v =>
    by_cases h : v = ""
    · simp [strOr, h]
    · simp [strOr, h]

theorem optStrOr_idem (x old : Option String) :
    optStrOr x (optStrOr x old) = optStrOr x old := by
  unfold optStrOr
  split_ifs <;> rfl

theorem optStrOr_self (x : Option String) : optStrOr x x = x := by
  unfold optStrOr
  split_ifs <;> rfl

theorem optNumOr_idem (x old : Option Int) :
    optNumOr x (optNumOr x old) = optNumOr x old := by
  cases x with
  | none => rfl
  | some v =>
    by_cases h : v = 0
    · simp [optNumOr, h]
    · simp [optNumOr, h]

theorem optNumOr_self (x : Option Int) : optNumOr x x = x := by
  cases x with
  | none => rfl
  | some v =>
    by_cases h : v = 0
    · simp [optNumOr, h]
    · simp [optNumOr, h]

theorem mutateProgress_absorbed {p : ReadingProgress} {body : ProgressBody} (t : Date)
    (hc : p.currentPage = body.currentPage) (hs : strOr body.status p.status = p.status)
    (hn : optStrOr body.notes p.notes = p.notes)
    (hr : optNumOr body.rating p.rating = p.rating)
    (hstat : body.status ≠ some "completed") :
    mutateProgress p body t = { p with updatedAt := t } := by
  unfold mutateProgress
  rw [hs, hn, hr, ← hc, if_neg hstat]

theorem saveNewProgress_valid {s s1 : Store} {d : ProgressDoc} {env : Env}
    {p : ReadingProgress} (h : s.saveNewProgress d env = .ok (p, s1)) :
    p.status ∈ statusEnum ∧ ratingOk p.rating = true := by
  unfold Store.saveNewProgress at h
  simp only at h
  split_ifs at h with h1 h2
  injection h with h
  injection h with hp _
  subst hp
  simp only [not_or, not_not, Bool.not_eq_false] at h1
  exact h1

theorem postProgress_progressIds (s : Store) (user : ObjectId) (body : ProgressBody)
    (env : Env) (hid : (s.progress.map (fun p => p._id)).Nodup) :
    ((postProgress s user body env).2.progress.map (fun p => p._id)).Nodup := by
  unfold postProgress
  split
  · exact hid
  · split
    · simp only
      split
      · exact hid
      · next s1 hsave =>
        rw [(saveProgress_spec hsave).1]
        simp only
        rw [map_updateFirstProgress]
        · exact hid
        · intro q _ hq
          exact hq
    · split
      · exact hid
      · next h => exact saveNewProgress_progressIds h hid

/-- The state after a successful upsert: the caller's row, which absorbs a repetition of
the same body, is valid, and whose Book exists. -/
theorem postProgress_first {s : Store} {user b : ObjectId} {body : ProgressBody} {env : Env}
    (hid : (s.progress.map (fun p => p._id)).Nodup) (hb : body.bookId = some b)
    (hok : (postProgress s user body env).1.status = 200) :
    ∃ p1, (postProgress s user body env).2.findProgress user b = some p1 ∧
      p1.currentPage = body.currentPage ∧ strOr body.status p1.status = p1.status ∧
      optStrOr body.notes p1.notes = p1.notes ∧ optNumOr body.rating p1.rating = p1.rating ∧
      p1.status ∈ statusEnum ∧ ratingOk p1.rating = true ∧
      ∃ book, (postProgress s user body env).2.findBookById b = some book := by
  cases hfind : s.findProgress user b with
  | some progress =>
    obtain ⟨h1, h2⟩ := postProgress_existing_valid hb hfind hok
    have heq := postProgress_existing env hb hfind h1 h2
    have hf := findProgress_after_update (p := mutateProgress progress body env.now)
      hid hfind rfl rfl rfl
    rw [heq] at hok ⊢
    obtain ⟨book, hbook⟩ := progressResponse_status_200 hok
    have hpb : (mutateProgress progress body env.now).bookId = b :=
      (findProgress_spec hfind).2.2
    rw [hpb] at hbook
    exact ⟨_, hf, rfl, strOr_idem _ _, optStrOr_idem _ _, optNumOr_idem _ _, h1, h2,
      book, hbook⟩
  | none =>
    simp only [postProgress, hb, hfind] at hok ⊢
    split at hok
    · simp at hok
    · next p1 s1 hsave =>
      simp only
      obtain ⟨hs1, _, hu, hbk, hc, hst, hn, hr, _⟩ := saveNewProgress_spec hsave
      obtain ⟨hv1, hv2⟩ := saveNewProgress_valid hsave
      obtain ⟨book, hbook⟩ := progressResponse_status_200 hok
      rw [hbk] at hbook
      simp only at hu hbk hc hst hn hr
      refine ⟨p1, ?_, hc, ?_, ?_, ?_, hv1, hv2, book, hbook⟩
      · rw [hs1]
        simp only [Store.findProgress, List.find?_append]
        rw [show s.progress.find? (fun p => p.userId == user && p.bookId == b) = none from hfind]
        simp [List.find?, hu, hbk]
      · rw [hst]
        exact strOr_idem _ _
      · rw [hn]
        exact optStrOr_self _
      · rw [hr]
        exact optNumOr_self _

/-- C14 (amended). POST /api/progress is idempotent on repeated identical input whose
status is absent or different from `completed`: in a database whose `_id` indexes hold, if
the first call succeeds, a second call with the same arguments also succeeds, the caller's
row after it equals the row after the first call except for `updatedAt`, and no row or Book
is added. -/
theorem postProgress_idempotent (s : Store) (user b : ObjectId) (body : ProgressBody)
    (e1 e2 : Env) (hid : UniqueIds s) (hb : body.bookId = some b)
    (hstat : body.status ≠ some "completed")
    (hok : (postProgress s user body e1).1.status = 200) :
    ∃ p1, (postProgress s user body e1).2.findProgress user b = some p1 ∧
      (postProgress (postProgress s user body e1).2 user body e2).1.status = 200 ∧
      (postProgress (postProgress s user body e1).2 user body e2).2.findProgress user b
        = some { p1 with updatedAt := e2.now } ∧
      (postProgress (postProgress s user body e1).2 user body e2).2.progress.length
        = (postProgress s user body e1).2.progress.length ∧
      (postProgress (postProgress s user body e1).2 user body e2).2.books
        = (postProgress s user body e1).2.books := by
  obtain ⟨p1, hf1, hc, hs, hn, hr, hv1, hv2, book, hbook⟩ := postProgress_first hid.2 hb hok
  have hid1 := postProgress_progressIds s user body e1 hid.2
  have hmut : mutateProgress p1 body e2.now = { p1 with updatedAt := e2.now } :=
    mutateProgress_absorbed e2.now hc hs hn hr hstat
  have h1 : (mutateProgress p1 body e2.now).status ∈ statusEnum := by rw [hmut]; exact hv1
  have h2 : ratingOk (mutateProgress p1 body e2.now).rating = true := by rw [hmut]; exact hv2
  have heq := postProgress_existing e2 hb hf1 h1 h2
  have hpb : p1.bookId = b := (findProgress_spec hf1).2.2
  refine ⟨p1, hf1, ?_, ?_, ?_, ?_⟩
  · rw [heq]
    have hbk : Store.findBookById
        { (postProgress s user body e1).2 with
          progress := updateFirstProgress (mutateProgress p1 body e2.now)
            (postProgress s user body e1).2.progress }
        (mutateProgress p1 body e2.now).bookId = some book := by
      rw [hmut]
      simp only [Store.findBookById]
      rw [hpb]
      exact hbook
    rw [progressResponse_of_book hbk]
  · rw [heq, ← hmut]
    exact findProgress_after_update hid1 hf1 rfl rfl rfl
  · rw [heq]
    exact length_updateFirstProgress _ _
  · rw [heq]

theorem postProgress_idempotent_witness :
    ∃ p1, (postProgress ⟨[sampleBook 0 none none 412], []⟩ 7
        { bookId := some 0, currentPage := 10, notes := some "n", rating := some 3 }
        ⟨1, 1, 5⟩).2.findProgress 7 0 = some p1 ∧
      (postProgress (postProgress ⟨[sampleBook 0 none none 412], []⟩ 7
        { bookId := some 0, currentPage := 10, notes := some "n", rating := some 3 }
        ⟨1, 1, 5⟩).2 7
        { bookId := some 0, currentPage := 10, notes := some "n", rating := some 3 }
        ⟨2, 2, 9⟩).1.status = 200 ∧
      (postProgress (postProgress ⟨[sampleBook 0 none none 412], []⟩ 7
        { bookId := some 0, currentPage := 10, notes := some "n", rating := some 3 }
        ⟨1, 1, 5⟩).2 7
        { bookId := some 0, currentPage := 10, notes := some "n", rating := some 3 }
        ⟨2, 2, 9⟩).2.findProgress 7 0 = some { p1 with updatedAt := 9 } ∧
      (postProgress (postProgress ⟨[sampleBook 0 none none 412], []⟩ 7
        { bookId := some 0, currentPage := 10, notes := some "n", rating := some 3 }
        ⟨1, 1, 5⟩).2 7
        { bookId := some 0, currentPage := 10, notes := some "n", rating := some 3 }
        ⟨2, 2, 9⟩).2.progress.length
        = (postProgress ⟨[sampleBook 0 none none 412], []⟩ 7
        { bookId := some 0, currentPage := 10, notes := some "n", rating := some 3 }
        ⟨1, 1, 5⟩).2.progress.length ∧
      (postProgress (postProgress ⟨[sampleBook 0 none none 412], []⟩ 7
        { bookId := some 0, currentPage := 10, notes := some "n", rating := some 3 }
        ⟨1, 1, 5⟩).2 7
        { bookId := some 0, currentPage := 10, notes := some "n", rating := some 3 }
        ⟨2, 2, 9⟩).2.books
        = (postProgress ⟨[sampleBook 0 none none 412], []⟩ 7
        { bookId := some 0, currentPage := 10, notes := some "n", rating := some 3 }
        ⟨1, 1, 5⟩).2.books :=
  postProgress_idempotent ⟨[sampleBook 0 none none 412], []⟩ 7 0
    { bookId := some 0, currentPage := 10, notes := some "n", rating := some 3 }
    ⟨1, 1, 5⟩ ⟨2, 2, 9⟩ (by decide) rfl (by decide) (by decide)

/-- C14 as stated fails: with status `completed` both calls succeed, but the row after the
second call (at time 9) differs from the row after the first call (at time 5) in
`completedAt`, not only in `updatedAt`. -/
theorem postProgress_not_idempotent_when_completed :
    (postProgress ⟨[sampleBook 0 none none 412], [sampleRow 0 7 0]⟩ 7
      { bookId := some 0, currentPage := 100, status := some "completed", notes := some "n" }
      ⟨1, 1, 5⟩).1.status = 200 ∧
    (postProgress
      (postProgress ⟨[sampleBook 0 none none 412], [sampleRow 0 7 0]⟩ 7
        { bookId := some 0, currentPage := 100, status := some "completed",
          notes := some "n" } ⟨1, 1, 5⟩).2 7
      { bookId := some 0, currentPage := 100, status := some "completed", notes := some "n" }
      ⟨2, 2, 9⟩).1.status = 200 ∧
    (postProgress
      (postProgress ⟨[sampleBook 0 none none 412], [sampleRow 0 7 0]⟩ 7
        { bookId := some 0, currentPage := 100, status := some "completed",
          notes := some "n" } ⟨1, 1, 5⟩).2 7
      { bookId := some 0, currentPage := 100, status := some "completed", notes := some "n" }
      ⟨2, 2, 9⟩).2.progress.map (fun p => { p with updatedAt := 0 })
    ≠ (postProgress ⟨[sampleBook 0 none none 412], [sampleRow 0 7 0]⟩ 7
      { bookId := some 0, currentPage := 100, status := some "completed", notes := some "n" }
      ⟨1, 1, 5⟩).2.progress.map (fun p => { p with updatedAt := 0 }) := by
  decide

/-! ## Reference-count lifecycle (C18) -/

theorem noOrphan_iff (s : Store) :
    NoOrphan s ↔ ∀ b ∈ s.books, ∃ p ∈ s.progress, p.bookId = b._id := by
  simp [NoOrphan, List.any_eq_true]

theorem attachProgress_noOrphan (s : Store) (user : ObjectId) (b : Book) (env : Env)
    (hfresh : s.hasProgressId env.progressId = false)
    (h : ∀ b' ∈ s.books, (∃ p ∈ s.progress, p.bookId = b'._id) ∨ b'._id = b._id) :
    NoOrphan (attachProgress s user b env).2 := by
  rw [noOrphan_iff]
  cases hfind : s.findProgress user b._id with
  | some r =>
    rw [attachProgress_second s user b env hfind]
    intro b' hb'
    rcases h b' hb' with h1 | h1
    · exact h1
    · obtain ⟨hr, _, hrb⟩ := findProgress_spec hfind
      exact ⟨r, hr, by rw [hrb, h1]⟩
  | none =>
    rw [attachProgress_first s user b env hfind hfresh]
    intro b' hb'
    rcases h b' hb' with ⟨p, hp, hpb⟩ | h1
    · exact ⟨p, List.mem_append_left _ hp, hpb⟩
    · exact ⟨_, List.mem_append_right _ (List.mem_singleton.mpr rfl), h1.symm⟩

theorem addFromGoogle_noOrphan (s : Store) (user : ObjectId) (g : Option GoogleBookData)
    (env : Env) (hfresh : env.fresh s) (hno : NoOrphan s) :
    NoOrphan (addFromGoogle s user g env).2 := by
  unfold addFromGoogle
  split
  · exact hno
  · split
    · exact hno
    · next g b s1 hres =>
      rcases resolveBook_spec hres with ⟨hs, _⟩ | ⟨_, hsave⟩
      · subst hs
        exact attachProgress_noOrphan _ user b env hfresh.2
          (fun b' hb' => Or.inl ((noOrphan_iff _).mp hno b' hb'))
      · have hs1 := (saveNewBook_spec hsave).1
        subst hs1
        refine attachProgress_noOrphan _ user b env hfresh.2 ?_
        intro b' hb'
        rcases List.mem_append.mp hb' with h1 | h1
        · exact Or.inl ((noOrphan_iff _).mp hno b' h1)
        · exact Or.inr (by rw [List.mem_singleton.mp h1])

theorem saveNewProgress_reading_error {s : Store} {user bookId : ObjectId} {env : Env}
    {e : DbError} (hfresh : s.hasProgressId env.progressId = false)
    (h : s.saveNewProgress
        { userId := user, bookId := bookId, currentPage := 0, status := some "reading" } env
      = .error e) :
    ∃ r ∈ s.progress, r.userId = user ∧ r.bookId = bookId := by
  cases hfind : s.findProgress user bookId with
  | none =>
    rw [saveNewProgress_reading_ok s user bookId env hfresh hfind] at h
    exact absurd h (by simp)
  | some r =>
    obtain ⟨hr, hu, hb⟩ := findProgress_spec hfind
    exact ⟨r, hr, hu, hb⟩

theorem postBooks_noOrphan (s : Store) (user : ObjectId) (body : BookDoc) (env : Env)
    (hfresh : env.fresh s) (hno : NoOrphan s) :
    NoOrphan (postBooks s user body env).2 := by
  unfold postBooks
  split
  · exact hno
  · next b s1 hsave =>
    have hs1 := (saveNewBook_spec hsave).1
    subst hs1
    have hold := (noOrphan_iff _).mp hno
    split
    · next e herr =>
      rw [noOrphan_iff]
      have hf1 : Store.hasProgressId { books := s.books ++ [b], progress := s.progress }
          env.progressId = false := hfresh.2
      obtain ⟨r, hr, _, hrb⟩ := saveNewProgress_reading_error hf1 herr
      intro b' hb'
      rcases List.mem_append.mp hb' with h1 | h1
      · exact hold b' h1
      · exact ⟨r, hr, by rw [hrb, List.mem_singleton.mp h1]⟩
    · next p s2 hok =>
      obtain ⟨hs2, _, _, hpb, _⟩ := saveNewProgress_spec hok
      subst hs2
      rw [noOrphan_iff]
      intro b' hb'
      rcases List.mem_append.mp hb' with h1 | h1
      · obtain ⟨q, hq, hqb⟩ := hold b' h1
        exact ⟨q, List.mem_append_left _ hq, hqb⟩
      · exact ⟨p, List.mem_append_right _ (List.mem_singleton.mpr rfl),
          by rw [hpb, List.mem_singleton.mp h1]⟩

theorem mem_updateFirstBook {id : ObjectId} {f : Book → Book} (hf : ∀ b, (f b)._id = b._id)
    {b' : Book} : ∀ {l : List Book}, b' ∈ updateFirstBook id f l → ∃ b ∈ l, b._id = b'._id
  | [], h => by simp [updateFirstBook] at h
  | x :: xs, h => by
    unfold updateFirstBook at h
    split_ifs at h
    · rcases List.mem_cons.mp h with h1 | h1
      · exact ⟨x, List.mem_cons_self x xs, by rw [h1, hf]⟩
      · exact ⟨b', List.mem_cons_of_mem x h1, rfl⟩
    · rcases List.mem_cons.mp h with h1 | h1
      · exact ⟨x, List.mem_cons_self x xs, by rw [h1]⟩
      · obtain ⟨b, hb, hbid⟩ := mem_updateFirstBook hf h1
        exact ⟨b, List.mem_cons_of_mem x hb, hbid⟩

theorem putBook_noOrphan (s : Store) (id : Option ObjectId) (u : BookUpdate)
    (hno : NoOrphan s) : NoOrphan (putBook s id u).2 := by
  unfold putBook
  split
  · exact hno
  · split_ifs
    · exact hno
    · simp only
      split_ifs
      · exact hno
      · split
        · exact hno
        · rw [noOrphan_iff]
          intro b' hb'
          obtain ⟨b, hb, hbid⟩ := mem_updateFirstBook (apply_id _) hb'
          obtain ⟨p, hp, hpb⟩ := (noOrphan_iff _).mp hno b hb
          exact ⟨p, hp, by rw [hpb, hbid]⟩

theorem deleteBook_noOrphan (s : Store) (user : ObjectId) (id : Option ObjectId)
    (hid : UniqueIds s) (hno : NoOrphan s) : NoOrphan (deleteBook s user id).2 := by
  cases id with
  | none => exact hno
  | some bookId =>
    cases hfind : s.findProgress user bookId with
    | none =>
      have : (deleteBook s user (some bookId)).2 = s := by simp [deleteBook, hfind]
      rw [this]
      exact hno
    | some r =>
      obtain ⟨_, _, hrb⟩ := findProgress_spec hfind
      have hold := (noOrphan_iff _).mp hno
      have hkeep : ∀ b' ∈ s.books, b'._id ≠ bookId →
          ∃ p ∈ s.progress.erase r, p.bookId = b'._id := by
        intro b' hb' hne
        obtain ⟨p, hp, hpb⟩ := hold b' hb'
        have hpr : p ≠ r := by
          intro hpr
          rw [hpr, hrb] at hpb
          exact hne hpb.symm
        exact ⟨p, (List.mem_erase_of_ne hpr).mpr hp, hpb⟩
      rw [deleteBook_eq s user bookId r hid hfind, noOrphan_iff]
      simp only
      split_ifs with h0
      · intro b' hb'
        have hmem : b' ∈ s.books := (deleteFirst_sublist _ _).subset hb'
        refine hkeep b' hmem ?_
        intro hbid
        have hnone := hasBookId_deleteFirst bookId hid.1
        rw [List.any_eq_false] at hnone
        exact hnone b' hb' (by simpa using hbid)
      · intro b' hb'
        by_cases hbid : b'._id = bookId
        · obtain ⟨q, hq⟩ := List.exists_mem_of_length_pos (Nat.pos_of_ne_zero h0)
          have hq2 : q ∈ (s.progress.erase r).filter (fun p => p.bookId == bookId) := by
            rw [filter_erase_of_pos _ (by simpa using hrb) s.progress]
            exact hq
          obtain ⟨hq3, hq4⟩ := List.mem_filter.mp hq2
          exact ⟨q, hq3, by rw [hbid]; simpa using hq4⟩
        · exact hkeep b' hb' hbid

theorem postProgress_bookIds_subset (s : Store) (user : ObjectId) (body : ProgressBody)
    (env : Env) (hid : (s.progress.map (fun p => p._id)).Nodup) :
    ∀ id, (∃ p ∈ s.progress, p.bookId = id) →
      ∃ p ∈ (postProgress s user body env).2.progress, p.bookId = id := by
  intro id hex
  unfold postProgress
  split
  · exact hex
  · split
    · next bookId progress hfind =>
      simp only
      split
      · exact hex
      · next s1 hsave =>
        rw [(saveProgress_spec hsave).1]
        simp only
        have hmap := map_updateFirstProgress (fun q => q.bookId)
          (mutateProgress progress body env.now) s.progress (by
            intro q hq hqid
            rw [eq_of_mem_of_id_eq hid (findProgress_spec hfind).1 hq hqid]
            rfl)
        obtain ⟨p, hp, hpb⟩ := hex
        have : id ∈ (updateFirstProgress (mutateProgress progress body env.now)
            s.progress).map (fun q => q.bookId) := by
          rw [hmap]
          exact List.mem_map.mpr ⟨p, hp, hpb⟩
        obtain ⟨q, hq, hqb⟩ := List.mem_map.mp this
        exact ⟨q, hq, hqb⟩
    · split
      · exact hex
      · next p1 s1 hsave =>
        rw [(saveNewProgress_spec hsave).1]
        obtain ⟨p, hp, hpb⟩ := hex
        exact ⟨p, List.mem_append_left _ hp, hpb⟩

theorem postProgress_noOrphan (s : Store) (user : ObjectId) (body : ProgressBody)
    (env : Env) (hid : UniqueIds s) (hno : NoOrphan s) :
    NoOrphan (postProgress s user body env).2 := by
  rw [noOrphan_iff, postProgress_books]
  intro b hb
  exact postProgress_bookIds_subset s user body env hid.2 b._id ((noOrphan_iff _).mp hno b hb)

theorem handle_noOrphan (s : Store) (user : ObjectId) (env : Env) (req : Request)
    (hid : UniqueIds s) (hno : NoOrphan s) (hfresh : env.fresh s)
    (hreq : req.isDeleteProgress = false) : NoOrphan (handle s user env req).2 := by
  cases req with
  | addFromGoogle g => exact addFromGoogle_noOrphan s user g env hfresh hno
  | postBooks body => exact postBooks_noOrphan s user body env hfresh hno
  | putBook id u => exact putBook_noOrphan s id u hno
  | deleteBook id => exact deleteBook_noOrphan s user id hid hno
  | deleteProgress id => simp [Request.isDeleteProgress] at hreq
  | postProgress body => exact postProgress_noOrphan s user body env hid hno
  | getBooks => exact hno
  | getProgress =>
    simp only [handle, getProgress_store]
    exact hno
  | getStats => exact hno

theorem run_inv (calls : List Call) :
    ∀ s : Store, I2 s → UniqueIds s → NoOrphan s → freshRun s calls →
      (∀ c ∈ calls, c.request.isDeleteProgress = false) →
      I2 (run s calls) ∧ UniqueIds (run s calls) ∧ NoOrphan (run s calls) := by
  induction calls with
  | nil =>
    intro s h2 hid hno _ _
    exact ⟨h2, hid, hno⟩
  | cons c cs ih =>
    intro s h2 hid hno hfresh hreq
    obtain ⟨h2', hid'⟩ := handle_inv s c.user c.env c.request h2 hid
    have hno' := handle_noOrphan s c.user c.env c.request hid hno hfresh.1
      (hreq c (List.mem_cons_self c cs))
    exact ih _ h2' hid' hno' hfresh.2 (fun d hd => hreq d (List.mem_cons_of_mem c hd))

theorem deleteBook_last_row {s : Store} {user bookId : ObjectId} {r : ReadingProgress}
    (hid : UniqueIds s) (h2 : I2 s) (hmem : r ∈ s.progress) (hu : r.userId = user)
    (hb : r.bookId = bookId) (h1 : (s.referencing bookId).length = 1) :
    (deleteBook s user (some bookId)).2.hasBookId bookId = false := by
  have hfind : s.findProgress user bookId = some r := by
    rw [← hu, ← hb]
    exact findProgress_of_mem h2 hmem
  have hrref : r ∈ s.referencing bookId := by
    simp [Store.referencing, List.mem_filter, hmem, hb]
  have h0 : ((s.referencing bookId).erase r).length = 0 := by
    rw [List.length_erase_of_mem hrref, h1]
  rw [deleteBook_eq s user bookId r hid hfind]
  simp only [h0, if_true]
  exact hasBookId_deleteFirst bookId hid.1

/-- C18 (amended). Reference-count lifecycle: in every store reached from the empty store
by requests other than DELETE /api/progress/:id, served with freshly generated ids, every
Book of the catalog is referenced by at least one ReadingProgress row; and when a user then
deletes the last row of a Book through DELETE /api/books/:id, no Book with that id is
left. -/
theorem books_referenced_without_deleteProgress (calls : List Call)
    (hreq : ∀ c ∈ calls, c.request.isDeleteProgress = false)
    (hfresh : freshRun emptyStore calls) :
    NoOrphan (run emptyStore calls) ∧
    ∀ (user bookId : ObjectId) (r : ReadingProgress),
      r ∈ (run emptyStore calls).progress → r.userId = user → r.bookId = bookId →
      ((run emptyStore calls).referencing bookId).length = 1 →
      (deleteBook (run emptyStore calls) user (some bookId)).2.hasBookId bookId = false := by
  obtain ⟨h2, hid, hno⟩ := run_inv calls emptyStore (by decide) (by decide) (by decide)
    hfresh hreq
  refine ⟨hno, ?_⟩
  intro user bookId r hmem hu hb h1
  exact deleteBook_last_row hid h2 hmem hu hb h1

theorem books_referenced_without_deleteProgress_witness :
    NoOrphan (run emptyStore
      [⟨7, ⟨1, 1, 5⟩, .postBooks (sampleBody 412)⟩,
       ⟨8, ⟨2, 2, 6⟩, .postProgress { bookId := some 1, currentPage := 10 }⟩,
       ⟨7, ⟨3, 3, 7⟩, .deleteBook (some 1)⟩]) ∧
    (deleteBook (run emptyStore
      [⟨7, ⟨1, 1, 5⟩, .postBooks (sampleBody 412)⟩,
       ⟨8, ⟨2, 2, 6⟩, .postProgress { bookId := some 1, currentPage := 10 }⟩,
       ⟨7, ⟨3, 3, 7⟩, .deleteBook (some 1)⟩]) 8 (some 1)).2.hasBookId 1 = false := by
  obtain ⟨h1, h2⟩ := books_referenced_without_deleteProgress
    [⟨7, ⟨1, 1, 5⟩, .postBooks (sampleBody 412)⟩,
     ⟨8, ⟨2, 2, 6⟩, .postProgress { bookId := some 1, currentPage := 10 }⟩,
     ⟨7, ⟨3, 3, 7⟩, .deleteBook (some 1)⟩] (by decide) (by decide)
  exact ⟨h1, h2 8 1 (attachedRow ⟨2, 2, 6⟩ 8 1 |> fun r => { r with currentPage := 10 })
    (by decide) rfl rfl (by decide)⟩

/-- C18 as stated fails: after a manual add by user 7 and DELETE /api/progress/:id of the
row it created, the reachable store still holds the Book (id 1) and no row references it. -/
theorem deleteProgress_leaves_orphan_book :
    freshRun emptyStore
      [⟨7, ⟨1, 1, 5⟩, .postBooks (sampleBody 412)⟩,
       ⟨7, ⟨2, 2, 6⟩, .deleteProgress (some 1)⟩] ∧
    Reachable (run emptyStore
      [⟨7, ⟨1, 1, 5⟩, .postBooks (sampleBody 412)⟩,
       ⟨7, ⟨2, 2, 6⟩, .deleteProgress (some 1)⟩]) ∧
    (run emptyStore
      [⟨7, ⟨1, 1, 5⟩, .postBooks (sampleBody 412)⟩,
       ⟨7, ⟨2, 2, 6⟩, .deleteProgress (some 1)⟩]).hasBookId 1 = true ∧
    (run emptyStore
      [⟨7, ⟨1, 1, 5⟩, .postBooks (sampleBody 412)⟩,
       ⟨7, ⟨2, 2, 6⟩, .deleteProgress (some 1)⟩]).referencing 1 = [] ∧
    ¬ NoOrphan (run emptyStore
      [⟨7, ⟨1, 1, 5⟩, .postBooks (sampleBody 412)⟩,
       ⟨7, ⟨2, 2, 6⟩, .deleteProgress (some 1)⟩]) :=
  ⟨by decide, ⟨_, rfl⟩, by decide, by decide, by decide⟩

/-! ## Double-precision percentage (C15, C16) -/

theorem log2Fuel_spec : ∀ (fuel n : Nat), 0 < n → n ≤ fuel →
    2 ^ log2Fuel fuel n ≤ n ∧ n < 2 ^ (log2Fuel fuel n + 1)
  | 0, n, hn, hf => by omega
  | fuel + 1, n, hn, hf => by
    unfold log2Fuel
    split_ifs with h2
    · simp only [pow_zero, zero_add, pow_one]
      omega
    · have hpos : 0 < n / 2 := Nat.div_pos (by omega) (by norm_num)
      have hle : n / 2 ≤ fuel := by omega
      obtain ⟨ih1, ih2⟩ := log2Fuel_spec fuel (n / 2) hpos hle
      rw [pow_succ, pow_succ]
      constructor <;> omega

theorem floorLog2_spec {n : Nat} (hn : 0 < n) :
    2 ^ floorLog2 n ≤ n ∧ n < 2 ^ (floorLog2 n + 1) :=
  log2Fuel_spec n n hn le_rfl

theorem rneDiv_spec (n : Nat) {d : Nat} (hd : 0 < d) :
    2 * (rneDiv n d * d) ≤ 2 * n + d ∧ 2 * n ≤ 2 * (rneDiv n d * d) + d := by
  have h1 := Nat.div_add_mod n d
  have h2 := Nat.mod_lt n hd
  have h3 : (n / d + 1) * d = d * (n / d) + d := by ring
  have h4 : n / d * d = d * (n / d) := by ring
  unfold rneDiv
  simp only
  split_ifs <;> simp only [h3, h4] <;> omega

/-- The exponent chosen by `flPos` is the floor of the binary logarithm of `n / d`. -/
theorem ratioLog2_spec {n d : Nat} (hn : 0 < n) (hd : 0 < d) :
    (2 : ℚ) ^ ratioLog2 n d ≤ (n : ℚ) / d ∧ (n : ℚ) / d < (2 : ℚ) ^ (ratioLog2 n d + 1) := by
  unfold ratioLog2
  obtain ⟨hn1, hn2⟩ := floorLog2_spec hn
  obtain ⟨hd1, hd2⟩ := floorLog2_spec hd
  generalize floorLog2 n = ln at hn1 hn2 ⊢
  generalize floorLog2 d = ld at hd1 hd2 ⊢
  have hnQ : (0 : ℚ) < n := by exact_mod_cast hn
  have hdQ : (0 : ℚ) < d := by exact_mod_cast hd
  have hn1Q : (2 : ℚ) ^ ln ≤ n := by exact_mod_cast hn1
  have hn2Q : (n : ℚ) < 2 ^ (ln + 1) := by exact_mod_cast hn2
  have hd1Q : (2 : ℚ) ^ ld ≤ d := by exact_mod_cast hd1
  have hd2Q : (d : ℚ) < 2 ^ (ld + 1) := by exact_mod_cast hd2
  have hpl : (0 : ℚ) < 2 ^ ld := by positivity
  have hpl1 : (0 : ℚ) < 2 ^ (ld + 1) := by positivity
  have hpn : (0 : ℚ) < 2 ^ ln := by positivity
  have e1 : (2 : ℚ) ^ ((ln : Int) - ld) = 2 ^ ln / 2 ^ ld := by
    rw [zpow_sub₀ (by norm_num), zpow_natCast, zpow_natCast]
  have e2 : (2 : ℚ) ^ ((ln : Int) - ld + 1) = 2 ^ (ln + 1) / 2 ^ ld := by
    rw [show (ln : Int) - ld + 1 = ((ln + 1 : Nat) : Int) - ld by push_cast; ring,
      zpow_sub₀ (by norm_num), zpow_natCast, zpow_natCast]
  have e3 : (2 : ℚ) ^ ((ln : Int) - ld - 1) = 2 ^ ln / 2 ^ (ld + 1) := by
    rw [show (ln : Int) - ld - 1 = (ln : Int) - ((ld + 1 : Nat) : Int) by push_cast; ring,
      zpow_sub₀ (by norm_num), zpow_natCast, zpow_natCast]
  have e4 : (2 : ℚ) ^ ((ln : Int) - ld - 1 + 1) = 2 ^ ln / 2 ^ ld := by
    rw [show (ln : Int) - ld - 1 + 1 = (ln : Int) - ld by ring, e1]
  split_ifs with h
  · have hQ : (d : ℚ) * 2 ^ ln ≤ n * 2 ^ ld := by exact_mod_cast h
    rw [e1, e2]
    constructor
    · rw [div_le_div_iff₀ hpl hdQ]
      linarith
    · rw [div_lt_div_iff₀ hdQ hpl]
      calc (n : ℚ) * 2 ^ ld ≤ n * d := by
            exact mul_le_mul_of_nonneg_left hd1Q hnQ.le
        _ < 2 ^ (ln + 1) * d := by
            exact mul_lt_mul_of_pos_right hn2Q hdQ
  · have hQ : (n : ℚ) * 2 ^ ld < d * 2 ^ ln := by exact_mod_cast (not_le.mp h)
    rw [e3, e4]
    constructor
    · rw [div_le_div_iff₀ hpl1 hdQ]
      calc (2 : ℚ) ^ ln * d ≤ n * d := by
            exact mul_le_mul_of_nonneg_right hn1Q hdQ.le
        _ ≤ n * 2 ^ (ld + 1) := by
            exact mul_le_mul_of_nonneg_left hd2Q.le hnQ.le
    · rw [div_lt_div_iff₀ hdQ hpl]
      linarith

theorem abs_sub_div_le_half {m x D : ℚ} (hD : 0 < D) (h1 : 2 * (m * D) ≤ 2 * x + D)
    (h2 : 2 * x ≤ 2 * (m * D) + D) : |m - x / D| ≤ 1 / 2 := by
  have e : m - x / D = (m * D - x) / D := by field_simp
  rw [e, abs_div, abs_of_pos hD, div_le_iff₀ hD, abs_le]
  constructor <;> linarith

/-- The mantissa chosen by `flPos` is within one half of the scaled quotient. -/
theorem flPos_mantissa {n d : Nat} (hd : 0 < d) :
    |((flPos n d).1 : ℚ) - (n : ℚ) / d * (2 : ℚ) ^ (52 - ratioLog2 n d)| ≤ 1 / 2 := by
  have hdQ : (0 : ℚ) < d := by exact_mod_cast hd
  unfold flPos
  simp only
  generalize 52 - ratioLog2 n d = sh
  split_ifs with h
  · obtain ⟨k, rfl⟩ := Int.eq_ofNat_of_zero_le h
    simp only [Int.toNat_ofNat, zpow_natCast]
    obtain ⟨h1, h2⟩ := rneDiv_spec (n * 2 ^ k) hd
    have h1Q : 2 * ((rneDiv (n * 2 ^ k) d : ℚ) * d) ≤ 2 * ((n : ℚ) * 2 ^ k) + d := by
      exact_mod_cast h1
    have h2Q : 2 * ((n : ℚ) * 2 ^ k) ≤ 2 * ((rneDiv (n * 2 ^ k) d : ℚ) * d) + d := by
      exact_mod_cast h2
    have := abs_sub_div_le_half hdQ h1Q h2Q
    rwa [show (n : ℚ) / d * 2 ^ k = (n : ℚ) * 2 ^ k / d by ring]
  · obtain ⟨k, hk⟩ := Int.eq_ofNat_of_zero_le (show 0 ≤ -sh by omega)
    have hsh : sh = -(k : Int) := by omega
    subst hsh
    simp only [neg_neg, Int.toNat_ofNat, zpow_neg, zpow_natCast]
    have hD : 0 < d * 2 ^ k := Nat.mul_pos hd (by positivity)
    have hDQ : (0 : ℚ) < (d : ℚ) * 2 ^ k := by positivity
    obtain ⟨h1, h2⟩ := rneDiv_spec n hD
    have h1Q : 2 * ((rneDiv n (d * 2 ^ k) : ℚ) * ((d : ℚ) * 2 ^ k)) ≤ 2 * (n : ℚ) + d * 2 ^ k := by
      exact_mod_cast h1
    have h2Q : 2 * (n : ℚ) ≤ 2 * ((rneDiv n (d * 2 ^ k) : ℚ) * ((d : ℚ) * 2 ^ k)) + d * 2 ^ k := by
      exact_mod_cast h2
    have := abs_sub_div_le_half hDQ h1Q h2Q
    rwa [show (n : ℚ) / d * (2 ^ k)⁻¹ = (n : ℚ) / (d * 2 ^ k) by field_simp]

theorem flPos_snd (n d : Nat) : (flPos n d).2 = -(52 - ratioLog2 n d) := rfl

/-- The double computed by `flPos` has a positive mantissa and a relative error of at most
`2 ^ (-53)`. -/
theorem flPos_spec {n d : Nat} (hn : 0 < n) (hd : 0 < d) :
    0 < (flPos n d).1 ∧
    |((flPos n d).1 : ℚ) * (2 : ℚ) ^ (flPos n d).2 - (n : ℚ) / d| ≤ (n : ℚ) / d / 2 ^ 53 := by
  obtain ⟨hE1, _⟩ := ratioLog2_spec hn hd
  have hm := flPos_mantissa (n := n) hd
  rw [flPos_snd]
  generalize (flPos n d).1 = m at hm ⊢
  generalize ratioLog2 n d = E at hE1 hm ⊢
  generalize hq : (n : ℚ) / d = q at hE1 hm ⊢
  have hP : (0 : ℚ) < 2 ^ (52 - E) := by positivity
  have hPE : (2 : ℚ) ^ (52 - E) * 2 ^ E = 2 ^ 52 := by
    rw [← zpow_add₀ (by norm_num)]
    norm_num
  have hinv : (2 : ℚ) ^ (-(52 - E)) = (2 ^ (52 - E))⁻¹ := zpow_neg _ _
  rw [hinv]
  set P : ℚ := 2 ^ (52 - E) with hPdef
  have hqP : (2 : ℚ) ^ 52 ≤ q * P := by
    rw [← hPE, mul_comm]
    exact mul_le_mul_of_nonneg_right hE1 hP.le
  obtain ⟨hm1, hm2⟩ := abs_le.mp hm
  constructor
  · have : (0 : ℚ) < m := by
      have : (1 : ℚ) ≤ 2 ^ 52 := by norm_num
      linarith
    exact_mod_cast this
  · have e : (m : ℚ) * P⁻¹ - q = ((m : ℚ) - q * P) * P⁻¹ := by
      field_simp
      ring
    rw [e, abs_mul, abs_of_pos (inv_pos.mpr hP)]
    have hPinv : P⁻¹ ≤ q / 2 ^ 52 := by
      rw [le_div_iff₀ (by norm_num), inv_mul_le_iff₀ hP]
      linarith
    calc |(m : ℚ) - q * P| * P⁻¹ ≤ 1 / 2 * P⁻¹ :=
          mul_le_mul_of_nonneg_right hm (inv_pos.mpr hP).le
      _ ≤ 1 / 2 * (q / 2 ^ 52) := by
          exact mul_le_mul_of_nonneg_left hPinv (by norm_num)
      _ = q / 2 ^ 53 := by ring

/-- The value `Math.round` returns: `r ≤ x + 1/2 < r + 1` for the double `x = ± m * 2 ^ e`. -/
theorem mathRound_spec (neg : Bool) (m : Nat) (e : Int) :
    ((mathRound neg m e : Int) : ℚ)
        ≤ ((if neg then -(m : Int) else (m : Int) : Int) : ℚ) * (2 : ℚ) ^ e + 1 / 2 ∧
      ((if neg then -(m : Int) else (m : Int) : Int) : ℚ) * (2 : ℚ) ^ e + 1 / 2
        < ((mathRound neg m e : Int) : ℚ) + 1 := by
  unfold mathRound
  simp only
  generalize (if neg then -(m : Int) else (m : Int)) = v
  split_ifs with h
  · obtain ⟨k, rfl⟩ := Int.eq_ofNat_of_zero_le h
    simp only [Int.toNat_ofNat, zpow_natCast]
    push_cast
    constructor <;> linarith
  · obtain ⟨k, hk⟩ := Int.eq_ofNat_of_zero_le (show 0 ≤ -e by omega)
    have he : e = -(k : Int) := by omega
    subst he
    simp only [neg_neg, Int.toNat_ofNat, zpow_neg, zpow_natCast]
    have hD : (0 : Int) < 2 * 2 ^ k := by positivity
    have h1 := Int.ediv_mul_le (2 * v + 2 ^ k) hD.ne'
    have h2 := Int.lt_ediv_add_one_mul_self (2 * v + 2 ^ k) hD
    generalize (2 * v + 2 ^ k) / (2 * 2 ^ k) = r at h1 h2 ⊢
    have h1Q : (r : ℚ) * (2 * 2 ^ k) ≤ 2 * v + 2 ^ k := by exact_mod_cast h1
    have h2Q : (2 : ℚ) * v + 2 ^ k < (r + 1) * (2 * 2 ^ k) := by exact_mod_cast h2
    have hp : (0 : ℚ) < 2 ^ k := by positivity
    have e1 : (v : ℚ) * (2 ^ k)⁻¹ + 1 / 2 = (2 * v + 2 ^ k) / (2 * 2 ^ k) := by
      field_simp
      ring
    rw [e1]
    constructor
    · rw [le_div_iff₀ (by positivity)]
      exact h1Q
    · rw [div_lt_iff₀ (by positivity)]
      exact h2Q

theorem two_pow_toNat_div (e : Int) :
    ((2 ^ e.toNat : Nat) : ℚ) / ((2 ^ (-e).toNat : Nat) : ℚ) = (2 : ℚ) ^ e := by
  rcases le_total 0 e with h | h
  · obtain ⟨k, rfl⟩ := Int.eq_ofNat_of_zero_le h
    have : (-(k : Int)).toNat = 0 := by omega
    simp [this]
  · obtain ⟨k, hk⟩ := Int.eq_ofNat_of_zero_le (show 0 ≤ -e by omega)
    have he : e = -(k : Int) := by omega
    subst he
    have : (-(k : Int)).toNat = 0 := by omega
    simp [this]

/-- Rounding step shared by both signs: an integer `r` with `r ≤ y + 1/2 < r + 1`, where
`B * y` is within `δ < 1/2` of `100 * A`, satisfies `|2 B r - 200 A| ≤ B`. -/
theorem nearest_of_close {A B r : Int} {y δ : ℚ} (hB : 0 < B)
    (h1 : (r : ℚ) ≤ y + 1 / 2) (h2 : y + 1 / 2 < (r : ℚ) + 1)
    (hy : |(B : ℚ) * y - 100 * A| ≤ δ) (hδ : δ < 1 / 2) :
    |2 * B * r - 200 * A| ≤ B := by
  have hBQ : (0 : ℚ) < B := by exact_mod_cast hB
  obtain ⟨hy1, hy2⟩ := abs_le.mp hy
  have h1' : (B : ℚ) * r ≤ B * y + B / 2 := by
    have := mul_le_mul_of_nonneg_left h1 hBQ.le
    linarith
  have h2' : (B : ℚ) * y + B / 2 < B * r + B := by
    have := mul_lt_mul_of_pos_left h2 hBQ
    linarith
  rw [abs_le]
  constructor
  · by_contra h
    have hi : 2 * B * r + 1 ≤ 200 * A - B := by omega
    have hQ : (2 : ℚ) * B * r + 1 ≤ 200 * A - B := by exact_mod_cast hi
    linarith
  · by_contra h
    have hi : 200 * A + B + 1 ≤ 2 * B * r := by omega
    have hQ : (200 : ℚ) * A + B + 1 ≤ 2 * B * r := by exact_mod_cast hi
    linarith

/-- Two roundings of relative error `2 ^ (-53)` keep the product by `100` within
`300 q / 2 ^ 53` of `100 q`. -/
theorem two_roundings_close {q y1 y2 : ℚ} (hq : 0 ≤ q)
    (h1 : |y1 - q| ≤ q / 2 ^ 53) (h2 : |y2 - 100 * y1| ≤ 100 * y1 / 2 ^ 53) :
    |y2 - 100 * q| ≤ 300 * q / 2 ^ 53 := by
  obtain ⟨h1a, h1b⟩ := abs_le.mp h1
  obtain ⟨h2a, h2b⟩ := abs_le.mp h2
  rw [abs_le]
  constructor <;> norm_num at * <;> linarith

theorem jsPercentExpr_close {a b : Int} (ha0 : a ≠ 0) (hb : 0 < b) :
    |(b : ℚ) * (((flPos (100 * (flPos a.natAbs b.natAbs).1 * 2 ^ (flPos a.natAbs b.natAbs).2.toNat)
          (2 ^ (-(flPos a.natAbs b.natAbs).2).toNat)).1 : ℚ) *
        (2 : ℚ) ^ (flPos (100 * (flPos a.natAbs b.natAbs).1 * 2 ^ (flPos a.natAbs b.natAbs).2.toNat)
          (2 ^ (-(flPos a.natAbs b.natAbs).2).toNat)).2) - 100 * (a.natAbs : ℚ)|
      ≤ 300 * (a.natAbs : ℚ) / 2 ^ 53 := by
  have hn : 0 < a.natAbs := Int.natAbs_pos.mpr ha0
  have hd : 0 < b.natAbs := Int.natAbs_pos.mpr hb.ne'
  have hbQ : (0 : ℚ) < b := by exact_mod_cast hb
  have hdb : ((b.natAbs : Nat) : ℚ) = (b : ℚ) := by
    rw [Nat.cast_natAbs, abs_of_pos hb]
  obtain ⟨hm1, herr1⟩ := flPos_spec hn hd
  generalize a.natAbs = n at hn hm1 herr1 ⊢
  rw [hdb] at herr1
  generalize flPos n b.natAbs = y1 at hm1 herr1 ⊢
  have hN2 : 0 < 100 * y1.1 * 2 ^ y1.2.toNat := by positivity
  have hD2 : 0 < 2 ^ (-y1.2).toNat := by positivity
  obtain ⟨_, herr2⟩ := flPos_spec hN2 hD2
  have hval : ((100 * y1.1 * 2 ^ y1.2.toNat : Nat) : ℚ) / ((2 ^ (-y1.2).toNat : Nat) : ℚ)
      = 100 * ((y1.1 : ℚ) * (2 : ℚ) ^ y1.2) := by
    rw [← two_pow_toNat_div y1.2]
    push_cast
    ring
  rw [hval] at herr2
  generalize flPos (100 * y1.1 * 2 ^ y1.2.toNat) (2 ^ (-y1.2).toNat) = y2 at herr2 ⊢
  have hq : (0 : ℚ) ≤ (n : ℚ) / b := by positivity
  have hclose := two_roundings_close hq herr1 herr2
  have e : (b : ℚ) * ((y2.1 : ℚ) * (2 : ℚ) ^ y2.2) - 100 * (n : ℚ)
      = b * ((y2.1 : ℚ) * (2 : ℚ) ^ y2.2 - 100 * ((n : ℚ) / b)) := by
    field_simp
    ring
  rw [e, abs_mul, abs_of_pos hbQ]
  calc (b : ℚ) * |(y2.1 : ℚ) * (2 : ℚ) ^ y2.2 - 100 * ((n : ℚ) / b)|
      ≤ b * (300 * ((n : ℚ) / b) / 2 ^ 53) := mul_le_mul_of_nonneg_left hclose hbQ.le
    _ = 300 * (n : ℚ) / 2 ^ 53 := by
      field_simp
      ring

/-- The server's percentage is an integer nearest to the exact value `100 a / b`: it lies
within one half of it, for `b > 0` and `|a| ≤ 2 ^ 40`. -/
theorem roundPercent_nearest {a b : Int} (hb : 0 < b) (ha : |a| ≤ 2 ^ 40) :
    |2 * b * roundPercent a b - 200 * a| ≤ b := by
  unfold roundPercent
  rw [if_pos hb]
  unfold jsPercentExpr
  split_ifs with ha0
  · subst ha0
    simpa using hb.le
  · simp only
    have hclose := jsPercentExpr_close ha0 hb
    have hnb : decide (b < 0) = false := by simpa using hb.le
    rw [hnb]
    generalize flPos (100 * (flPos a.natAbs b.natAbs).1 * 2 ^ (flPos a.natAbs b.natAbs).2.toNat)
      (2 ^ (-(flPos a.natAbs b.natAbs).2).toNat) = y2 at hclose ⊢
    obtain ⟨hr1, hr2⟩ := mathRound_spec (decide (a < 0) != false) y2.1 y2.2
    have hnat : ((a.natAbs : Nat) : ℚ) ≤ 2 ^ 40 := by
      have : ((a.natAbs : Nat) : Int) ≤ 2 ^ 40 := by
        rw [Int.natCast_natAbs]
        exact ha
      exact_mod_cast this
    have hδ : 300 * ((a.natAbs : Nat) : ℚ) / 2 ^ 53 < 1 / 2 := by
      rw [div_lt_iff₀ (by positivity)]
      calc 300 * ((a.natAbs : Nat) : ℚ) ≤ 300 * 2 ^ 40 := by linarith
        _ < 1 / 2 * 2 ^ 53 := by norm_num
    refine nearest_of_close hb hr1 hr2 ?_ hδ
    rcases lt_or_gt_of_ne ha0 with hneg | hpos
    · have hdec : (decide (a < 0) != false) = true := by simpa using hneg
      have hcast : (a : ℚ) = -((a.natAbs : Nat) : ℚ) := by
        rw [Nat.cast_natAbs, abs_of_neg hneg]
        push_cast
        ring
      rw [hdec, hcast]
      simp only [if_true]
      push_cast
      rw [show (b : ℚ) * (-(y2.1 : ℚ) * (2 : ℚ) ^ y2.2) - 100 * -((a.natAbs : Nat) : ℚ)
          = -((b : ℚ) * ((y2.1 : ℚ) * (2 : ℚ) ^ y2.2) - 100 * ((a.natAbs : Nat) : ℚ)) by ring,
        abs_neg]
      exact hclose
    · have hdec : (decide (a < 0) != false) = false := by simpa using hpos.le
      have hcast : (a : ℚ) = ((a.natAbs : Nat) : ℚ) := by
        rw [Nat.cast_natAbs, abs_of_pos hpos]
      rw [hdec, hcast]
      simp only [Bool.false_eq_true, if_false]
      push_cast
      exact hclose

theorem progressResponse_body {s : Store} {p' p : ReadingProgress} {b : Book} {pct : Int}
    (h : (progressResponse s p').body = .progress p b pct) :
    s.findBookById p.bookId = some b ∧ pct = roundPercent p.currentPage b.totalPages := by
  unfold progressResponse at h
  split at h
  · simp at h
  · next b' hb' =>
    simp only [Body.progress.injEq] at h
    obtain ⟨h1, h2, h3⟩ := h
    subst h1 h2
    exact ⟨hb', h3.symm⟩

theorem postProgress_body {s : Store} {user : ObjectId} {body : ProgressBody} {env : Env}
    {p : ReadingProgress} {b : Book} {pct : Int}
    (h : (postProgress s user body env).1.body = .progress p b pct) :
    (postProgress s user body env).2.findBookById p.bookId = some b ∧
      pct = roundPercent p.currentPage b.totalPages := by
  unfold postProgress at h ⊢
  split at h
  · simp at h
  · split at h
    · simp only at h ⊢
      split at h
      · simp at h
      · exact progressResponse_body h
    · split at h
      · simp at h
      · exact progressResponse_body h

theorem getProgress_rows {s : Store} {user : ObjectId}
    {rows : List (ReadingProgress × Book × Int)}
    (h : (getProgress s user).1.body = .progressList rows) :
    ∀ p b pct, (p, b, pct) ∈ rows →
      s.findBookById p.bookId = some b ∧ pct = roundPercent p.currentPage b.totalPages := by
  unfold getProgress at h
  simp only at h
  split_ifs at h
  simp only [Body.progressList.injEq] at h
  subst h
  intro p b pct hmem
  obtain ⟨p', _, hp'⟩ := List.mem_filterMap.mp hmem
  cases hb : s.findBookById p'.bookId with
  | none => simp [hb] at hp'
  | some b' =>
    simp only [hb, Option.map_some', Option.some.injEq, Prod.mk.injEq] at hp'
    obtain ⟨h1, h2, h3⟩ := hp'
    subst h1 h2
    exact ⟨hb, h3.symm⟩

theorem formattersPercentage_eq {a b : Int} (hb : 0 ≤ b) :
    formattersPercentage a b = roundPercent a b := by
  unfold formattersPercentage roundPercent
  rcases eq_or_lt_of_le hb with h0 | hpos
  · simp [← h0]
  · rw [if_neg hpos.ne', if_pos hpos]

/-- C15 (amended). Derived percentage: every row returned by POST /api/progress or
GET /api/progress carries `roundPercent currentPage totalPages` of its Book, the value of
`Math.round` on the double-precision product `(currentPage / totalPages) * 100`.  For
`totalPages > 0` (and `|currentPage| ≤ 2 ^ 40`) it is an integer within one half of the
exact value `100 * currentPage / totalPages`; for `totalPages = 0` it is 0; and the client
helper `formatters.percentage` computes the same value whenever `totalPages ≥ 0`. -/
theorem derived_percentage_is_nearest (s : Store) (user : ObjectId) :
    (∀ (body : ProgressBody) (env : Env) (p : ReadingProgress) (b : Book) (pct : Int),
      (postProgress s user body env).1.body = .progress p b pct →
      (postProgress s user body env).2.findBookById p.bookId = some b ∧
        pct = roundPercent p.currentPage b.totalPages) ∧
    (∀ rows, (getProgress s user).1.body = .progressList rows →
      ∀ p b pct, (p, b, pct) ∈ rows →
        s.findBookById p.bookId = some b ∧
          pct = roundPercent p.currentPage b.totalPages) ∧
    (∀ a b : Int, 0 < b → |a| ≤ 2 ^ 40 → |2 * b * roundPercent a b - 200 * a| ≤ b) ∧
    (∀ a : Int, roundPercent a 0 = 0) ∧
    (∀ a b : Int, 0 ≤ b → formattersPercentage a b = roundPercent a b) := by
  refine ⟨?_, ?_, ?_, ?_, ?_⟩
  · intro body env p b pct h
    exact postProgress_body h
  · intro rows h
    exact getProgress_rows h
  · intro a b hb ha
    exact roundPercent_nearest hb ha
  · intro a
    simp [roundPercent]
  · intro a b hb
    exact formattersPercentage_eq hb

theorem derived_percentage_is_nearest_witness :
    ((postProgress ⟨[sampleBook 0 none none 40], []⟩ 7
        { bookId := some 0, currentPage := 23 } ⟨1, 1, 5⟩).2.findBookById
          (attachedRow ⟨1, 1, 5⟩ 7 0).bookId = some (sampleBook 0 none none 40) ∧
      (57 : Int) = roundPercent 23 (sampleBook 0 none none 40).totalPages) ∧
    |2 * 40 * roundPercent 23 40 - 200 * 23| ≤ (40 : Int) ∧
    formattersPercentage 23 40 = roundPercent 23 40 :=
  ⟨(derived_percentage_is_nearest ⟨[sampleBook 0 none none 40], []⟩ 7).1
      { bookId := some 0, currentPage := 23 } ⟨1, 1, 5⟩
      { attachedRow ⟨1, 1, 5⟩ 7 0 with currentPage := 23 } (sampleBook 0 none none 40) 57
      (by decide),
   (derived_percentage_is_nearest ⟨[sampleBook 0 none none 40], []⟩ 7).2.2.1 23 40
      (by decide) (by decide),
   (derived_percentage_is_nearest ⟨[sampleBook 0 none none 40], []⟩ 7).2.2.2.2 23 40
      (by decide)⟩

/-- C15 as stated fails: for `currentPage = 23` on a Book of 40 pages the exact value is
57.5, which `Math.round` would take to 58, but the double-precision product
`(23 / 40) * 100` is 57.49999999999999 and the response carries 57. -/
theorem percentage_of_23_of_40_is_57 :
    (postProgress ⟨[sampleBook 0 none none 40], []⟩ 7
      { bookId := some 0, currentPage := 23 } ⟨1, 1, 5⟩).1
      = ⟨200, .progress { attachedRow ⟨1, 1, 5⟩ 7 0 with currentPage := 23 }
          (sampleBook 0 none none 40) 57⟩ ∧
    flPos 23 40 = (5179139571476070, -53) ∧
    flPos (100 * 5179139571476070) (2 ^ 53) = (8092405580431359, -47) ∧
    specPercentage 23 40 = 58 := by
  decide

theorem mem_statusBreakdown (rows : List ReadingProgress) (st : String) (n : Nat) :
    (st, n) ∈ statusBreakdown rows ↔
      (∃ p ∈ rows, p.status = st) ∧ n = rows.countP (fun p => p.status == st) := by
  unfold statusBreakdown
  simp only [List.mem_map, List.mem_dedup, Prod.mk.injEq]
  constructor
  · rintro ⟨st', ⟨p, hp, hps⟩, h1, h2⟩
    subst h1
    exact ⟨⟨p, hp, hps⟩, h2.symm⟩
  · rintro ⟨⟨p, hp, hps⟩, hn⟩
    exact ⟨st, ⟨p, hp, hps⟩, rfl, hn.symm⟩

theorem statusBreakdown_keys_nodup (rows : List ReadingProgress) :
    ((statusBreakdown rows).map (fun e => e.1)).Nodup := by
  unfold statusBreakdown
  rw [List.map_map]
  have : ((fun e : String × Nat => e.1) ∘
      fun st => (st, rows.countP (fun p => p.status == st))) = id := rfl
  rw [this, List.map_id]
  exact List.nodup_dedup _

/-- C16 (amended). GET /api/stats leaves the store unchanged and answers with: `totalBooks`,
the number of the caller's rows; `completedBooks`, the number of those with status
`completed`; `statusBreakdown`, one entry for each status occurring among the caller's rows
with the number of the caller's rows of that status; and `completionRate`, which is 0 when
`totalBooks` is 0 and otherwise (for at most `2 ^ 40` rows) an integer within one half of
the exact value `100 * completedBooks / totalBooks`. -/
theorem getStats_aggregates (s : Store) (user : ObjectId) :
    ∃ breakdown rate,
      getStats s user =
        (⟨200, .stats (s.progress.filter (fun p => p.userId == user)).length
          ((s.progress.filter (fun p => p.userId == user)).countP
            (fun p => p.status == "completed")) breakdown rate⟩, s) ∧
      (∀ st n, (st, n) ∈ breakdown ↔
        (∃ p ∈ s.progress.filter (fun p => p.userId == user), p.status = st) ∧
          n = (s.progress.filter (fun p => p.userId == user)).countP
            (fun p => p.status == st)) ∧
      (breakdown.map (fun e => e.1)).Nodup ∧
      ((s.progress.filter (fun p => p.userId == user)).length = 0 → rate = 0) ∧
      ((s.progress.filter (fun p => p.userId == user)).length ≤ 2 ^ 40 →
        |2 * ((s.progress.filter (fun p => p.userId == user)).length : Int) * rate
          - 200 * (((s.progress.filter (fun p => p.userId == user)).countP
            (fun p => p.status == "completed") : Nat) : Int)|
          ≤ ((s.progress.filter (fun p => p.userId == user)).length : Int)) := by
  refine ⟨_, _, rfl, mem_statusBreakdown _, statusBreakdown_keys_nodup _, ?_, ?_⟩
  · intro h0
    simp [roundPercent, h0]
  · intro hle
    generalize s.progress.filter (fun p => p.userId == user) = rows at hle ⊢
    have hc : rows.countP (fun p => p.status == "completed") ≤ rows.length :=
      List.countP_le_length _
    rcases Nat.eq_zero_or_pos rows.length with h0 | hpos
    · have hc0 : rows.countP (fun p => p.status == "completed") = 0 := by omega
      simp [roundPercent, h0, hc0]
    · apply roundPercent_nearest
      · exact_mod_cast hpos
      · rw [abs_of_nonneg (by positivity)]
        have : rows.countP (fun p => p.status == "completed") ≤ 2 ^ 40 := le_trans hc hle
        exact_mod_cast this

theorem getStats_aggregates_witness :
    |2 * ((List.filter (fun p => p.userId == 7) (statsStore 7).progress).length : Int) * 57
      - 200 * (((List.filter (fun p => p.userId == 7) (statsStore 7).progress).countP
          (fun p => p.status == "completed") : Nat) : Int)|
      ≤ ((List.filter (fun p => p.userId == 7) (statsStore 7).progress).length : Int) := by
  obtain ⟨breakdown, rate, heq, _, _, _, hnear⟩ := getStats_aggregates (statsStore 7) 7
  have hrate : rate = 57 := by
    have h1 : (getStats (statsStore 7) 7).1
        = ⟨200, .stats 40 23 [("completed", 23), ("reading", 17)] 57⟩ := by decide
    rw [heq] at h1
    simp only [Response.mk.injEq, Body.stats.injEq, true_and] at h1
    exact h1.2.2.2
  rw [← hrate]
  exact hnear (by decide)

/-- C16 as stated fails: for a user with 40 rows, 23 of them completed, the exact rate is
57.5, which `round` takes to 58, but the double-precision product `(23 / 40) * 100` is
57.49999999999999 and GET /api/stats answers `completionRate = 57`. -/
theorem completionRate_of_23_of_40_is_57 :
    (getStats (statsStore 7) 7).1
      = ⟨200, .stats 40 23 [("completed", 23), ("reading", 17)] 57⟩ ∧
    specPercentage 23 40 = 58 := by
  decide

/-! ## Catalog Resolver: the create path and its defaults (C21) -/

theorem bookToSave_validate_fields (g : GoogleBookData) (env : Env) :
    (bookToSave g).validate env = .ok
      { _id := env.bookId,
        title := strOr g.title "Título no disponible",
        author := strOr g.author "Autor desconocido",
        description := some (strOr g.description ""),
        genre := some (strOr g.genre ""),
        totalPages := numOr g.totalPages 0,
        coverImage := none,
        thumbnail := some (strOr g.thumbnail ""),
        isbn := some (strOr g.isbn ""),
        publishedDate := some (strOr g.publishedDate ""),
        publisher := some (strOr g.publisher ""),
        googleId := some (strOr g.googleId ""),
        previewLink := some (strOr g.previewLink ""),
        rating := none,
        createdAt := env.now } := by
  have ht : strOr g.title "Título no disponible" ≠ "" := strOr_ne_empty _ (by decide)
  have ha : strOr g.author "Autor desconocido" ≠ "" := strOr_ne_empty _ (by decide)
  simp only [bookToSave, BookDoc.validate, ratingOk]
  rw [if_neg (by simp [ht, ha])]
  rfl

theorem strOr_none (d : String) : strOr none d = d := by
  simp [strOr]

theorem numOr_some_of_ne {n : Int} (d : Int) (h : n ≠ 0) : numOr (some n) d = n := by
  simp [numOr, h]

/-- C21 (amended). Create path of add-from-google: for every candidate that matches no
existing Book, served with a freshly generated id, the request appends exactly one Book to
the catalog.  A text field of the candidate that is present and non-empty is stored as it
is; a missing or empty `title` is stored as "Título no disponible", a missing or empty
`author` as "Autor desconocido", every other missing or empty text field as the empty
string; a missing `totalPages` is stored as 0. -/
theorem addFromGoogle_create_defaults (s : Store) (user : ObjectId) (g : GoogleBookData)
    (env : Env) (hnone : findExistingBook s g = none)
    (hfresh : s.hasBookId env.bookId = false) :
    ∃ b, resolveBook s g env = .ok (b, { s with books := s.books ++ [b] }) ∧
      (addFromGoogle s user (some g) env).2.books = s.books ++ [b] ∧
      b._id = env.bookId ∧
      b.title = strOr g.title "Título no disponible" ∧
      b.author = strOr g.author "Autor desconocido" ∧
      b.totalPages = numOr g.totalPages 0 ∧
      b.genre = some (strOr g.genre "") ∧
      b.isbn = some (strOr g.isbn "") ∧
      b.description = some (strOr g.description "") ∧
      b.thumbnail = some (strOr g.thumbnail "") ∧
      b.googleId = some (strOr g.googleId "") ∧
      b.publishedDate = some (strOr g.publishedDate "") ∧
      b.publisher = some (strOr g.publisher "") ∧
      b.previewLink = some (strOr g.previewLink "") ∧
      (∀ (v d : String), v ≠ "" → strOr (some v) d = v) ∧
      (∀ d : String, strOr none d = d ∧ strOr (some "") d = d) ∧
      (∀ n : Int, numOr (some n) 0 = n) ∧ numOr none 0 = 0 := by
  have hv := bookToSave_validate_fields g env
  have hr : resolveBook s g env = .ok
      ({ _id := env.bookId,
         title := strOr g.title "Título no disponible",
         author := strOr g.author "Autor desconocido",
         description := some (strOr g.description ""),
         genre := some (strOr g.genre ""),
         totalPages := numOr g.totalPages 0,
         coverImage := none,
         thumbnail := some (strOr g.thumbnail ""),
         isbn := some (strOr g.isbn ""),
         publishedDate := some (strOr g.publishedDate ""),
         publisher := some (strOr g.publisher ""),
         googleId := some (strOr g.googleId ""),
         previewLink := some (strOr g.previewLink ""),
         rating := none,
         createdAt := env.now },
       { s with books := s.books ++
          [{ _id := env.bookId,
             title := strOr g.title "Título no disponible",
             author := strOr g.author "Autor desconocido",
             description := some (strOr g.description ""),
             genre := some (strOr g.genre ""),
             totalPages := numOr g.totalPages 0,
             coverImage := none,
             thumbnail := some (strOr g.thumbnail ""),
             isbn := some (strOr g.isbn ""),
             publishedDate := some (strOr g.publishedDate ""),
             publisher := some (strOr g.publisher ""),
             googleId := some (strOr g.googleId ""),
             previewLink := some (strOr g.previewLink ""),
             rating := none,
             createdAt := env.now }] }) := by
    simp [resolveBook, hnone, Store.saveNewBook, hv, hfresh]
  refine ⟨_, hr, ?_, rfl, rfl, rfl, rfl, rfl, rfl, rfl, rfl, rfl, rfl, rfl, rfl, ?_, ?_, ?_, ?_⟩
  · rw [addFromGoogle_of_resolve user hr, attachProgress_books]
  · exact fun v d h => strOr_some_of_ne d h
  · exact fun d => ⟨strOr_none d, by simp [strOr]⟩
  · intro n
    by_cases h : n = 0
    · simp [numOr, h]
    · exact numOr_some_of_ne 0 h
  · simp [numOr]

/-- Witness for C21: a candidate with a title and a googleId but no author and no page
count, added to the empty store. -/
theorem addFromGoogle_create_defaults_witness :
    ∃ b, resolveBook emptyStore { title := some "Dune", googleId := some "G" } ⟨1, 1, 5⟩ =
        .ok (b, { emptyStore with books := emptyStore.books ++ [b] }) ∧
      (addFromGoogle emptyStore 7 (some { title := some "Dune", googleId := some "G" })
        ⟨1, 1, 5⟩).2.books = emptyStore.books ++ [b] ∧
      b.title = "Dune" ∧ b.author = "Autor desconocido" ∧ b.totalPages = 0 ∧
      b.isbn = some "" ∧ b.googleId = some "G" := by
  obtain ⟨b, h1, h2, _, h4, h5, h6, _, h8, _, _, h11, _⟩ :=
    addFromGoogle_create_defaults emptyStore 7 { title := some "Dune", googleId := some "G" }
      ⟨1, 1, 5⟩ (by decide) (by decide)
  exact ⟨b, h1, h2, h4, h5, h6, h8, h11⟩

/-- Counterexample for C21 as stated: a candidate without title and author is stored with
the placeholders "Título no disponible" and "Autor desconocido", not with empty strings. -/
theorem addFromGoogle_missing_title_gets_placeholder :
    (addFromGoogle emptyStore 7 (some { googleId := some "G" }) ⟨1, 1, 5⟩).2.books.map
        (fun b => (b.title, b.author, b.totalPages)) =
      [("Título no disponible", "Autor desconocido", 0)] ∧
    findExistingBook emptyStore { googleId := some "G" } = none := by
  decide

/-! ## Validation on the create paths (C22) -/

theorem validate_error_of_missing {body : BookDoc} (env : Env)
    (h : body.title = none ∨ body.title = some "" ∨ body.author = none ∨
      body.author = some "" ∨ body.totalPages = none ∨ ratingOk body.rating = false) :
    body.validate env = .error .validation := by
  unfold BookDoc.validate
  split
  · next t a n ht ha hn =>
    rw [ht, ha, hn] at h
    have h' : t = "" ∨ a = "" ∨ ratingOk body.rating = false := by
      rcases h with h | h | h | h | h | h
      · exact absurd h (by simp)
      · exact Or.inl (by simpa using h)
      · exact absurd h (by simp)
      · exact Or.inr (Or.inl (by simpa using h))
      · exact absurd h (by simp)
      · exact Or.inr (Or.inr h)
    rw [if_pos h']
  · rfl

/-- C22 (amended). Validation on the create paths.  `POST /api/books` answers 400 and leaves
the store as it was when the title or the author is absent or empty, when `totalPages` is
absent, or when `rating` lies outside `[0, 5]`.  `POST /api/books/add-from-google` applies
no shape check to a candidate that matches no existing Book: served with fresh ids, it
answers 201, and the store gains one Book and one ReadingProgress row. -/
theorem create_paths_validation (s : Store) (user : ObjectId) (env : Env) :
    (∀ body : BookDoc,
      (body.title = none ∨ body.title = some "" ∨ body.author = none ∨
        body.author = some "" ∨ body.totalPages = none ∨ ratingOk body.rating = false) →
      postBooks s user body env = (⟨400, .error "error.message"⟩, s)) ∧
    (∀ g : GoogleBookData, findExistingBook s g = none → env.fresh s →
      s.findProgress user env.bookId = none →
      ∃ b, addFromGoogle s user (some g) env =
        (⟨201, .book b⟩,
         ⟨s.books ++ [b], s.progress ++ [attachedRow env user env.bookId]⟩)) := by
  constructor
  · intro body h
    simp [postBooks, Store.saveNewBook, validate_error_of_missing env h, postBooksCatch]
  · intro g hnone hfresh hrow
    obtain ⟨b, hr, hid, _, _⟩ := resolveBook_create env hnone hfresh.1
    refine ⟨b, ?_⟩
    rw [addFromGoogle_of_resolve user hr]
    have hrow' : Store.findProgress { s with books := s.books ++ [b] } user b._id = none := by
      rw [hid]
      exact hrow
    have hp : Store.hasProgressId { s with books := s.books ++ [b] } env.progressId = false :=
      hfresh.2
    rw [attachProgress_first _ user b env hrow' hp, hid]
    rfl

/-- Witness for C22: a manual add without a title is refused, a Google candidate without a
title and without a page count is added. -/
theorem create_paths_validation_witness :
    postBooks emptyStore 7 { author := some "Herbert", totalPages := some 412 } ⟨1, 1, 5⟩ =
      (⟨400, .error "error.message"⟩, emptyStore) ∧
    ∃ b, addFromGoogle emptyStore 7 (some { googleId := some "G" }) ⟨1, 1, 5⟩ =
      (⟨201, .book b⟩,
       ⟨emptyStore.books ++ [b], emptyStore.progress ++ [attachedRow ⟨1, 1, 5⟩ 7 1]⟩) :=
  ⟨(create_paths_validation emptyStore 7 ⟨1, 1, 5⟩).1
      { author := some "Herbert", totalPages := some 412 } (Or.inl rfl),
   (create_paths_validation emptyStore 7 ⟨1, 1, 5⟩).2 { googleId := some "G" }
      (by decide) (by decide) (by decide)⟩

/-- Counterexample for C22 as stated: a Google candidate with no title, no author and no
page count creates a Book of 0 pages and a row, and answers 201. -/
theorem addFromGoogle_creates_without_shape_check :
    (addFromGoogle emptyStore 7 (some { googleId := some "G" }) ⟨1, 1, 5⟩).1.status = 201 ∧
    (addFromGoogle emptyStore 7 (some { googleId := some "G" }) ⟨1, 1, 5⟩).2.books.map
        (fun b => b.totalPages) = [0] ∧
    (addFromGoogle emptyStore 7 (some { googleId := some "G" })
        ⟨1, 1, 5⟩).2.progress.length = 1 := by
  decide

/-! ## Manual add without identity key (C23) -/

/-- C23. Manual add: for every store and every body that passes the schema validation
(title and author present and non-empty, `totalPages` present, `rating` in range) and
carries no `_id`, served with freshly generated ids, `POST /api/books` answers 201, appends
exactly one Book whose `_id` differs from that of every Book already in the store, whatever
titles and authors the store holds, and appends exactly one row of the caller on the new
Book with `currentPage = 0` and `status = reading`. -/
theorem postBooks_always_creates (s : Store) (user : ObjectId) (body : BookDoc) (env : Env)
    (t a : String) (n : Int)
    (ht : body.title = some t) (htne : t ≠ "") (ha : body.author = some a) (hane : a ≠ "")
    (hn : body.totalPages = some n) (hr : ratingOk body.rating = true)
    (hid : body._id = none) (hfresh : env.fresh s)
    (hrow : s.findProgress user env.bookId = none) :
    ∃ b r, postBooks s user body env =
        (⟨201, .book b⟩, ⟨s.books ++ [b], s.progress ++ [r]⟩) ∧
      (∀ b' ∈ s.books, b'._id ≠ b._id) ∧
      b.title = t ∧ b.author = a ∧ b.totalPages = n ∧ b.isbn = body.isbn ∧
      b.googleId = body.googleId ∧
      r.userId = user ∧ r.bookId = b._id ∧ r.currentPage = 0 ∧ r.status = "reading" := by
  have hv : body.validate env = .ok
      { _id := env.bookId, title := t, author := a, description := body.description,
        genre := body.genre, totalPages := n, coverImage := body.coverImage,
        thumbnail := body.thumbnail, isbn := body.isbn, publishedDate := body.publishedDate,
        publisher := body.publisher, googleId := body.googleId,
        previewLink := body.previewLink, rating := body.rating,
        createdAt := body.createdAt.getD env.now } := by
    simp [BookDoc.validate, ht, ha, hn, htne, hane, hr, hid]
  have hsave : s.saveNewBook body env = .ok
      ({ _id := env.bookId, title := t, author := a, description := body.description,
         genre := body.genre, totalPages := n, coverImage := body.coverImage,
         thumbnail := body.thumbnail, isbn := body.isbn,
         publishedDate := body.publishedDate, publisher := body.publisher,
         googleId := body.googleId, previewLink := body.previewLink, rating := body.rating,
         createdAt := body.createdAt.getD env.now },
       { s with books := s.books ++
          [{ _id := env.bookId, title := t, author := a, description := body.description,
             genre := body.genre, totalPages := n, coverImage := body.coverImage,
             thumbnail := body.thumbnail, isbn := body.isbn,
             publishedDate := body.publishedDate, publisher := body.publisher,
             googleId := body.googleId, previewLink := body.previewLink,
             rating := body.rating, createdAt := body.createdAt.getD env.now }] }) := by
    simp [Store.saveNewBook, hv, hfresh.1]
  have key : ∃ b : Book, s.saveNewBook body env = .ok (b, { s with books := s.books ++ [b] }) ∧
      b._id = env.bookId ∧ b.title = t ∧ b.author = a ∧ b.totalPages = n ∧
      b.isbn = body.isbn ∧ b.googleId = body.googleId :=
    ⟨_, hsave, rfl, rfl, rfl, rfl, rfl, rfl⟩
  obtain ⟨b, hs, hbid, h1, h2, h3, h4, h5⟩ := key
  refine ⟨b, attachedRow env user env.bookId, ?_, ?_, h1, h2, h3, h4, h5, rfl, hbid.symm, rfl,
    rfl⟩
  · have hp := saveNewProgress_reading_ok { s with books := s.books ++ [b] } user env.bookId
      env hfresh.2 hrow
    simp only [postBooks, hs, hbid, hp]
    rfl
  · intro b' hb' heq
    have := (hasBookId_eq_false_iff s env.bookId).mp hfresh.1 b' hb'
    rw [beq_eq_false_iff_ne] at this
    exact this (heq.trans hbid)

/-- Witness for C23: the store already holds a Book titled "Dune" by "Herbert"; a manual add
of the same title and author creates a second Book. -/
theorem postBooks_always_creates_witness :
    ∃ b r, postBooks ⟨[sampleBook 0 none none 412], [sampleRow 0 7 0]⟩ 7 (sampleBody 412)
          ⟨1, 1, 5⟩ =
        (⟨201, .book b⟩, ⟨[sampleBook 0 none none 412] ++ [b], [sampleRow 0 7 0] ++ [r]⟩) ∧
      (∀ b' ∈ [sampleBook 0 none none 412], b'._id ≠ b._id) ∧
      b.title = "Dune" ∧ b.author = "Herbert" ∧ b.totalPages = 412 ∧
      b.isbn = (sampleBody 412).isbn ∧ b.googleId = (sampleBody 412).googleId ∧
      r.userId = 7 ∧ r.bookId = b._id ∧ r.currentPage = 0 ∧ r.status = "reading" :=
  postBooks_always_creates ⟨[sampleBook 0 none none 412], [sampleRow 0 7 0]⟩ 7
    (sampleBody 412) ⟨1, 1, 5⟩ "Dune" "Herbert" 412 rfl (by decide) rfl (by decide) rfl rfl rfl
    (by decide) (by decide)

/-! ## Edit validation (C24) -/

/-- C24 (code defect). `PUT /api/books/:id` with `totalPages = 0` on a Book of 412 pages:
the guard `if (updateData.totalPages)` skips the range check for 0, the request answers
200 and the Book is stored with `totalPages = 0`.  The values -5 and 20000 are refused with
400 and leave the store as it was. -/
theorem putBook_accepts_zero_totalPages :
    putBook ⟨[sampleBook 0 none none 412], [sampleRow 0 7 0]⟩ (some 0)
        { totalPages := some 0 } =
      (⟨200, .book (sampleBook 0 none none 0)⟩,
       ⟨[sampleBook 0 none none 0], [sampleRow 0 7 0]⟩) ∧
    putBook ⟨[sampleBook 0 none none 412], [sampleRow 0 7 0]⟩ (some 0)
        { totalPages := some (-5) } =
      (⟨400, .error "validación básica"⟩,
       ⟨[sampleBook 0 none none 412], [sampleRow 0 7 0]⟩) ∧
    putBook ⟨[sampleBook 0 none none 412], [sampleRow 0 7 0]⟩ (some 0)
        { totalPages := some 20000 } =
      (⟨400, .error "validación básica"⟩,
       ⟨[sampleBook 0 none none 412], [sampleRow 0 7 0]⟩) := by
  decide

/-! ## Two add-from-google requests in flight (C26) -/

theorem runAlone_eq_addFromGoogle (c : AddCall) (s : Store) :
    runAlone c s =
      (.finished (addFromGoogle s c.user (some c.g) c.env).1,
       (addFromGoogle s c.user (some c.g) c.env).2) := by
  have h2 : addFromGoogleStep c.user c.g c.env
        (addFromGoogleStep c.user c.g c.env s .start).2
        (addFromGoogleStep c.user c.g c.env s .start).1 =
      (.afterLookups (findExistingBook s c.g), s) := rfl
  unfold runAlone
  simp only [h2]
  cases hfind : findExistingBook s c.g with
  | some b =>
    cases hrow : s.findProgress c.user b._id with
    | some p =>
      simp [addFromGoogleStep, addFromGoogle, resolveBook, attachProgress, hfind, hrow]
    | none =>
      cases hsave : s.saveNewProgress
          { userId := c.user, bookId := b._id, currentPage := 0, status := some "reading" }
          c.env with
      | error e =>
        simp [addFromGoogleStep, addFromGoogle, resolveBook, attachProgress, hfind, hrow, hsave]
      | ok r =>
        simp [addFromGoogleStep, addFromGoogle, resolveBook, attachProgress, hfind, hrow, hsave]
  | none =>
    cases hbook : s.saveNewBook (bookToSave c.g) c.env with
    | error e =>
      simp [addFromGoogleStep, addFromGoogle, resolveBook, attachProgress, hfind, hbook]
    | ok r =>
      obtain ⟨b, s1⟩ := r
      cases hrow : s1.findProgress c.user b._id with
      | some p =>
        simp [addFromGoogleStep, addFromGoogle, resolveBook, attachProgress, hfind, hbook, hrow]
      | none =>
        cases hsave : s1.saveNewProgress
            { userId := c.user, bookId := b._id, currentPage := 0, status := some "reading" }
            c.env with
        | error e =>
          simp [addFromGoogleStep, addFromGoogle, resolveBook, attachProgress, hfind, hbook,
            hrow, hsave]
        | ok r =>
          simp [addFromGoogleStep, addFromGoogle, resolveBook, attachProgress, hfind, hbook,
            hrow, hsave]

theorem interleave_sequential (c1 c2 : AddCall) (s : Store) :
    interleave c1 c2 [true, true, true, true, true, false, false, false, false, false]
        (.start, .start, s) =
      (.finished (addFromGoogle s c1.user (some c1.g) c1.env).1,
       .finished (addFromGoogle (addFromGoogle s c1.user (some c1.g) c1.env).2
          c2.user (some c2.g) c2.env).1,
       (addFromGoogle (addFromGoogle s c1.user (some c1.g) c1.env).2
          c2.user (some c2.g) c2.env).2) := by
  have h1 := runAlone_eq_addFromGoogle c1 s
  have h2 := runAlone_eq_addFromGoogle c2 (addFromGoogle s c1.user (some c1.g) c1.env).2
  unfold runAlone at h1 h2
  simp only at h1 h2
  simp only [interleave, h1, h2]

/-- C26 (code defect). Two add-from-google requests for the same candidate (googleId "G")
on the empty store, each served with its own fresh ids.  When both requests perform their
lookups before either saves, both take the create path: both answer 201, no uniqueness
violation occurs, and the catalog ends with two Books carrying googleId "G".  Run one after
the other, the same two requests leave one Book. -/
theorem interleaved_adds_create_two_books :
    ∃ b1 b2 t,
      interleave ⟨7, { title := some "Dune", googleId := some "G" }, ⟨1, 1, 5⟩⟩
          ⟨8, { title := some "Dune", googleId := some "G" }, ⟨2, 2, 6⟩⟩
          [true, true, false, false, true, false, true, true, false, false]
          (.start, .start, emptyStore) =
        (.finished ⟨201, .book b1⟩, .finished ⟨201, .book b2⟩, t) ∧
      b1._id ≠ b2._id ∧ b1.googleId = some "G" ∧ b2.googleId = some "G" ∧
      t.books = [b1, b2] ∧ t.countGoogleId "G" = 2 ∧ ¬ I4 t ∧
      (interleave ⟨7, { title := some "Dune", googleId := some "G" }, ⟨1, 1, 5⟩⟩
          ⟨8, { title := some "Dune", googleId := some "G" }, ⟨2, 2, 6⟩⟩
          [true, true, true, true, true, false, false, false, false, false]
          (.start, .start, emptyStore)).2.2.countGoogleId "G" = 1 :=
  ⟨_, _, _, rfl, by decide, rfl, rfl, rfl, by decide, by decide, by decide⟩

/-! ## Referential integrity and failed upserts (C28, C29) -/

/-- C28 (code defect). One `POST /api/progress` with a `bookId` that names no Book, sent to
the empty store: the reachable store that results holds a row whose `bookId` is the id of
no Book. -/
theorem reachable_store_breaks_refIntegrity :
    Reachable ⟨[], [{ attachedRow ⟨1, 1, 5⟩ 7 99 with currentPage := 1 }]⟩ ∧
    run emptyStore [⟨7, ⟨1, 1, 5⟩, .postProgress { bookId := some 99, currentPage := 1 }⟩] =
      ⟨[], [{ attachedRow ⟨1, 1, 5⟩ 7 99 with currentPage := 1 }]⟩ ∧
    ¬ RefIntegrity ⟨[], [{ attachedRow ⟨1, 1, 5⟩ 7 99 with currentPage := 1 }]⟩ :=
  ⟨⟨[⟨7, ⟨1, 1, 5⟩, .postProgress { bookId := some 99, currentPage := 1 }⟩], by decide⟩,
   by decide, by decide⟩

/-- C29 (code defect). `POST /api/progress` for a `bookId` that names no Book answers 400,
yet the row has been inserted: the store after the request differs from the store before
it. -/
theorem postProgress_error_after_write :
    postProgress emptyStore 7 { bookId := some 99, currentPage := 1 } ⟨1, 1, 5⟩ =
      (⟨400, .error "error.message"⟩,
       ⟨[], [{ attachedRow ⟨1, 1, 5⟩ 7 99 with currentPage := 1 }]⟩) ∧
    (postProgress emptyStore 7 { bookId := some 99, currentPage := 1 } ⟨1, 1, 5⟩).2 ≠
      emptyStore ∧
    postProgress ⟨[sampleBook 0 none none 412], [sampleRow 0 7 99]⟩ 7
        { bookId := some 99, currentPage := 30 } ⟨1, 1, 5⟩ =
      (⟨400, .error "error.message"⟩,
       ⟨[sampleBook 0 none none 412],
        [{ sampleRow 0 7 99 with currentPage := 30, updatedAt := 5 }]⟩) := by
  decide

/-! ## Listing the ledger (C25) -/

theorem userProgress_perm (s : Store) (user : ObjectId) :
    (s.userProgress user).Perm (s.progress.filter (fun p => p.userId == user)) :=
  List.perm_insertionSort _ _

theorem userProgress_sorted (s : Store) (user : ObjectId) :
    (s.userProgress user).Sorted (fun a b => a.updatedAt ≥ b.updatedAt) := by
  haveI : IsTotal ReadingProgress (fun a b => a.updatedAt ≥ b.updatedAt) :=
    ⟨fun a b => le_total b.updatedAt a.updatedAt⟩
  haveI : IsTrans ReadingProgress (fun a b => a.updatedAt ≥ b.updatedAt) :=
    ⟨fun _ _ _ hab hbc => le_trans hbc hab⟩
  exact List.sorted_insertionSort _ _

theorem mem_userProgress {s : Store} {user : ObjectId} {p : ReadingProgress} :
    p ∈ s.userProgress user ↔ p ∈ s.progress ∧ p.userId = user := by
  rw [(userProgress_perm s user).mem_iff]
  simp [List.mem_filter]

theorem map_fst_filterMap_of_all (s : Store) :
    ∀ rows : List ReadingProgress,
      rows.all (fun p => (s.findBookById p.bookId).isSome) = true →
      (rows.filterMap (fun p => (s.findBookById p.bookId).map
          (fun b => (p, b, roundPercent p.currentPage b.totalPages)))).map (fun x => x.1) =
        rows ∧
      (rows.filterMap (fun p => (s.findBookById p.bookId).map
          (fun b => (p, b, roundPercent p.currentPage b.totalPages)))).map (fun x => x.2.1) =
        rows.filterMap (fun p => s.findBookById p.bookId)
  | [], _ => ⟨rfl, rfl⟩
  | p :: ps, h => by
    simp only [List.all_cons, Bool.and_eq_true] at h
    obtain ⟨b, hb⟩ := Option.isSome_iff_exists.mp h.1
    obtain ⟨ih1, ih2⟩ := map_fst_filterMap_of_all s ps h.2
    constructor
    · rw [List.filterMap_cons_some (by rw [hb]; rfl), List.map_cons, ih1]
    · rw [List.filterMap_cons_some (by rw [hb]; rfl), List.map_cons, ih2]
      exact (List.filterMap_cons_some (f := fun q : ReadingProgress => s.findBookById q.bookId) hb).symm

/-- The listing routes on a store in which every row of the caller references an existing
Book: `GET /api/progress` answers 200 with one item for each row of the caller, in the
order of the query (a permutation of the caller's rows, sorted by `updatedAt` descending),
each item carrying its Book and the derived percentage; `GET /api/books` answers with the
Books of these items in the same order, and `total` is their number. -/
theorem getProgress_lists_rows (s : Store) (user : ObjectId)
    (h : ∀ p ∈ s.progress, p.userId = user → s.hasBookId p.bookId = true) :
    ∃ items : List (ReadingProgress × Book × Int),
      getProgress s user = (⟨200, .progressList items⟩, s) ∧
      items.map (fun x => x.1) = s.userProgress user ∧
      (s.userProgress user).Perm (s.progress.filter (fun p => p.userId == user)) ∧
      (s.userProgress user).Sorted (fun a b => a.updatedAt ≥ b.updatedAt) ∧
      (∀ p b pct, (p, b, pct) ∈ items →
        s.findBookById p.bookId = some b ∧ pct = roundPercent p.currentPage b.totalPages) ∧
      getBooks s user =
        (⟨200, .books (items.map (fun x => x.2.1)) (items.map (fun x => x.2.1)).length⟩, s) := by
  have hall : (s.userProgress user).all (fun p => (s.findBookById p.bookId).isSome) = true := by
    rw [List.all_eq_true]
    intro p hp
    obtain ⟨hmem, hu⟩ := mem_userProgress.mp hp
    have hb := h p hmem hu
    simp only [Store.hasBookId, List.any_eq_true] at hb
    simp only [Store.findBookById, List.find?_isSome]
    exact hb
  obtain ⟨m1, m2⟩ := map_fst_filterMap_of_all s (s.userProgress user) hall
  have hget : getProgress s user =
      (⟨200, .progressList ((s.userProgress user).filterMap (fun p =>
        (s.findBookById p.bookId).map
          (fun b => (p, b, roundPercent p.currentPage b.totalPages))))⟩, s) := by
    unfold getProgress
    simp only
    rw [if_pos hall]
  refine ⟨_, hget, m1, userProgress_perm s user, userProgress_sorted s user, ?_, ?_⟩
  · exact getProgress_rows (by rw [hget])
  · unfold getBooks
    simp only
    rw [m2]

/-- C25 (code defect). After a manual add and one `POST /api/progress` with a `bookId` that
names no Book, the caller holds two rows; `GET /api/progress` answers 500 instead of the
list of these rows, while `GET /api/books` skips the row whose Book is missing and answers
200 with the one Book. -/
theorem getProgress_fails_on_missing_book :
    run emptyStore
        [⟨7, ⟨0, 0, 3⟩, .postBooks (sampleBody 412)⟩,
         ⟨7, ⟨1, 1, 5⟩, .postProgress { bookId := some 99, currentPage := 1 }⟩] =
      ⟨[{ sampleBook 0 none none 412 with createdAt := 3 }],
       [attachedRow ⟨0, 0, 3⟩ 7 0,
        { attachedRow ⟨1, 1, 5⟩ 7 99 with currentPage := 1 }]⟩ ∧
    (getProgress
      ⟨[{ sampleBook 0 none none 412 with createdAt := 3 }],
       [attachedRow ⟨0, 0, 3⟩ 7 0,
        { attachedRow ⟨1, 1, 5⟩ 7 99 with currentPage := 1 }]⟩ 7).1 =
      ⟨500, .error "error.message"⟩ ∧
    (getBooks
      ⟨[{ sampleBook 0 none none 412 with createdAt := 3 }],
       [attachedRow ⟨0, 0, 3⟩ 7 0,
        { attachedRow ⟨1, 1, 5⟩ 7 99 with currentPage := 1 }]⟩ 7).1 =
      ⟨200, .books [{ sampleBook 0 none none 412 with createdAt := 3 }] 1⟩ := by
  decide

/-! ## Per-user isolation of the ledger (C27) -/

theorem filter_append_of_false {α : Type} (f : α → Bool) (l : List α) {a : α}
    (h : f a = false) : (l ++ [a]).filter f = l.filter f := by
  simp [List.filter_append, h]

theorem filter_deleteFirst_of_imp {α : Type} (f P : α → Bool) (l : List α)
    (h : ∀ a ∈ l, P a = true → f a = false) :
    (deleteFirst P l).filter f = l.filter f := by
  induction l with
  | nil => rfl
  | cons a as ih =>
    unfold deleteFirst
    split_ifs with hP
    · rw [List.filter_cons_of_neg (by simp [h a (List.mem_cons_self a as) hP])]
    · simp only [List.filter_cons]
      rw [ih (fun b hb => h b (List.mem_cons_of_mem a hb))]

theorem filter_updateFirstProgress (f : ReadingProgress → Bool) (p : ReadingProgress)
    (l : List ReadingProgress) (hp : f p = false)
    (h : ∀ q ∈ l, q._id = p._id → f q = false) :
    (updateFirstProgress p l).filter f = l.filter f := by
  induction l with
  | nil => rfl
  | cons a as ih =>
    unfold updateFirstProgress
    split_ifs with hid
    · rw [List.filter_cons_of_neg (by simp [hp]),
        List.filter_cons_of_neg (by simp [h a (List.mem_cons_self a as) hid])]
    · simp only [List.filter_cons]
      rw [ih (fun b hb => h b (List.mem_cons_of_mem a hb))]

theorem not_other_of_userId {p : ReadingProgress} {user : ObjectId} (h : p.userId = user) :
    (fun q : ReadingProgress => q.userId != user) p = false := by
  simp [h]

theorem attachProgress_rowsOfOthers (s : Store) (user : ObjectId) (b : Book) (env : Env) :
    (attachProgress s user b env).2.rowsOfOthers user = s.rowsOfOthers user := by
  rcases attachProgress_progress s user b env with h | ⟨p, h, _, hu, _⟩
  · rw [h]
  · rw [h]
    exact filter_append_of_false _ s.progress (not_other_of_userId hu)

theorem addFromGoogle_rowsOfOthers (s : Store) (user : ObjectId)
    (g : Option GoogleBookData) (env : Env) :
    (addFromGoogle s user g env).2.rowsOfOthers user = s.rowsOfOthers user := by
  unfold addFromGoogle
  split
  · rfl
  · split
    · rfl
    · next b s1 hres =>
      rw [attachProgress_rowsOfOthers]
      rcases resolveBook_spec hres with ⟨hs, _⟩ | ⟨_, hsave⟩
      · rw [hs]
      · rw [(saveNewBook_spec hsave).1]
        rfl

theorem postBooks_rowsOfOthers (s : Store) (user : ObjectId) (body : BookDoc) (env : Env) :
    (postBooks s user body env).2.rowsOfOthers user = s.rowsOfOthers user := by
  unfold postBooks
  split
  · rfl
  · next b s1 hsave =>
    have hs1 : s1.rowsOfOthers user = s.rowsOfOthers user := by
      rw [(saveNewBook_spec hsave).1]
      rfl
    split
    · exact hs1
    · next p s2 hrow =>
      obtain ⟨hs2, _, hu, _⟩ := saveNewProgress_spec hrow
      rw [hs2, ← hs1]
      exact filter_append_of_false _ s1.progress (not_other_of_userId hu)

theorem putBook_progress (s : Store) (id : Option ObjectId) (u : BookUpdate) :
    (putBook s id u).2.progress = s.progress := by
  unfold putBook
  split
  · rfl
  · split_ifs
    · rfl
    · simp only
      split_ifs
      · rfl
      · split <;> rfl

theorem deleteBook_rowsOfOthers (s : Store) (user : ObjectId) (id : Option ObjectId)
    (hid : (s.progress.map (fun p => p._id)).Nodup) :
    (deleteBook s user id).2.rowsOfOthers user = s.rowsOfOthers user := by
  unfold deleteBook
  split
  · rfl
  · next bookId =>
    split
    · rfl
    · next r hr =>
      obtain ⟨hmem, hu, _⟩ := findProgress_spec hr
      have key : (deleteFirst (fun p : ReadingProgress => p._id == r._id) s.progress).filter
          (fun q => q.userId != user) = s.progress.filter (fun q => q.userId != user) := by
        apply filter_deleteFirst_of_imp
        intro q hq hqr
        have hq' : q = r := eq_of_mem_of_id_eq hid hmem hq (by simpa using hqr)
        rw [hq']
        exact not_other_of_userId hu
      simp only
      split_ifs
      · exact key
      · exact key

theorem deleteProgress_rowsOfOthers (s : Store) (user : ObjectId) (id : Option ObjectId) :
    (deleteProgress s user id).2.rowsOfOthers user = s.rowsOfOthers user := by
  unfold deleteProgress
  split
  · rfl
  · split
    · rfl
    · apply filter_deleteFirst_of_imp
      intro q _ hq
      simp only [Bool.and_eq_true, beq_iff_eq] at hq
      exact not_other_of_userId hq.2

theorem postProgress_rowsOfOthers (s : Store) (user : ObjectId) (body : ProgressBody)
    (env : Env) (hid : (s.progress.map (fun p => p._id)).Nodup) :
    (postProgress s user body env).2.rowsOfOthers user = s.rowsOfOthers user := by
  unfold postProgress
  split
  · rfl
  · next bookId =>
    split
    · next r hr =>
      obtain ⟨hmem, hu, _⟩ := findProgress_spec hr
      simp only
      split
      · rfl
      · next s1 hsave =>
        rw [(saveProgress_spec hsave).1]
        apply filter_updateFirstProgress
        · exact not_other_of_userId hu
        · intro q hq hqr
          have hq' : q = r := eq_of_mem_of_id_eq hid hmem hq hqr
          rw [hq']
          exact not_other_of_userId hu
    · split
      · rfl
      · next p s1 hsave =>
        obtain ⟨hs1, _, hu, _⟩ := saveNewProgress_spec hsave
        rw [hs1]
        exact filter_append_of_false _ s.progress (not_other_of_userId hu)

/-- C27. Per-user isolation of the ledger: for every store whose rows carry distinct `_id`s
(the `_id` index), every user `u` and every request of `u` to any route (manual add,
add-from-google, edit, progress upsert, delete book, delete progress, and the read-only
routes), the rows whose `userId` differs from `u` are the same rows, in the same order and
with the same contents, before and after the request. -/
theorem handle_preserves_rows_of_others (s : Store) (u : ObjectId) (env : Env)
    (req : Request) (hid : (s.progress.map (fun p => p._id)).Nodup) :
    (handle s u env req).2.rowsOfOthers u = s.rowsOfOthers u := by
  cases req with
  | addFromGoogle g => exact addFromGoogle_rowsOfOthers s u g env
  | postBooks body => exact postBooks_rowsOfOthers s u body env
  | putBook id upd =>
    show (putBook s id upd).2.progress.filter _ = _
    rw [putBook_progress]
    rfl
  | deleteBook id => exact deleteBook_rowsOfOthers s u id hid
  | deleteProgress id => exact deleteProgress_rowsOfOthers s u id
  | postProgress body => exact postProgress_rowsOfOthers s u body env hid
  | getBooks => rfl
  | getProgress =>
    show (getProgress s u).2.rowsOfOthers u = _
    rw [getProgress_store]
  | getStats => rfl

/-- Witness for C27: users 7 and 8 both hold a row on Book 0; user 7 deletes the book from
their library, and the row of user 8 is the one row of another user before and after. -/
theorem handle_preserves_rows_of_others_witness :
    (handle ⟨[sampleBook 0 none none 412], [sampleRow 0 7 0, sampleRow 1 8 0]⟩ 7 ⟨2, 2, 6⟩
        (.deleteBook (some 0))).2.rowsOfOthers 7 =
      Store.rowsOfOthers ⟨[sampleBook 0 none none 412], [sampleRow 0 7 0, sampleRow 1 8 0]⟩ 7 ∧
    Store.rowsOfOthers ⟨[sampleBook 0 none none 412], [sampleRow 0 7 0, sampleRow 1 8 0]⟩ 7 =
      [sampleRow 1 8 0] :=
  ⟨handle_preserves_rows_of_others
      ⟨[sampleBook 0 none none 412], [sampleRow 0 7 0, sampleRow 1 8 0]⟩ 7 ⟨2, 2, 6⟩
      (.deleteBook (some 0)) (by decide),
   by decide⟩

/-! ## The derived percentage is a valid percent (C30) -/

theorem rneDiv_tie_even (n : Nat) {d : Nat} (hd : 0 < d) :
    (2 * n = (2 * rneDiv n d + 1) * d → rneDiv n d % 2 = 0) ∧
    (2 * n + d = 2 * rneDiv n d * d → rneDiv n d % 2 = 0) := by
  have h1 := Nat.div_add_mod n d
  have h2 := Nat.mod_lt n hd
  have h3 : (2 * (n / d) + 1) * d = 2 * (d * (n / d)) + d := by ring
  have h4 : 2 * (n / d) * d = 2 * (d * (n / d)) := by ring
  have h5 : (2 * (n / d + 1) + 1) * d = 2 * (d * (n / d)) + 3 * d := by ring
  have h6 : 2 * (n / d + 1) * d = 2 * (d * (n / d)) + 2 * d := by ring
  unfold rneDiv
  simp only
  split_ifs with c1 c2 c3
  · simp only [h3, h4]
    constructor <;> intro h <;> omega
  · simp only [h5, h6]
    constructor <;> intro h <;> omega
  · exact ⟨fun _ => c3, fun _ => c3⟩
  · have : (n / d + 1) % 2 = 0 := by omega
    exact ⟨fun _ => this, fun _ => this⟩

/-- Rounding to nearest, ties to even, is monotone in the quotient. -/
theorem rneDiv_mono {n1 d1 n2 d2 : Nat} (hd1 : 0 < d1) (hd2 : 0 < d2)
    (h : n1 * d2 ≤ n2 * d1) : rneDiv n1 d1 ≤ rneDiv n2 d2 := by
  by_contra hlt
  push_neg at hlt
  obtain ⟨a1, _⟩ := rneDiv_spec n1 hd1
  obtain ⟨_, b2⟩ := rneDiv_spec n2 hd2
  obtain ⟨_, t1⟩ := rneDiv_tie_even n1 hd1
  obtain ⟨t2, _⟩ := rneDiv_tie_even n2 hd2
  generalize rneDiv n1 d1 = m1 at *
  generalize rneDiv n2 d2 = m2 at *
  have hd1Q : (0 : ℚ) < d1 := by exact_mod_cast hd1
  have hd2Q : (0 : ℚ) < d2 := by exact_mod_cast hd2
  have hQ : (n1 : ℚ) / d1 ≤ (n2 : ℚ) / d2 := by
    rw [div_le_div_iff₀ hd1Q hd2Q]
    exact_mod_cast h
  have a1Q : (m1 : ℚ) ≤ (n1 : ℚ) / d1 + 1 / 2 := by
    have : 2 * ((m1 : ℚ) * d1) ≤ 2 * n1 + d1 := by exact_mod_cast a1
    rw [div_add_div _ _ hd1Q.ne' (by norm_num), le_div_iff₀ (by positivity)]
    linarith
  have b2Q : (n2 : ℚ) / d2 ≤ (m2 : ℚ) + 1 / 2 := by
    have : 2 * (n2 : ℚ) ≤ 2 * ((m2 : ℚ) * d2) + d2 := by exact_mod_cast b2
    rw [div_le_iff₀ hd2Q]
    linarith
  have hltQ : (m2 : ℚ) + 1 ≤ m1 := by exact_mod_cast hlt
  have e1 : (m1 : ℚ) = (n1 : ℚ) / d1 + 1 / 2 := by linarith
  have e2 : (n2 : ℚ) / d2 = (m2 : ℚ) + 1 / 2 := by linarith
  have e3 : (m1 : ℚ) = m2 + 1 := by linarith
  have f1 : 2 * n1 + d1 = 2 * m1 * d1 := by
    have : (2 : ℚ) * n1 + d1 = 2 * m1 * d1 := by
      rw [e1]
      field_simp
      ring
    exact_mod_cast this
  have f2 : 2 * n2 = (2 * m2 + 1) * d2 := by
    have : (2 : ℚ) * n2 = (2 * m2 + 1) * d2 := by
      have := (div_eq_iff hd2Q.ne').mp e2
      linarith
    exact_mod_cast this
  have g1 := t1 f1
  have g2 := t2 f2
  have g3 : m1 = m2 + 1 := by exact_mod_cast e3
  omega

/-- The mantissa of a double lies in `[2 ^ 52, 2 ^ 53]`. -/
theorem flPos_mantissa_bounds {n d : Nat} (hn : 0 < n) (hd : 0 < d) :
    2 ^ 52 ≤ (flPos n d).1 ∧ (flPos n d).1 ≤ 2 ^ 53 := by
  obtain ⟨hE1, hE2⟩ := ratioLog2_spec hn hd
  have hm := flPos_mantissa (n := n) hd
  generalize (flPos n d).1 = m at hm ⊢
  generalize ratioLog2 n d = E at hE1 hE2 hm
  generalize (n : ℚ) / d = q at hE1 hE2 hm
  have hP : (0 : ℚ) < 2 ^ (52 - E) := by positivity
  have hPE : (2 : ℚ) ^ (52 - E) * 2 ^ E = 2 ^ 52 := by
    rw [← zpow_add₀ (by norm_num)]
    norm_num
  have hPE1 : (2 : ℚ) ^ (52 - E) * 2 ^ (E + 1) = 2 ^ 53 := by
    rw [← zpow_add₀ (by norm_num), show 52 - E + (E + 1) = (53 : Int) by ring]
    norm_num
  have hlo : (2 : ℚ) ^ 52 ≤ q * 2 ^ (52 - E) := by
    rw [← hPE, mul_comm]
    exact mul_le_mul_of_nonneg_right hE1 hP.le
  have hhi : q * 2 ^ (52 - E) < (2 : ℚ) ^ 53 := by
    rw [← hPE1, mul_comm]
    exact mul_lt_mul_of_pos_left hE2 hP
  obtain ⟨hm1, hm2⟩ := abs_le.mp hm
  constructor
  · have : ((2 ^ 52 - 1 : Nat) : ℚ) < (m : ℚ) := by
      push_cast
      linarith
    have := Nat.cast_lt.mp this
    omega
  · have : (m : ℚ) < ((2 ^ 53 + 1 : Nat) : ℚ) := by
      push_cast
      linarith
    have := Nat.cast_lt.mp this
    omega

theorem ratioLog2_mono {n1 d1 n2 d2 : Nat} (hn1 : 0 < n1) (hd1 : 0 < d1) (hn2 : 0 < n2)
    (hd2 : 0 < d2) (h : (n1 : ℚ) / d1 ≤ (n2 : ℚ) / d2) :
    ratioLog2 n1 d1 ≤ ratioLog2 n2 d2 := by
  obtain ⟨a1, _⟩ := ratioLog2_spec hn1 hd1
  obtain ⟨_, b2⟩ := ratioLog2_spec hn2 hd2
  have hlt : (2 : ℚ) ^ ratioLog2 n1 d1 < 2 ^ (ratioLog2 n2 d2 + 1) :=
    lt_of_le_of_lt (le_trans a1 h) b2
  have := (zpow_lt_zpow_iff_right₀ (by norm_num : (1 : ℚ) < 2)).mp hlt
  omega

/-- Rounding a positive quotient to a double is monotone. -/
theorem flPos_mono {n1 d1 n2 d2 : Nat} (hn1 : 0 < n1) (hd1 : 0 < d1) (hn2 : 0 < n2)
    (hd2 : 0 < d2) (h : (n1 : ℚ) / d1 ≤ (n2 : ℚ) / d2) :
    ((flPos n1 d1).1 : ℚ) * (2 : ℚ) ^ (flPos n1 d1).2 ≤
      ((flPos n2 d2).1 : ℚ) * (2 : ℚ) ^ (flPos n2 d2).2 := by
  have hE := ratioLog2_mono hn1 hd1 hn2 hd2 h
  obtain ⟨_, hm1⟩ := flPos_mantissa_bounds hn1 hd1
  obtain ⟨hm2, _⟩ := flPos_mantissa_bounds hn2 hd2
  have hd1Q : (0 : ℚ) < d1 := by exact_mod_cast hd1
  have hd2Q : (0 : ℚ) < d2 := by exact_mod_cast hd2
  have hcross : n1 * d2 ≤ n2 * d1 := by
    have := (div_le_div_iff₀ hd1Q hd2Q).mp h
    exact_mod_cast this
  rcases lt_or_eq_of_le hE with hlt | heq
  · rw [flPos_snd, flPos_snd]
    have hm1Q : ((flPos n1 d1).1 : ℚ) ≤ 2 ^ 53 := by exact_mod_cast hm1
    have hm2Q : (2 : ℚ) ^ 52 ≤ ((flPos n2 d2).1 : ℚ) := by exact_mod_cast hm2
    generalize (flPos n1 d1).1 = m1 at hm1Q ⊢
    generalize (flPos n2 d2).1 = m2 at hm2Q ⊢
    generalize ratioLog2 n1 d1 = E1 at hlt ⊢
    generalize ratioLog2 n2 d2 = E2 at hlt ⊢
    have p1 : (0 : ℚ) < 2 ^ (-(52 - E1)) := by positivity
    have p2 : (0 : ℚ) < 2 ^ (-(52 - E2)) := by positivity
    have s1 : (2 : ℚ) ^ 53 * 2 ^ (-(52 - E1)) = 2 ^ (E1 + 1) := by
      rw [show (2 : ℚ) ^ 53 = 2 ^ (53 : Int) by norm_num, ← zpow_add₀ (by norm_num)]
      congr 1
      ring
    have s2 : (2 : ℚ) ^ 52 * 2 ^ (-(52 - E2)) = 2 ^ E2 := by
      rw [show (2 : ℚ) ^ 52 = 2 ^ (52 : Int) by norm_num, ← zpow_add₀ (by norm_num)]
      congr 1
      ring
    have s3 : (2 : ℚ) ^ (E1 + 1) ≤ 2 ^ E2 :=
      zpow_le_zpow_right₀ (by norm_num) (by omega)
    calc (m1 : ℚ) * 2 ^ (-(52 - E1)) ≤ 2 ^ 53 * 2 ^ (-(52 - E1)) :=
          mul_le_mul_of_nonneg_right hm1Q p1.le
      _ = 2 ^ (E1 + 1) := s1
      _ ≤ 2 ^ E2 := s3
      _ = 2 ^ 52 * 2 ^ (-(52 - E2)) := s2.symm
      _ ≤ (m2 : ℚ) * 2 ^ (-(52 - E2)) := mul_le_mul_of_nonneg_right hm2Q p2.le
  · have hmant : (flPos n1 d1).1 ≤ (flPos n2 d2).1 := by
      unfold flPos
      simp only
      rw [heq]
      split_ifs with hs
      · apply rneDiv_mono hd1 hd2
        calc n1 * 2 ^ (52 - ratioLog2 n2 d2).toNat * d2
            = n1 * d2 * 2 ^ (52 - ratioLog2 n2 d2).toNat := by ring
          _ ≤ n2 * d1 * 2 ^ (52 - ratioLog2 n2 d2).toNat := Nat.mul_le_mul_right _ hcross
          _ = n2 * 2 ^ (52 - ratioLog2 n2 d2).toNat * d1 := by ring
      · apply rneDiv_mono (Nat.mul_pos hd1 (by positivity)) (Nat.mul_pos hd2 (by positivity))
        calc n1 * (d2 * 2 ^ (-(52 - ratioLog2 n2 d2)).toNat)
            = n1 * d2 * 2 ^ (-(52 - ratioLog2 n2 d2)).toNat := by ring
          _ ≤ n2 * d1 * 2 ^ (-(52 - ratioLog2 n2 d2)).toNat := Nat.mul_le_mul_right _ hcross
          _ = n2 * (d1 * 2 ^ (-(52 - ratioLog2 n2 d2)).toNat) := by ring
    rw [flPos_snd, flPos_snd, heq]
    have : ((flPos n1 d1).1 : ℚ) ≤ ((flPos n2 d2).1 : ℚ) := by exact_mod_cast hmant
    exact mul_le_mul_of_nonneg_right this (by positivity)

/-- The two roundings of `Math.round((a / b) * 100)` before `Math.round`, for positive `a`
and `b`: the double nearest to `100 * fl(a / b)`. -/
theorem scaled_mono {a1 a2 b : Nat} (ha1 : 0 < a1) (ha2 : 0 < a2) (hb : 0 < b)
    (h : a1 ≤ a2) :
    ((flPos (100 * (flPos a1 b).1 * 2 ^ (flPos a1 b).2.toNat)
        (2 ^ (-(flPos a1 b).2).toNat)).1 : ℚ) *
      (2 : ℚ) ^ (flPos (100 * (flPos a1 b).1 * 2 ^ (flPos a1 b).2.toNat)
        (2 ^ (-(flPos a1 b).2).toNat)).2 ≤
    ((flPos (100 * (flPos a2 b).1 * 2 ^ (flPos a2 b).2.toNat)
        (2 ^ (-(flPos a2 b).2).toNat)).1 : ℚ) *
      (2 : ℚ) ^ (flPos (100 * (flPos a2 b).1 * 2 ^ (flPos a2 b).2.toNat)
        (2 ^ (-(flPos a2 b).2).toNat)).2 := by
  have hbQ : (0 : ℚ) < b := by exact_mod_cast hb
  have hq : (a1 : ℚ) / b ≤ (a2 : ℚ) / b :=
    div_le_div_of_nonneg_right (by exact_mod_cast h) hbQ.le
  have hy := flPos_mono ha1 hb ha2 hb hq
  obtain ⟨hp1, _⟩ := flPos_spec ha1 hb
  obtain ⟨hp2, _⟩ := flPos_spec ha2 hb
  generalize flPos a1 b = y1 at hy hp1 ⊢
  generalize flPos a2 b = y2 at hy hp2 ⊢
  apply flPos_mono
  · positivity
  · positivity
  · positivity
  · positivity
  · have e : ∀ y : Nat × Int,
        (((100 * y.1 * 2 ^ y.2.toNat : Nat) : ℚ)) / ((2 ^ (-y.2).toNat : Nat) : ℚ) =
          100 * ((y.1 : ℚ) * (2 : ℚ) ^ y.2) := by
      intro y
      rw [← two_pow_toNat_div y.2]
      push_cast
      ring
    rw [e y1, e y2]
    linarith

theorem mathRound_mono {m1 m2 : Nat} {e1 e2 : Int}
    (h : (m1 : ℚ) * (2 : ℚ) ^ e1 ≤ (m2 : ℚ) * (2 : ℚ) ^ e2) :
    mathRound false m1 e1 ≤ mathRound false m2 e2 := by
  obtain ⟨a1, _⟩ := mathRound_spec false m1 e1
  obtain ⟨_, b2⟩ := mathRound_spec false m2 e2
  simp only [Bool.false_eq_true, if_false, Int.cast_natCast] at a1 b2
  have : ((mathRound false m1 e1 : Int) : ℚ) < (mathRound false m2 e2 : Int) + 1 := by
    linarith
  have : mathRound false m1 e1 < mathRound false m2 e2 + 1 := by exact_mod_cast this
  omega

theorem mathRound_nonneg (m : Nat) (e : Int) : 0 ≤ mathRound false m e := by
  obtain ⟨_, b⟩ := mathRound_spec false m e
  simp only [Bool.false_eq_true, if_false, Int.cast_natCast] at b
  have hp : (0 : ℚ) ≤ (m : ℚ) * (2 : ℚ) ^ e := by positivity
  have : ((-1 : Int) : ℚ) < (mathRound false m e : Int) := by
    push_cast
    linarith
  have := Int.cast_lt.mp this
  omega

theorem jsPercentExpr_pos_eq {a b : Int} (ha : 0 < a) (hb : 0 < b) :
    jsPercentExpr a b =
      mathRound false
        (flPos (100 * (flPos a.natAbs b.natAbs).1 * 2 ^ (flPos a.natAbs b.natAbs).2.toNat)
          (2 ^ (-(flPos a.natAbs b.natAbs).2).toNat)).1
        (flPos (100 * (flPos a.natAbs b.natAbs).1 * 2 ^ (flPos a.natAbs b.natAbs).2.toNat)
          (2 ^ (-(flPos a.natAbs b.natAbs).2).toNat)).2 := by
  unfold jsPercentExpr
  rw [if_neg ha.ne']
  have h1 : decide (a < 0) = false := by simpa using ha.le
  have h2 : decide (b < 0) = false := by simpa using hb.le
  simp only [h1, h2]
  rfl

/-- The double evaluation of the percentage is monotone in the page, for positive pages. -/
theorem jsPercentExpr_mono {a1 a2 b : Int} (ha1 : 0 < a1) (h : a1 ≤ a2) (hb : 0 < b) :
    jsPercentExpr a1 b ≤ jsPercentExpr a2 b := by
  have ha2 : 0 < a2 := lt_of_lt_of_le ha1 h
  rw [jsPercentExpr_pos_eq ha1 hb, jsPercentExpr_pos_eq ha2 hb]
  apply mathRound_mono
  apply scaled_mono
  · omega
  · omega
  · omega
  · omega

theorem jsPercentExpr_nonneg {a b : Int} (ha : 0 ≤ a) (hb : 0 < b) :
    0 ≤ jsPercentExpr a b := by
  rcases eq_or_lt_of_le ha with h0 | hpos
  · rw [← h0]
    simp [jsPercentExpr]
  · rw [jsPercentExpr_pos_eq hpos hb]
    exact mathRound_nonneg _ _

theorem ratioLog2_self {b : Nat} : ratioLog2 b b = 0 := by
  unfold ratioLog2
  rw [if_pos le_rfl]
  omega

theorem flPos_self {b : Nat} (hb : 0 < b) : flPos b b = (2 ^ 52, -52) := by
  unfold flPos
  simp only [ratioLog2_self]
  have h1 : b * 2 ^ 52 / b = 2 ^ 52 := Nat.mul_div_cancel_left _ hb
  have h2 : b * 2 ^ 52 % b = 0 := Nat.mul_mod_right _ _
  have h3 : rneDiv (b * 2 ^ 52) b = 2 ^ 52 := by
    unfold rneDiv
    simp only [h1, h2]
    rw [if_pos (by omega)]
  have h4 : rneDiv (b * 4503599627370496) b = 4503599627370496 := by simpa using h3
  simp [h4]

/-- The whole book read gives exactly 100. -/
theorem jsPercentExpr_self {b : Int} (hb : 0 < b) : jsPercentExpr b b = 100 := by
  rw [jsPercentExpr_pos_eq hb hb, flPos_self (by omega : 0 < b.natAbs)]
  decide

/-- C30. The percentage that `GET /api/progress` and `POST /api/progress` derive for a row
on page `currentPage` of a Book of `totalPages` pages, `0 ≤ currentPage ≤ totalPages`: it
lies in `[0, 100]`, it is 100 when `currentPage = totalPages > 0`, it is 0 when
`currentPage = 0`, and it does not decrease when `currentPage` grows within
`[0, totalPages]`; `POST /api/progress` answers with this value whenever the Book of the row
exists. -/
theorem percentage_is_valid_percent (currentPage totalPages : Int)
    (h0 : 0 ≤ currentPage) (h1 : currentPage ≤ totalPages) :
    0 ≤ roundPercent currentPage totalPages ∧
    roundPercent currentPage totalPages ≤ 100 ∧
    (0 < totalPages → roundPercent totalPages totalPages = 100) ∧
    roundPercent 0 totalPages = 0 ∧
    (∀ later : Int, currentPage ≤ later → later ≤ totalPages →
      roundPercent currentPage totalPages ≤ roundPercent later totalPages) ∧
    (∀ (s : Store) (p : ReadingProgress) (b : Book), s.findBookById p.bookId = some b →
      p.currentPage = currentPage → b.totalPages = totalPages →
      progressResponse s p = ⟨200, .progress p b (roundPercent currentPage totalPages)⟩) := by
  have hzero : roundPercent 0 totalPages = 0 := by
    unfold roundPercent jsPercentExpr
    simp
  have hmono : ∀ x y : Int, 0 ≤ x → x ≤ y → y ≤ totalPages →
      roundPercent x totalPages ≤ roundPercent y totalPages := by
    intro x y hx hxy hy
    unfold roundPercent
    split_ifs with hb
    · rcases eq_or_lt_of_le hx with hx0 | hxpos
      · rw [← hx0]
        have : jsPercentExpr 0 totalPages = 0 := by simp [jsPercentExpr]
        rw [this]
        exact jsPercentExpr_nonneg (le_trans hx hxy) hb
      · exact jsPercentExpr_mono hxpos hxy hb
    · exact le_rfl
  have hfull : 0 < totalPages → roundPercent totalPages totalPages = 100 := by
    intro hb
    unfold roundPercent
    rw [if_pos hb]
    exact jsPercentExpr_self hb
  refine ⟨?_, ?_, hfull, hzero, fun later hl hlt => hmono _ _ h0 hl hlt, ?_⟩
  · rw [← hzero]
    exact hmono 0 currentPage le_rfl h0 h1
  · rcases eq_or_lt_of_le (le_trans h0 h1) with hb0 | hb
    · rw [← hb0]
      simp [roundPercent]
    · rw [← hfull hb]
      exact hmono currentPage totalPages h0 h1 le_rfl
  · intro s p b hfind hcp htp
    unfold progressResponse
    rw [hfind]
    simp only [hcp, htp]

/-- Witness for C30: page 23 of a Book of 40 pages. -/
theorem percentage_is_valid_percent_witness :
    0 ≤ roundPercent 23 40 ∧
    roundPercent 23 40 ≤ 100 ∧
    (0 < (40 : Int) → roundPercent 40 40 = 100) ∧
    roundPercent 0 40 = 0 ∧
    (∀ later : Int, 23 ≤ later → later ≤ 40 → roundPercent 23 40 ≤ roundPercent later 40) ∧
    (∀ (s : Store) (p : ReadingProgress) (b : Book), s.findBookById p.bookId = some b →
      p.currentPage = 23 → b.totalPages = 40 →
      progressResponse s p = ⟨200, .progress p b (roundPercent 23 40)⟩) :=
  percentage_is_valid_percent 23 40 (by decide) (by decide)

end BookTracker
